import Mathlib

/-!
# Alerting core of the IoT platform

A shallow embedding of the rule engine (`engine/RuleEngine.cpp`), the telemetry
sample (`models/IoTData.h`) and the duplicate-suppression cache of the alert
processing service (`services/AlertService.cpp`), followed by the properties
proved about them.

Conventions of the embedding:

* a `double` is a rational, an infinity or a NaN; only comparisons are used;
* `int` counters are unbounded integers (signed overflow is not modelled);
* a `std::chrono::system_clock::time_point` is its integer tick count, and the
  clock is an explicit argument of every function that reads it;
* console output is not modelled;
* mutexes are not modelled: every function is one sequential call.
-/

namespace IotCore

/-! ## The C++ double, restricted to comparisons -/

/-- A C++ double: a finite value (every finite double is a rational), an
infinity or a NaN. -/
inductive Double where
  | finite (q : ℚ)
  | posInf
  | negInf
  | nan

namespace Double

/-- The operator `a < b` on doubles: false as soon as one side is a NaN. -/
def lt : Double → Double → Bool
  | finite a, finite b => decide (a < b)
  | finite _, posInf => true
  | negInf, finite _ => true
  | negInf, posInf => true
  | _, _ => false

/-- The operator `a <= b` on doubles: false as soon as one side is a NaN. -/
def le : Double → Double → Bool
  | finite a, finite b => decide (a ≤ b)
  | finite _, posInf => true
  | negInf, finite _ => true
  | negInf, posInf => true
  | posInf, posInf => true
  | negInf, negInf => true
  | _, _ => false

/-- The operator `a > b` on doubles. -/
def gt (a b : Double) : Bool := lt b a

/-- The operator `a >= b` on doubles. -/
def ge (a b : Double) : Bool := le b a

/-- An integer literal converted to double, as in `temperature >= -50`. -/
def ofInt (n : Int) : Double := finite n

end Double

/-! ## Time -/

/-- A `std::chrono::system_clock::time_point`: the tick count since the epoch. -/
abbrev TimePoint := Int

/-- Ticks of `std::chrono::system_clock` in one second (its period is the
nanosecond in libstdc++). -/
def ticksPerSecond : Int := 1000000000

/-- The duration `std::chrono::seconds(n)` converted to clock ticks, as the
comparison with a `system_clock::duration` converts it. -/
def seconds (n : Int) : Int := n * ticksPerSecond

/-! ## models/IoTData.h -/

/-- The struct `IoTData`. -/
structure IoTData where
  id : Int := 0
  deviceId : String := ""
  temperature : Double := Double.finite 0
  humidity : Double := Double.finite 0
  timestamp : String := ""

/-- The method `IoTData::isValid`. -/
def IoTData.isValid (d : IoTData) : Bool :=
  !d.deviceId.isEmpty &&
    Double.ge d.temperature (Double.ofInt (-50)) && Double.le d.temperature (Double.ofInt 100) &&
    Double.ge d.humidity (Double.ofInt 0) && Double.le d.humidity (Double.ofInt 100)

/-! ## services/AlertService: the duplicate-suppression cache -/

/-- The struct `AlertProcessingService::AlertStatistics`. -/
structure AlertStatistics where
  totalAlerts : Int := 0
  temperatureAlerts : Int := 0
  humidityAlerts : Int := 0
  usersNotified : Int := 0

/-- The `std::unordered_map<std::string, time_point>` of the service, as the
list of its entries. -/
abbrev AlertCache := List (String × TimePoint)

/-- The member function `find` of the map: the value stored under `key`, if any. -/
def mapFind (c : AlertCache) (key : String) : Option TimePoint :=
  match c with
  | [] => none
  | (k, t) :: rest => if k = key then some t else mapFind rest key

/-- The assignment `map[key] = v`: overwrites the entry of `key`, or creates it. -/
def mapAssign (c : AlertCache) (key : String) (v : TimePoint) : AlertCache :=
  match c with
  | [] => [(key, v)]
  | (k, t) :: rest => if k = key then (k, v) :: rest else (k, t) :: mapAssign rest key v

/-- The state of an `AlertProcessingService` object that its own code owns. -/
structure AlertProcessingService where
  statistics_ : AlertStatistics := {}
  alertCache_ : AlertCache := []

/-- The member `cacheDuration_`, initialised to `std::chrono::seconds(300)` and
never assigned afterwards. -/
def AlertProcessingService.cacheDuration_ : Int := seconds 300

/-- The key built by `shouldNotify`:
`std::to_string(userId) + "_" + deviceId + "_" + alertType`. -/
def cacheKey (userId : Int) (deviceId alertType : String) : String :=
  toString userId ++ "_" ++ deviceId ++ "_" ++ alertType

/-- The eviction loop of `shouldNotify`: walks the map and erases every entry
with `now - it->second > cacheDuration_`. -/
def evictLoop (now : TimePoint) : AlertCache → AlertCache
  | [] => []
  | (k, t) :: rest =>
    if now - t > AlertProcessingService.cacheDuration_ then evictLoop now rest
    else (k, t) :: evictLoop now rest

/-- The method `AlertProcessingService::shouldNotify`, with the clock reading
`now` as an argument. The argument `value` is not used by the code. -/
def shouldNotify (userId : Int) (deviceId alertType : String) (_value : Double)
    (now : TimePoint) (s : AlertProcessingService) : Bool × AlertProcessingService :=
  let cacheKey := cacheKey userId deviceId alertType
  let evicted := evictLoop now s.alertCache_
  if (mapFind evicted cacheKey).isSome then
    (false, { s with alertCache_ := evicted })
  else
    (true, { s with alertCache_ := mapAssign evicted cacheKey now })

/-- The alert kinds passed to `shouldNotify` by `checkUserAlerts`. -/
def alertKinds : List String := ["temp_high", "temp_low", "hum_high", "hum_low"]

/-- Reference definition of the notify-check, after the specification: (a) drop
every entry whose age exceeds the 300 s window, whatever its key; (b) if an
entry for the exact key remains, answer false and keep the cache as eviction
left it; (c) otherwise store key -> now and answer true. -/
def shouldNotifySpec (userId : Int) (deviceId alertKind : String) (now : TimePoint)
    (s : AlertProcessingService) : Bool × AlertProcessingService :=
  let live := s.alertCache_.filter (fun e => decide (now - e.2 ≤ seconds 300))
  if live.any (fun e => e.1 == cacheKey userId deviceId alertKind) then
    (false, { s with alertCache_ := live })
  else
    (true, { s with alertCache_ := live ++ [(cacheKey userId deviceId alertKind, now)] })

/-- The value of a decimal digit character. -/
def digitValue (c : Char) : Nat := c.toNat - 48

/-- The number a list of decimal digit characters denotes. -/
def decimalValue (l : List Char) : Nat := l.foldl (fun a c => 10 * a + digitValue c) 0

/-! ## engine/RuleEngine -/

/-- What a callable may throw: an object of a class derived from
`std::exception` (with its `what()` text), or an object of any other type. -/
inductive Thrown where
  | stdException (what : String)
  | other
  deriving DecidableEq

/-- The struct `Rule`, over the type `W` of the state its action can touch.
The member `condition` is a `std::function`: the call `condition(data)` throws
the object `conditionThrows data` when this is `some` (`std::bad_function_call`
for an empty function, or what the callable throws), and returns
`condition data` otherwise. The action transforms the state and returns
normally (`none`) or throws (`some`), the state it leaves behind being the one
reached when the exception was thrown. -/
structure Rule (W : Type) where
  name : String
  description : String
  condition : IoTData → Bool
  action : IoTData → W → W × Option Thrown
  priority : Int := 0
  enabled : Bool := true
  conditionThrows : IoTData → Option Thrown := fun _ => none

/-- The struct `RuleEngine::Statistics`; `ruleTriggerCount` is the
`std::unordered_map<std::string, int>`, as the list of its entries. -/
structure Statistics where
  totalProcessed : Int := 0
  rulesTriggered : Int := 0
  ruleTriggerCount : List (String × Int) := []

/-- The statement `map[key]++` on the trigger-count map: a missing entry is
created with value 0 and then incremented. -/
def mapIncrement (m : List (String × Int)) (key : String) : List (String × Int) :=
  match m with
  | [] => [(key, 1)]
  | (k, n) :: rest => if k = key then (k, n + 1) :: rest else (k, n) :: mapIncrement rest key

/-- The count stored for `key` in the trigger-count map, 0 when it has no entry. -/
def countOf (m : List (String × Int)) (key : String) : Int :=
  match m with
  | [] => 0
  | (k, n) :: rest => if k = key then n else countOf rest key

/-- The state of a `RuleEngine` object. `alertService_` stands for the pointed-to
service, through the one method the engine calls on it, `processTelemetryData`. -/
structure RuleEngine (W : Type) where
  rules_ : List (Rule W) := []
  alertService_ : String → Double → Double → W → W × Option Thrown
  statistics_ : Statistics := {}

/-- The requirement of `std::sort` on its comparator: a strict weak ordering. -/
structure StrictWeakOrder {α : Type} (comp : α → α → Bool) : Prop where
  irrefl : ∀ a, comp a a = false
  trans : ∀ a b c, comp a b = true → comp b c = true → comp a c = true
  incomp_trans : ∀ a b c, comp a b = false → comp b a = false → comp b c = false →
    comp c b = false → comp a c = false ∧ comp c a = false

/-- An implementation of `std::sort(first, last, comp)`, known by its contract
only: the result is a rearrangement of the input in which no element is ordered
before an earlier one. The order of equivalent elements is left open. -/
structure StdSort where
  sort : {α : Type} → (α → α → Bool) → List α → List α
  perm : ∀ {α : Type} (comp : α → α → Bool) (l : List α), (sort comp l).Perm l
  sorted : ∀ {α : Type} (comp : α → α → Bool) (l : List α), StrictWeakOrder comp →
    (sort comp l).Pairwise (fun a b => comp b a = false)

/-- An implementation of the `std::sort` contract by insertion: equivalent
elements keep their input order. -/
def insertionStdSort : StdSort where
  sort := fun comp l => l.insertionSort (fun a b => comp b a = false)
  perm := fun comp l => List.perm_insertionSort (fun a b => comp b a = false) l
  sorted := by
    intro α comp l h
    haveI : IsTotal α (fun a b => comp b a = false) := ⟨by
      intro a b
      cases hba : comp b a with
      | false => exact Or.inl rfl
      | true =>
        cases hab : comp a b with
        | false => exact Or.inr rfl
        | true =>
          have := h.trans a b a hab hba
          rw [h.irrefl a] at this
          exact absurd this (by decide)⟩
    haveI : IsTrans α (fun a b => comp b a = false) := ⟨by
      intro a b c hba hcb
      cases hca : comp c a with
      | false => rfl
      | true =>
        have hbc : comp b c = false := by
          cases hbc : comp b c with
          | false => rfl
          | true =>
            have := h.trans b c a hbc hca
            rw [hba] at this
            exact absurd this (by decide)
        have hab : comp a b = false := by
          cases hab : comp a b with
          | false => rfl
          | true =>
            have := h.trans c a b hca hab
            rw [hcb] at this
            exact absurd this (by decide)
        have := (h.incomp_trans c b a hcb hbc hba hab).1
        rw [hca] at this
        exact absurd this (by decide)⟩
    exact List.sorted_insertionSort (fun a b => comp b a = false) l

/-- Another implementation of the `std::sort` contract: insertion into the
reversed input, so that equivalent elements come out in reverse input order. -/
def reversingStdSort : StdSort where
  sort := fun comp l => insertionStdSort.sort comp l.reverse
  perm := fun comp l => (insertionStdSort.perm comp l.reverse).trans (List.reverse_perm l)
  sorted := fun comp l h => insertionStdSort.sorted comp l.reverse h

/-- The comparator of `sortRulesByPriority`: `a.priority > b.priority`. -/
def priorityGreater {W : Type} (a b : Rule W) : Bool := decide (a.priority > b.priority)

/-- The method `RuleEngine::sortRulesByPriority`, on the rule list. -/
def sortRulesByPriority {W : Type} (S : StdSort) (rules : List (Rule W)) : List (Rule W) :=
  S.sort priorityGreater rules

/-- The method `RuleEngine::addRule`: `find_if` by name, then assignment through
the iterator or `push_back`, then the sort. -/
def addRule {W : Type} (S : StdSort) (rule : Rule W) (e : RuleEngine W) : RuleEngine W :=
  let it := e.rules_.findIdx (fun r => r.name == rule.name)
  let rules := if it ≠ e.rules_.length then e.rules_.set it rule else e.rules_ ++ [rule]
  { e with rules_ := sortRulesByPriority S rules }

/-- The method `RuleEngine::removeRule`: `remove_if` keeps the other rules in
order, and the tail is erased when something was removed. -/
def removeRule {W : Type} (ruleName : String) (e : RuleEngine W) : RuleEngine W :=
  let kept := e.rules_.filter (fun r => !(r.name == ruleName))
  if kept.length ≠ e.rules_.length then { e with rules_ := kept } else e

/-- The loop shared by `enableRule` and `disableRule`: the first rule with the
name gets its flag set and the loop returns. -/
def setEnabledLoop {W : Type} (ruleName : String) (value : Bool) :
    List (Rule W) → List (Rule W)
  | [] => []
  | rule :: rest =>
    if rule.name = ruleName then { rule with enabled := value } :: rest
    else rule :: setEnabledLoop ruleName value rest

/-- The method `RuleEngine::enableRule`. -/
def enableRule {W : Type} (ruleName : String) (e : RuleEngine W) : RuleEngine W :=
  { e with rules_ := setEnabledLoop ruleName true e.rules_ }

/-- The method `RuleEngine::disableRule`. -/
def disableRule {W : Type} (ruleName : String) (e : RuleEngine W) : RuleEngine W :=
  { e with rules_ := setEnabledLoop ruleName false e.rules_ }

/-- The method `RuleEngine::getRuleNames`: one `push_back` per rule. -/
def getRuleNames {W : Type} (e : RuleEngine W) : List String :=
  e.rules_.foldl (fun names rule => names ++ [rule.name]) []

/-- The method `RuleEngine::resetStatistics`. -/
def resetStatistics {W : Type} (e : RuleEngine W) : RuleEngine W :=
  { e with statistics_ := {} }

/-- The method `RuleEngine::executeRule`: runs the action inside
`try ... catch (const std::exception&)`. An exception derived from
`std::exception` is caught; any other thrown object leaves the function. -/
def executeRule {W : Type} (rule : Rule W) (data : IoTData) (w : W) : W × Option Thrown :=
  match rule.action data w with
  | (w1, none) => (w1, none)
  | (w1, some (Thrown.stdException _)) => (w1, none)
  | (w1, some Thrown.other) => (w1, some Thrown.other)

/-- The calls made by `processData` on the callables of the rules. -/
inductive Event where
  | conditionEvaluated (rule : String)
  | actionExecuted (rule : String)
  deriving DecidableEq

/-- What the loop of `processData` carries: the statistics, the state the
actions work on, and the record of the calls made so far. -/
structure LoopState (W : Type) where
  statistics : Statistics
  world : W
  trace : List Event

/-- The loop of `processData` over the copied rule list. The second component
is the exception that left the loop, if one did: the call of a condition is
inside no `try`, so what it throws leaves the loop, and so does what
`executeRule` lets through. -/
def applyRules {W : Type} (data : IoTData) :
    List (Rule W) → LoopState W → LoopState W × Option Thrown
  | [], st => (st, none)
  | rule :: rest, st =>
    if !rule.enabled then applyRules data rest st
    else
      let st1 := { st with trace := st.trace ++ [Event.conditionEvaluated rule.name] }
      match rule.conditionThrows data with
      | some t => (st1, some t)
      | none =>
        if rule.condition data then
          match executeRule rule data st1.world with
          | (w1, some t) =>
            ({ st1 with world := w1, trace := st1.trace ++ [Event.actionExecuted rule.name] },
              some t)
          | (w1, none) =>
            applyRules data rest
              { statistics :=
                  { st1.statistics with
                    rulesTriggered := st1.statistics.rulesTriggered + 1,
                    ruleTriggerCount := mapIncrement st1.statistics.ruleTriggerCount rule.name },
                world := w1,
                trace := st1.trace ++ [Event.actionExecuted rule.name] }
        else applyRules data rest st1

/-- The outcome of one `processData` call: the engine and the outside state it
leaves, the calls it made on rule callables, and the exception that left it. -/
structure ProcessResult (W : Type) where
  engine : RuleEngine W
  world : W
  trace : List Event
  escaped : Option Thrown

/-- The method `RuleEngine::processData`. -/
def processData {W : Type} (data : IoTData) (e : RuleEngine W) (w : W) : ProcessResult W :=
  if !data.isValid then
    { engine := e, world := w, trace := [], escaped := none }
  else
    let statistics := { e.statistics_ with totalProcessed := e.statistics_.totalProcessed + 1 }
    let rulesToApply := e.rules_
    let out := applyRules data rulesToApply { statistics := statistics, world := w, trace := [] }
    { engine := { e with statistics_ := out.1.statistics },
      world := out.1.world,
      trace := out.1.trace,
      escaped := out.2 }

/-- The method `RuleEngine::processDeviceData`; `timestamp` is the formatted
clock reading. -/
def processDeviceData {W : Type} (deviceId : String) (temperature humidity : Double)
    (timestamp : String) (e : RuleEngine W) (w : W) : ProcessResult W :=
  processData
    { id := 0, deviceId := deviceId, temperature := temperature, humidity := humidity,
      timestamp := timestamp } e w

/-- The function `std::to_string(double)`, that is the format `%f`: six decimals,
rounded to nearest, ties to even. -/
def Double.to_string : Double → String
  | Double.finite q =>
    let scaled : ℚ := |q| * 1000000
    let fl : Nat := scaled.floor.toNat
    let rest : ℚ := scaled - fl
    let n : Nat := if rest > 1 / 2 ∨ (rest = 1 / 2 ∧ fl % 2 = 1) then fl + 1 else fl
    let frac : String := toString (n % 1000000)
    (if q < 0 then "-" else "") ++ toString (n / 1000000) ++ "." ++
      String.mk (List.replicate (6 - frac.length) (Char.ofNat 48)) ++ frac
  | Double.posInf => "inf"
  | Double.negInf => "-inf"
  | Double.nan => "nan"

/-- The factory `RuleEngine::createDataValidationRule`: the condition is
constantly true and the action only logs. -/
def createDataValidationRule {W : Type} : Rule W :=
  { name := "data_validation",
    description := "Validate incoming telemetry data",
    condition := fun _ => true,
    action := fun _ w => (w, none),
    priority := 100,
    enabled := true }

/-- The factory `RuleEngine::createTemperatureHighRule`. -/
def createTemperatureHighRule {W : Type} (e : RuleEngine W) (threshold : Double) : Rule W :=
  { name := "temperature_high_alert",
    description := "Temperature above " ++ Double.to_string threshold ++ "°C",
    condition := fun data => Double.gt data.temperature threshold,
    action := fun data w => e.alertService_ data.deviceId data.temperature data.humidity w,
    priority := 10,
    enabled := true }

/-- The factory `RuleEngine::createTemperatureLowRule`. -/
def createTemperatureLowRule {W : Type} (e : RuleEngine W) (threshold : Double) : Rule W :=
  { name := "temperature_low_alert",
    description := "Temperature below " ++ Double.to_string threshold ++ "°C",
    condition := fun data => Double.lt data.temperature threshold,
    action := fun data w => e.alertService_ data.deviceId data.temperature data.humidity w,
    priority := 10,
    enabled := true }

/-- The factory `RuleEngine::createHumidityHighRule`. -/
def createHumidityHighRule {W : Type} (e : RuleEngine W) (threshold : Double) : Rule W :=
  { name := "humidity_high_alert",
    description := "Humidity above " ++ Double.to_string threshold ++ "%",
    condition := fun data => Double.gt data.humidity threshold,
    action := fun data w => e.alertService_ data.deviceId data.temperature data.humidity w,
    priority := 5,
    enabled := true }

/-- The factory `RuleEngine::createHumidityLowRule`. -/
def createHumidityLowRule {W : Type} (e : RuleEngine W) (threshold : Double) : Rule W :=
  { name := "humidity_low_alert",
    description := "Humidity below " ++ Double.to_string threshold ++ "%",
    condition := fun data => Double.lt data.humidity threshold,
    action := fun data w => e.alertService_ data.deviceId data.temperature data.humidity w,
    priority := 5,
    enabled := true }

/-- The method `RuleEngine::setupDefaultRules`: clears the rules, then adds the
five default rules one by one. The factories capture `this`, of which they use
the member `alertService_` only, which no call changes. -/
def setupDefaultRules {W : Type} (S : StdSort) (e : RuleEngine W) : RuleEngine W :=
  let e0 : RuleEngine W := { e with rules_ := [] }
  let e1 := addRule S createDataValidationRule e0
  let e2 := addRule S (createTemperatureHighRule e (Double.finite 28)) e1
  let e3 := addRule S (createTemperatureLowRule e (Double.finite 15)) e2
  let e4 := addRule S (createHumidityHighRule e (Double.finite 70)) e3
  addRule S (createHumidityLowRule e (Double.finite 30)) e4

/-- One call of the rule-management interface. -/
inductive RuleOp (W : Type) where
  | addRule (rule : Rule W)
  | removeRule (ruleName : String)
  | enableRule (ruleName : String)
  | disableRule (ruleName : String)

/-- The engine after one rule-management call. -/
def RuleOp.apply {W : Type} (S : StdSort) (op : RuleOp W) (e : RuleEngine W) : RuleEngine W :=
  match op with
  | RuleOp.addRule rule => IotCore.addRule S rule e
  | RuleOp.removeRule ruleName => IotCore.removeRule ruleName e
  | RuleOp.enableRule ruleName => IotCore.enableRule ruleName e
  | RuleOp.disableRule ruleName => IotCore.disableRule ruleName e

/-- The engine after a sequence of rule-management calls, first call first. -/
def applyOps {W : Type} (S : StdSort) (ops : List (RuleOp W)) (e : RuleEngine W) :
    RuleEngine W :=
  ops.foldl (fun acc op => op.apply S acc) e

/-- The rule list of `addRule` before the sort, by recursion on the list: the
first rule with the name of `rule` is overwritten, or `rule` is appended. -/
def replaceOrAppend {W : Type} (rule : Rule W) : List (Rule W) → List (Rule W)
  | [] => [rule]
  | r :: rest => if r.name = rule.name then rule :: rest else r :: replaceOrAppend rule rest

/-- An alert service that does nothing, on a state with nothing in it. -/
def idleService : String → Double → Double → Unit → Unit × Option Thrown :=
  fun _ _ _ w => (w, none)

/-- An engine with no rule, zeroed statistics and the idle alert service. -/
def idleEngine : RuleEngine Unit := { alertService_ := idleService }

/-- A sample: device d1, 35 degrees, 50 percent. -/
def sampleD1 : IoTData :=
  { deviceId := "d1", temperature := Double.finite 35, humidity := Double.finite 50 }

/-- The default rules in the order `setupDefaultRules` adds them. -/
def defaultRules {W : Type} (e : RuleEngine W) : List (Rule W) :=
  [createDataValidationRule,
    createTemperatureHighRule e (Double.finite 28),
    createTemperatureLowRule e (Double.finite 15),
    createHumidityHighRule e (Double.finite 70),
    createHumidityLowRule e (Double.finite 30)]

/-- The priority and the name of a rule. -/
def ruleKey {W : Type} (r : Rule W) : Int × String := (r.priority, r.name)

/-- The rules of a list that trigger on a sample: enabled, and the condition
holds. -/
def triggeredRules {W : Type} (data : IoTData) (rules : List (Rule W)) : List (Rule W) :=
  rules.filter (fun r => r.enabled && r.condition data)

/-- The calls `processData` is expected to make on a rule list when no
exception leaves it: for each enabled rule its condition and, when this holds,
its action. -/
def expectedTrace {W : Type} (data : IoTData) : List (Rule W) → List Event
  | [] => []
  | r :: rest =>
    (if r.enabled then
      Event.conditionEvaluated r.name ::
        (if r.condition data then [Event.actionExecuted r.name] else [])
    else []) ++ expectedTrace data rest

/-- The state after running the actions of the given rules one after the
other, whether they return or throw. -/
def runActions {W : Type} (data : IoTData) (rules : List (Rule W)) (w : W) : W :=
  rules.foldl (fun acc r => (r.action data acc).1) w

/-- The trigger-count map after one increment per given rule. -/
def bumpCounts {W : Type} (m : List (String × Int)) (rules : List (Rule W)) :
    List (String × Int) :=
  rules.foldl (fun acc r => mapIncrement acc r.name) m

/-- Whether an event is the execution of an action. -/
def Event.isAction : Event → Bool
  | Event.actionExecuted _ => true
  | Event.conditionEvaluated _ => false

/-- A rule on a counter whose action throws the given object. -/
def raisingRule (t : Thrown) : Rule Nat :=
  { name := "faulty", description := "throws", condition := fun _ => true,
    action := fun _ w => (w, some t), priority := 10, enabled := true }

/-- A rule on a counter whose action adds one to it. -/
def countingRule (name : String) (priority : Int) : Rule Nat :=
  { name := name, description := "counts", condition := fun _ => true,
    action := fun _ w => (w + 1, none), priority := priority, enabled := true }

/-- A rule on a counter whose condition is an empty `std::function`: calling it
throws `std::bad_function_call`, which derives from `std::exception`. -/
def emptyConditionRule : Rule Nat :=
  { name := "empty", description := "condition is empty", condition := fun _ => false,
    action := fun _ w => (w, none), priority := 7, enabled := true,
    conditionThrows := fun _ => some (Thrown.stdException "bad_function_call") }

/-- An engine on a counter, with the given rules and an alert service that adds
one to the counter. -/
def counterEngine (rules : List (Rule Nat)) : RuleEngine Nat :=
  { rules_ := rules, alertService_ := fun _ _ _ w => (w + 1, none) }

/-- An engine whose first rule throws the given object and whose second rule
counts. -/
def faultyEngine (t : Thrown) : RuleEngine Nat :=
  counterEngine [raisingRule t, countingRule "later" 5]

/-- An engine with a counting rule, a rule that throws the given object, a
disabled counting rule and a last counting rule. -/
def mixedEngine (t : Thrown) : RuleEngine Nat :=
  counterEngine [countingRule "first" 20, raisingRule t,
    { countingRule "off" 7 with enabled := false }, countingRule "later" 5]

/-- An engine whose first rule throws the given object, whose second rule has
an empty condition and whose third rule counts. -/
def emptyConditionEngine (t : Thrown) : RuleEngine Nat :=
  counterEngine [raisingRule t, emptyConditionRule, countingRule "later" 5]

/-- A service whose cache holds an entry fired at tick 0 for one key and an
entry fired 100 s later for the hum_low key of user 1 on device d. -/
def staleAndLiveService : AlertProcessingService :=
  { alertCache_ := [(cacheKey 1 "d" "temp_high", 0), (cacheKey 1 "d" "hum_low", seconds 100)] }

/-! ## models/IoTData.h: UserAlert -/

deriving instance DecidableEq for Double

/-- The struct `UserAlert`: the four thresholds of a subscriber, 0 when unset. -/
structure UserAlert where
  temperatureHighThreshold : Double := Double.finite 0
  temperatureLowThreshold : Double := Double.finite 0
  humidityHighThreshold : Double := Double.finite 0
  humidityLowThreshold : Double := Double.finite 0

/-- The method `UserAlert::hasAnyAlert`. -/
def UserAlert.hasAnyAlert (a : UserAlert) : Bool :=
  Double.gt a.temperatureHighThreshold (Double.finite 0) ||
    Double.gt a.temperatureLowThreshold (Double.finite 0) ||
    Double.gt a.humidityHighThreshold (Double.finite 0) ||
    Double.gt a.humidityLowThreshold (Double.finite 0)

/-! ## services/AlertService: the collaborators and the processing methods -/

/-- The arguments of one call of `NotificationService::sendTelegramAlert`. -/
structure Notification where
  chatId : Int
  deviceId : String
  value : Double
  metricType : String
  direction : String
  deriving DecidableEq

/-- The calls the alert processing service makes on its collaborators, and
the calls of its own notify-check with their result. -/
inductive AlertEvent where
  | isRemoteConnected
  | getAllSubscribedDevices
  | getRemoteTelemetry (deviceId : String) (limit : Int)
  | getDeviceSubscribers (deviceId : String)
  | getUserAlert (userId : Int)
  | shouldNotify (userId : Int) (deviceId alertType : String) (result : Bool)
  | sendTelegramAlert (n : Notification)
  deriving DecidableEq

/-- The data repository behind `database_`, through the methods the service
calls. The service only reads it. A call returns a value or fails with an
exception, given by its `what()` text: the exceptions of the repository come
from pqxx and the standard library and derive from `std::exception`. -/
structure DatabaseRepository where
  isRemoteConnected : Bool := false
  getAllSubscribedDevices : Except String (List String) := Except.ok []
  getRemoteTelemetry : String → Int → Except String (List IoTData) := fun _ _ => Except.ok []
  getDeviceSubscribers : String → Except String (List Int) := fun _ => Except.ok []
  getUserAlert : Int → Except String UserAlert := fun _ => Except.ok {}

/-- The notification gateway behind `notifier_`. The method `sendTelegramAlert`
returns nothing and raises nothing: it catches the failures of the Telegram
post and of the e-mail send itself and logs them. The field tells whether the
notification of a call is delivered, which the caller cannot see. -/
structure NotificationService where
  sendTelegramAlert : Notification → Bool := fun _ => true

/-- An `AlertProcessingService` object together with what it works on: the
collaborators behind `database_` and `notifier_`, the system clock, given by
its successive readings and the number of readings made so far, and the record
of the calls made. -/
structure AlertWorld where
  service : AlertProcessingService := {}
  database_ : DatabaseRepository := {}
  notifier_ : NotificationService := {}
  clock : Nat → TimePoint := fun _ => 0
  clockReads : Nat := 0
  trace : List AlertEvent := []

/-- The notification an event hands to the gateway, if it is a gateway call. -/
def AlertEvent.sent : AlertEvent → Option Notification
  | AlertEvent.sendTelegramAlert n => some n
  | _ => none

/-- The notifications handed to the gateway so far, in order. -/
def dispatched (w : AlertWorld) : List Notification :=
  w.trace.filterMap AlertEvent.sent

/-- The notifications handed to the gateway so far that it has delivered. -/
def delivered (w : AlertWorld) : List Notification :=
  (dispatched w).filter w.notifier_.sendTelegramAlert

/-- The method `AlertProcessingService::updateStatistics`. -/
def updateStatistics (alertType : String) (s : AlertProcessingService) :
    AlertProcessingService :=
  let st : AlertStatistics :=
    { s.statistics_ with
      totalAlerts := s.statistics_.totalAlerts + 1,
      usersNotified := s.statistics_.usersNotified + 1 }
  { s with statistics_ :=
      if alertType = "temperature" then
        { st with temperatureAlerts := st.temperatureAlerts + 1 }
      else if alertType = "humidity" then
        { st with humidityAlerts := st.humidityAlerts + 1 }
      else st }

/-- The method `AlertProcessingService::resetStatistics`. -/
def AlertProcessingService.resetStatistics (s : AlertProcessingService) :
    AlertProcessingService :=
  { s with statistics_ := {} }

/-- Runs `f`, then `g` unless `f` threw: two statements in sequence. -/
def andThen {W : Type} (f g : W → W × Option Thrown) : W → W × Option Thrown :=
  fun w =>
    match f w with
    | (w1, none) => g w1
    | (w1, some t) => (w1, some t)

/-- The statement that does nothing. -/
def skip {W : Type} : W → W × Option Thrown := fun w => (w, none)

/-- The body of each of the four blocks of `checkUserAlerts`:
`if (shouldNotify(...)) { notifier_->sendTelegramAlert(...); updateStatistics(...); }`.
The notify-check reads the clock; the gateway call returns whether the delivery
succeeds or not, and the statistics are updated after it. -/
def notifyAndDispatch (userId : Int) (deviceId alertType : String) (value : Double)
    (metricType direction : String) (w : AlertWorld) : AlertWorld × Option Thrown :=
  let r := shouldNotify userId deviceId alertType value (w.clock w.clockReads) w.service
  let w1 : AlertWorld :=
    { w with
      service := r.2,
      clockReads := w.clockReads + 1,
      trace := w.trace ++ [AlertEvent.shouldNotify userId deviceId alertType r.1] }
  if r.1 then
    let n : Notification :=
      { chatId := userId, deviceId := deviceId, value := value, metricType := metricType,
        direction := direction }
    let w2 : AlertWorld := { w1 with trace := w1.trace ++ [AlertEvent.sendTelegramAlert n] }
    ({ w2 with service := updateStatistics metricType w2.service }, none)
  else (w1, none)

/-- The four blocks of `checkUserAlerts`, for the settings `alert`. -/
def checkThresholds (alert : UserAlert) (userId : Int) (deviceId : String)
    (temperature humidity : Double) : AlertWorld → AlertWorld × Option Thrown :=
  andThen
    (if Double.gt alert.temperatureHighThreshold (Double.finite 0) &&
        Double.gt temperature alert.temperatureHighThreshold then
      notifyAndDispatch userId deviceId "temp_high" temperature "temperature" "above"
    else skip)
  (andThen
    (if Double.gt alert.temperatureLowThreshold (Double.finite 0) &&
        Double.lt temperature alert.temperatureLowThreshold then
      notifyAndDispatch userId deviceId "temp_low" temperature "temperature" "below"
    else skip)
  (andThen
    (if Double.gt alert.humidityHighThreshold (Double.finite 0) &&
        Double.gt humidity alert.humidityHighThreshold then
      notifyAndDispatch userId deviceId "hum_high" humidity "humidity" "above"
    else skip)
    (if Double.gt alert.humidityLowThreshold (Double.finite 0) &&
        Double.lt humidity alert.humidityLowThreshold then
      notifyAndDispatch userId deviceId "hum_low" humidity "humidity" "below"
    else skip)))

/-- The method `AlertProcessingService::checkUserAlerts`. -/
def checkUserAlerts (userId : Int) (deviceId : String) (temperature humidity : Double)
    (w : AlertWorld) : AlertWorld × Option Thrown :=
  let w0 : AlertWorld := { w with trace := w.trace ++ [AlertEvent.getUserAlert userId] }
  match w.database_.getUserAlert userId with
  | Except.error what => (w0, some (Thrown.stdException what))
  | Except.ok alert =>
    if !alert.hasAnyAlert then (w0, none)
    else checkThresholds alert userId deviceId temperature humidity w0

/-- The lines `checkGlobalAlerts` prints: it does nothing else. -/
def globalAlertLines (temperature humidity : Double) : List String :=
  (if Double.gt temperature (Double.finite 40) then ["CRITICAL: Very high temperature"]
    else []) ++
  (if Double.lt temperature (Double.finite 0) then ["CRITICAL: Very low temperature"]
    else []) ++
  (if Double.gt humidity (Double.finite 90) || Double.lt humidity (Double.finite 10) then
    ["Extreme humidity"] else [])

/-- The method `AlertProcessingService::checkGlobalAlerts`: console output only,
so the state is returned as it is. -/
def checkGlobalAlerts (_deviceId : String) (_temperature _humidity : Double)
    (w : AlertWorld) : AlertWorld := w

/-- The loop `for (long userId : subscribers) checkUserAlerts(...)`; an exception
leaves the loop. -/
def forEachSubscriber (deviceId : String) (temperature humidity : Double) :
    List Int → AlertWorld → AlertWorld × Option Thrown
  | [], w => (w, none)
  | userId :: rest, w =>
    match checkUserAlerts userId deviceId temperature humidity w with
    | (w1, none) => forEachSubscriber deviceId temperature humidity rest w1
    | (w1, some t) => (w1, some t)

/-- The method `AlertProcessingService::processTelemetryData`. -/
def processTelemetryData (deviceId : String) (temperature humidity : Double)
    (w : AlertWorld) : AlertWorld × Option Thrown :=
  let w0 : AlertWorld :=
    { w with trace := w.trace ++ [AlertEvent.getDeviceSubscribers deviceId] }
  match w.database_.getDeviceSubscribers deviceId with
  | Except.error what => (w0, some (Thrown.stdException what))
  | Except.ok subscribers =>
    match forEachSubscriber deviceId temperature humidity subscribers w0 with
    | (w1, none) => (checkGlobalAlerts deviceId temperature humidity w1, none)
    | (w1, some t) => (w1, some t)

/-- The body of the `try` block of `checkAllSubscribedDevices` for one device. -/
def checkDevice (deviceId : String) (w : AlertWorld) : AlertWorld × Option Thrown :=
  let w0 : AlertWorld :=
    { w with trace := w.trace ++ [AlertEvent.getRemoteTelemetry deviceId 1] }
  match w.database_.getRemoteTelemetry deviceId 1 with
  | Except.error what => (w0, some (Thrown.stdException what))
  | Except.ok [] => (w0, none)
  | Except.ok (data :: _) =>
    let w1 : AlertWorld :=
      { w0 with trace := w0.trace ++ [AlertEvent.getDeviceSubscribers deviceId] }
    match w.database_.getDeviceSubscribers deviceId with
    | Except.error what => (w1, some (Thrown.stdException what))
    | Except.ok [] => (w1, none)
    | Except.ok (userId :: rest) =>
      forEachSubscriber deviceId data.temperature data.humidity (userId :: rest) w1

/-- The loop over the devices of `checkAllSubscribedDevices`, with its
`try ... catch (const std::exception&)` around each turn. -/
def forEachDevice : List String → AlertWorld → AlertWorld × Option Thrown
  | [], w => (w, none)
  | deviceId :: rest, w =>
    match checkDevice deviceId w with
    | (w1, none) => forEachDevice rest w1
    | (w1, some (Thrown.stdException _)) => forEachDevice rest w1
    | (w1, some Thrown.other) => (w1, some Thrown.other)

/-- The method `AlertProcessingService::checkAllSubscribedDevices`. -/
def checkAllSubscribedDevices (w : AlertWorld) : AlertWorld × Option Thrown :=
  let w0 : AlertWorld := { w with trace := w.trace ++ [AlertEvent.isRemoteConnected] }
  if !w.database_.isRemoteConnected then (w0, none)
  else
    let w1 : AlertWorld := { w0 with trace := w0.trace ++ [AlertEvent.getAllSubscribedDevices] }
    match w.database_.getAllSubscribedDevices with
    | Except.error what => (w1, some (Thrown.stdException what))
    | Except.ok devices =>
      if devices.isEmpty then (w1, none) else forEachDevice devices w1

/-- A rule engine whose `alertService_` is the alert processing service. -/
def wiredEngine (statistics : Statistics) : RuleEngine AlertWorld :=
  { rules_ := [], alertService_ := processTelemetryData, statistics_ := statistics }

/-- The relation between the counters of `AlertStatistics` that the service
keeps. -/
def StatsInv (st : AlertStatistics) : Prop :=
  st.totalAlerts = st.usersNotified ∧
    st.totalAlerts = st.temperatureAlerts + st.humidityAlerts

/-- What every step of the service guarantees: it throws nothing but
exceptions derived from `std::exception`, it leaves the collaborators and the
clock as they are, and it keeps the relation between the counters. -/
structure Good (f : AlertWorld → AlertWorld × Option Thrown) : Prop where
  noOther : ∀ w, (f w).2 ≠ some Thrown.other
  database : ∀ w, (f w).1.database_ = w.database_
  notifier : ∀ w, (f w).1.notifier_ = w.notifier_
  clock : ∀ w, (f w).1.clock = w.clock
  stats : ∀ w, StatsInv w.service.statistics_ → StatsInv (f w).1.service.statistics_

/-- The notifications `checkUserAlerts` is expected to dispatch for a
subscriber with settings `cfg`, after the specification: temperature above iff
the high threshold is armed and exceeded, temperature below iff the low
threshold is armed and undercut, and the same for humidity, in this order. -/
def expectedNotifications (cfg : UserAlert) (userId : Int) (deviceId : String)
    (temperature humidity : Double) : List Notification :=
  (if Double.gt cfg.temperatureHighThreshold (Double.finite 0) &&
      Double.gt temperature cfg.temperatureHighThreshold then
    [{ chatId := userId, deviceId := deviceId, value := temperature,
       metricType := "temperature", direction := "above" }] else []) ++
  (if Double.gt cfg.temperatureLowThreshold (Double.finite 0) &&
      Double.lt temperature cfg.temperatureLowThreshold then
    [{ chatId := userId, deviceId := deviceId, value := temperature,
       metricType := "temperature", direction := "below" }] else []) ++
  (if Double.gt cfg.humidityHighThreshold (Double.finite 0) &&
      Double.gt humidity cfg.humidityHighThreshold then
    [{ chatId := userId, deviceId := deviceId, value := humidity,
       metricType := "humidity", direction := "above" }] else []) ++
  (if Double.gt cfg.humidityLowThreshold (Double.finite 0) &&
      Double.lt humidity cfg.humidityLowThreshold then
    [{ chatId := userId, deviceId := deviceId, value := humidity,
       metricType := "humidity", direction := "below" }] else [])

/-- Every entry of the cache is the key of one of the four alert kinds on the
device, for one of the given users or, for the user `u`, one of the kinds `ks`. -/
def KeysOf (deviceId : String) (users : List Int) (u : Int) (ks : List String)
    (c : AlertCache) : Prop :=
  ∀ e ∈ c, ∃ (v : Int) (k : String), k ∈ alertKinds ∧ e.1 = cacheKey v deviceId k ∧
    (v ∈ users ∨ (v = u ∧ k ∈ ks))

/-- The user an event is about, if it is about one. -/
def AlertEvent.userOf : AlertEvent → Option Int
  | AlertEvent.getUserAlert userId => some userId
  | AlertEvent.shouldNotify userId _ _ _ => some userId
  | AlertEvent.sendTelegramAlert n => some n.chatId
  | _ => none

/-- One call on the alert processing service or a change of what surrounds it. -/
inductive AlertOp where
  | processTelemetryData (deviceId : String) (temperature humidity : Double)
  | checkAllSubscribedDevices
  | resetStatistics
  | surroundings (database : DatabaseRepository) (notifier : NotificationService)
      (clock : Nat → TimePoint)

/-- The state after one operation; an exception raised by the call is dropped. -/
def AlertOp.run (op : AlertOp) (w : AlertWorld) : AlertWorld :=
  match op with
  | AlertOp.processTelemetryData deviceId temperature humidity =>
    (IotCore.processTelemetryData deviceId temperature humidity w).1
  | AlertOp.checkAllSubscribedDevices => (IotCore.checkAllSubscribedDevices w).1
  | AlertOp.resetStatistics => { w with service := w.service.resetStatistics }
  | AlertOp.surroundings database notifier clock =>
    { w with database_ := database, notifier_ := notifier, clock := clock }

/-- The state after a sequence of operations, first one first. -/
def runAlertOps (ops : List AlertOp) (w : AlertWorld) : AlertWorld :=
  ops.foldl (fun acc op => op.run acc) w

/-- The alert type, metric and direction of the four blocks of
`checkUserAlerts`. -/
def alertBlocks : List (String × String × String) :=
  [("temp_high", "temperature", "above"), ("temp_low", "temperature", "below"),
    ("hum_high", "humidity", "above"), ("hum_low", "humidity", "below")]

/-- The events a step adds to the record of calls all satisfy `A`. -/
def NewEvents (A : AlertEvent → Prop) (f : AlertWorld → AlertWorld × Option Thrown) : Prop :=
  ∀ w, ∃ evs : List AlertEvent, (f w).1.trace = w.trace ++ evs ∧ ∀ ev ∈ evs, A ev

/-- The events one block of `checkUserAlerts` can add: the notify-check of its
alert type and the gateway call with its value, metric and direction, and none
when the block does not fire. -/
def blockEvent (fires : Bool) (userId : Int) (deviceId alertType : String) (value : Double)
    (metricType direction : String) (ev : AlertEvent) : Prop :=
  fires = true ∧
    ((∃ b, ev = AlertEvent.shouldNotify userId deviceId alertType b) ∨
      ev = AlertEvent.sendTelegramAlert
        { chatId := userId, deviceId := deviceId, value := value, metricType := metricType,
          direction := direction })

/-- The events the four blocks of `checkUserAlerts` can add for the settings
`alert`. -/
def thresholdEvent (alert : UserAlert) (userId : Int) (deviceId : String)
    (temperature humidity : Double) (ev : AlertEvent) : Prop :=
  blockEvent (Double.gt alert.temperatureHighThreshold (Double.finite 0) &&
      Double.gt temperature alert.temperatureHighThreshold)
    userId deviceId "temp_high" temperature "temperature" "above" ev ∨
  blockEvent (Double.gt alert.temperatureLowThreshold (Double.finite 0) &&
      Double.lt temperature alert.temperatureLowThreshold)
    userId deviceId "temp_low" temperature "temperature" "below" ev ∨
  blockEvent (Double.gt alert.humidityHighThreshold (Double.finite 0) &&
      Double.gt humidity alert.humidityHighThreshold)
    userId deviceId "hum_high" humidity "humidity" "above" ev ∨
  blockEvent (Double.gt alert.humidityLowThreshold (Double.finite 0) &&
      Double.lt humidity alert.humidityLowThreshold)
    userId deviceId "hum_low" humidity "humidity" "below" ev

/-- The process-wide configuration kept by the `ConfigManager` singleton: its
key and value strings, and where they were loaded from. -/
structure ConfigManager where
  config_ : List (String × String) := []
  loaded_ : Bool := false
  source_ : String := "default"

/-- The method `RuleEngine::setupDefaultRules` run in a process whose
configuration is `config`: the method has no parameter and its body reads no
configuration, so the configuration does not appear in the result. -/
def setupDefaultRulesIn {W : Type} (_config : ConfigManager) (S : StdSort)
    (e : RuleEngine W) : RuleEngine W :=
  setupDefaultRules S e

/-- The settings of Scenario B: thresholds 28, 15, 70 and 30. -/
def scenarioAlert : UserAlert :=
  { temperatureHighThreshold := Double.finite 28,
    temperatureLowThreshold := Double.finite 15,
    humidityHighThreshold := Double.finite 70,
    humidityLowThreshold := Double.finite 30 }

/-- A state with an empty cache and zeroed statistics in which the given users
subscribe to device d1, each with the settings of Scenario B, the repository
link is up, and the clock always reads 0. -/
def subscribedWorld (users : List Int) : AlertWorld :=
  { database_ :=
      { isRemoteConnected := true,
        getAllSubscribedDevices := Except.ok ["d1"],
        getDeviceSubscribers := fun d => if d = "d1" then Except.ok users else Except.ok [],
        getUserAlert := fun _ => Except.ok scenarioAlert } }

/-- The state `subscribedWorld [1, 2]` with a repository that fails to fetch the
settings of user 1. -/
def failingConfigWorld : AlertWorld :=
  { subscribedWorld [1, 2] with
    database_ :=
      { (subscribedWorld [1, 2]).database_ with
        getUserAlert := fun u =>
          if u = 1 then Except.error "connection lost" else Except.ok scenarioAlert } }

/-- The state `subscribedWorld [1, 2]` with a gateway that fails to deliver the
notifications for user 1. -/
def failingGatewayWorld : AlertWorld :=
  { subscribedWorld [1, 2] with
    notifier_ := { sendTelegramAlert := fun n => decide (n.chatId ≠ 1) } }

/-- A state in which the repository link is up and no device has a subscriber. -/
def linkUpNoDevices : AlertWorld :=
  { database_ := { isRemoteConnected := true } }

/-- A sample the validity check refuses: 150 degrees on device d1. -/
def sampleTooHot : IoTData :=
  { deviceId := "d1", temperature := Double.finite 150, humidity := Double.finite 50 }

/-- A sample inside every default threshold: 20 degrees, 50 percent. -/
def sampleInBand : IoTData :=
  { deviceId := "d1", temperature := Double.finite 20, humidity := Double.finite 50 }

/-- Settings with the temperature thresholds unset and the humidity thresholds
70 and 30. -/
def humidityOnlyAlert : UserAlert :=
  { humidityHighThreshold := Double.finite 70, humidityLowThreshold := Double.finite 30 }

/-- The state `subscribedWorld [7]` in which subscriber 7 has the given
settings. -/
def configuredWorld (alert : UserAlert) : AlertWorld :=
  { subscribedWorld [7] with
    database_ :=
      { (subscribedWorld [7]).database_ with getUserAlert := fun _ => Except.ok alert } }

/-- The state of Scenario B: subscriber 7 of device d1 with the thresholds 28,
15, 70 and 30, an empty cache, zeroed statistics, and a clock that reads 0,
then 1 s, then 301 s. -/
def scenarioWorld : AlertWorld :=
  { subscribedWorld [7] with
    clock := fun n =>
      match n with
      | 0 => 0
      | 1 => seconds 1
      | _ => seconds 301 }

/-! ## Properties kept by the steps of the alert processing service -/

/-- A step keeps a property of the state: if it holds before the step it holds
in the state the step leaves, whether the step returns or throws. -/
def Keeps (I : AlertWorld → Prop) (f : AlertWorld → AlertWorld × Option Thrown) : Prop :=
  ∀ w, I w → I (f w).1

/-- A property of the state that the two elementary steps of the service keep:
recording a call that is not a gateway call, and the body of each of the four
blocks of `checkUserAlerts`. -/
structure StepInv (I : AlertWorld → Prop) : Prop where
  record : ∀ (ev : AlertEvent) (w : AlertWorld), ev.sent = none → I w →
    I { w with trace := w.trace ++ [ev] }
  block : ∀ b ∈ alertBlocks, ∀ (u : Int) (d : String) (v : Double),
    Keeps I (notifyAndDispatch u d b.1 v b.2.1 b.2.2)

/-- A state in which the devices d1, d2 and d3 have subscribers: the telemetry
fetch of d1 fails, d2 has no data, and d3 reports 35 degrees and 50 percent to
its subscriber 7, whose thresholds are 28, 15, 70 and 30. -/
def threeDevicesWorld : AlertWorld :=
  { database_ :=
      { isRemoteConnected := true,
        getAllSubscribedDevices := Except.ok ["d1", "d2", "d3"],
        getRemoteTelemetry := fun d _ =>
          if d = "d1" then Except.error "query failed"
          else if d = "d2" then Except.ok []
          else Except.ok [{ deviceId := d, temperature := Double.finite 35,
                            humidity := Double.finite 50 }],
        getDeviceSubscribers := fun _ => Except.ok [7],
        getUserAlert := fun _ => Except.ok scenarioAlert } }

/-- No counter of the engine statistics is smaller in `b` than in `a`; a rule
without an entry in the trigger-count map counts 0. -/
def Statistics.le (a b : Statistics) : Prop :=
  a.totalProcessed ≤ b.totalProcessed ∧ a.rulesTriggered ≤ b.rulesTriggered ∧
    ∀ name : String, countOf a.ruleTriggerCount name ≤ countOf b.ruleTriggerCount name

/-- No counter of the alert statistics is smaller in `b` than in `a`. -/
def AlertStatistics.le (a b : AlertStatistics) : Prop :=
  a.totalAlerts ≤ b.totalAlerts ∧ a.temperatureAlerts ≤ b.temperatureAlerts ∧
    a.humidityAlerts ≤ b.humidityAlerts ∧ a.usersNotified ≤ b.usersNotified

/-! ## core/Application: the remote poller -/

/-- What the poller methods of `Application` do with threads: a thread running
the polling loop is launched with the interval it captures, or the launched
thread is joined. -/
inductive PollerEvent where
  | launched (intervalSeconds : Int)
  | joined
  deriving DecidableEq

/-- The members of `Application` that the poller methods use: the flag
`pollingRunning_`, the thread object `pollingThread_` (`none` when it is not
joinable, else the interval captured by the loop of its thread), and the
record of the launches and joins made. -/
structure Application where
  pollingRunning_ : Bool := false
  pollingThread_ : Option Int := none
  trace : List PollerEvent := []

/-- The method `Application::startRemotePolling`. Move assignment to a
`std::thread` that is joinable calls `std::terminate`, which is the result
`none`. -/
def startRemotePolling (intervalSeconds : Int) (a : Application) : Option Application :=
  if a.pollingRunning_ then some a
  else
    match a.pollingThread_ with
    | some _ => none
    | none =>
      some
        { pollingRunning_ := true,
          pollingThread_ := some intervalSeconds,
          trace := a.trace ++ [PollerEvent.launched intervalSeconds] }

/-- The method `Application::stopRemotePolling`: clears the flag and joins the
thread if it is joinable. The loop tests the flag at every turn and between
the one-second sleeps, so the join returns once the turn under way is over. -/
def stopRemotePolling (a : Application) : Application :=
  match a.pollingThread_ with
  | some _ =>
    { pollingRunning_ := false, pollingThread_ := none,
      trace := a.trace ++ [PollerEvent.joined] }
  | none => { a with pollingRunning_ := false }

/-- The number of polling loops in existence once an event has happened, from
the number before it: a launch adds a loop, a join ends one. -/
def PollerEvent.count (n : Nat) : PollerEvent → Nat
  | PollerEvent.launched _ => n + 1
  | PollerEvent.joined => n - 1

/-- The number of polling loops in existence after a record of launches and
joins: the threads launched and not yet joined. -/
def loopsAlive (tr : List PollerEvent) : Nat :=
  tr.foldl PollerEvent.count 0

/-- One call of the poller interface. -/
inductive PollerOp where
  | start (intervalSeconds : Int)
  | stop

/-- The state after a sequence of poller calls made one after the other, first
call first; `none` if a call ended in `std::terminate`. -/
def runPollerOps : List PollerOp → Application → Option Application
  | [], a => some a
  | PollerOp.start intervalSeconds :: rest, a =>
    match startRemotePolling intervalSeconds a with
    | some a1 => runPollerOps rest a1
    | none => none
  | PollerOp.stop :: rest, a => runPollerOps rest (stopRemotePolling a)

/-- The state of the poller is one of two: active with a joinable thread and
one loop, or inactive with no joinable thread and no loop. -/
def PollerInv (a : Application) : Prop :=
  (a.pollingRunning_ = true ∧ a.pollingThread_.isSome = true ∧ loopsAlive a.trace = 1) ∨
  (a.pollingRunning_ = false ∧ a.pollingThread_ = none ∧ loopsAlive a.trace = 0)

/-! ## smtp/EmailService: the formatting helpers -/

/-- The method `EmailService::humanMetricName`. -/
def humanMetricName (type : String) : String :=
  if type = "temperature" then "Temperature"
  else if type = "humidity" then "Humidity"
  else type

/-- The method `EmailService::humanDirection`. -/
def humanDirection (direction : String) : String :=
  if direction = "above" then "too high"
  else if direction = "below" then "too low"
  else direction

/-- The two `if (type == ...)` blocks of `EmailService::getEmoji`: the emoji a
block returns, or nothing when control falls through it. -/
def emojiOfBlock (type direction metric whenAbove whenBelow : String) : Option String :=
  if type = metric then
    if direction = "above" then some whenAbove
    else if direction = "below" then some whenBelow
    else none
  else none

/-- The method `EmailService::getEmoji`. -/
def getEmoji (type direction : String) : String :=
  match emojiOfBlock type direction "temperature" "🔥" "❄️" with
  | some emoji => emoji
  | none =>
    match emojiOfBlock type direction "humidity" "💧" "🏜️" with
    | some emoji => emoji
    | none => "⚠️"

/-- The absolute value of a finite double in hundredths, rounded to nearest,
ties to even: the digits that the format `%.2f` prints. -/
def roundedHundredths (q : ℚ) : Nat :=
  let scaled : ℚ := |q| * 100
  let fl : Nat := (Int.floor scaled).toNat
  let rest : ℚ := scaled - fl
  if rest > 1 / 2 ∨ (rest = 1 / 2 ∧ fl % 2 = 1) then fl + 1 else fl

/-- The stream output `oss << std::fixed << std::setprecision(2) << value`:
the sign, the integer part, the decimal point and two decimals. -/
def Double.fixed2 : Double → String
  | Double.finite q =>
    (if q < 0 then "-" else "") ++ toString (roundedHundredths q / 100) ++ "." ++
      String.mk [Nat.digitChar (roundedHundredths q % 100 / 10),
        Nat.digitChar (roundedHundredths q % 10)]
  | Double.posInf => "inf"
  | Double.negInf => "-inf"
  | Double.nan => "nan"

/-- The loop `while (!s.empty() && s.back() == '0') s.pop_back();` of
`formatDoubleNice`, on the string read from its back. -/
def popBackZeros : List Char → List Char
  | [] => []
  | c :: rest => if c = Char.ofNat 48 then popBackZeros rest else c :: rest

/-- The statement `if (!s.empty() && s.back() == '.') s.pop_back();` of
`formatDoubleNice`, on the string read from its back. -/
def popBackPoint : List Char → List Char
  | [] => []
  | c :: rest => if c = Char.ofNat 46 then rest else c :: rest

/-- The method `EmailService::formatDoubleNice`. -/
def formatDoubleNice (value : Double) : String :=
  String.mk (popBackPoint (popBackZeros (Double.fixed2 value).data.reverse)).reverse

/-- The method `RuleEngine::processData` on an engine whose member `rules_` is
within reach of the rule actions: `rulesOf w` is the rule list the engine holds
in the state `w`. The copy `rulesToApply` is taken from the state in which the
call starts, the loop runs over the copy, and the engine is left with the rule
list of the state the actions have produced. -/
def processDataShared {W : Type} (rulesOf : W → List (Rule W)) (data : IoTData)
    (e : RuleEngine W) (w : W) : ProcessResult W :=
  let out := processData data { e with rules_ := rulesOf w } w
  { out with engine := { out.engine with rules_ := rulesOf out.world } }

/-- A state that holds the rule list of its own engine: the names of the rules
removed so far, and the names of the rules whose action has run. -/
structure SharedWorld where
  removed : List String := []
  log : List String := []
  deriving DecidableEq

/-- The rule list held in a `SharedWorld`: the rule remover, whose action
removes the rule victim from the engine, and the rule victim, as long as it is
not removed. -/
def sharedRules (w : SharedWorld) : List (Rule SharedWorld) :=
  [({ name := "remover", description := "removes the rule victim",
      condition := fun _ => true,
      action := fun _ w1 =>
        ({ removed := "victim" :: w1.removed, log := w1.log ++ ["remover"] }, none),
      priority := 10 } : Rule SharedWorld),
   ({ name := "victim", description := "logs its run",
      condition := fun _ => true,
      action := fun _ w1 => ({ w1 with log := w1.log ++ ["victim"] }, none),
      priority := 5 } : Rule SharedWorld)].filter (fun r => !(w.removed.contains r.name))

/-- The rule list of `sharedRules` with a remover whose action, having removed
the rule victim, throws an object that is not derived from `std::exception`. -/
def abortingSharedRules (w : SharedWorld) : List (Rule SharedWorld) :=
  [({ name := "remover", description := "removes the rule victim and throws",
      condition := fun _ => true,
      action := fun _ w1 =>
        ({ removed := "victim" :: w1.removed, log := w1.log ++ ["remover"] },
          some Thrown.other),
      priority := 10 } : Rule SharedWorld),
   ({ name := "victim", description := "logs its run",
      condition := fun _ => true,
      action := fun _ w1 => ({ w1 with log := w1.log ++ ["victim"] }, none),
      priority := 5 } : Rule SharedWorld)].filter (fun r => !(w.removed.contains r.name))

/-- An engine on a `SharedWorld` with an alert service that does nothing. -/
def sharedEngine : RuleEngine SharedWorld :=
  { alertService_ := fun _ _ _ w => (w, none) }

/-- The alert type of the block of `checkUserAlerts` that hands a notification
of this metric and direction to the gateway. -/
def Notification.alertType (n : Notification) : String :=
  if n.metricType = "temperature" then
    if n.direction = "above" then "temp_high" else "temp_low"
  else
    if n.direction = "above" then "hum_high" else "hum_low"

/-- The dedup key under which the notify-check stores the notification. -/
def Notification.cacheKey (n : Notification) : String :=
  IotCore.cacheKey n.chatId n.deviceId n.alertType

/-- What holds of a state reached from a state with notifications `ds0`, clock
reads `c0`, clock `clock0` and statistics `st0`: the clock is the same, the
notifications handed over since then have pairwise distinct dedup keys, the
entry of each of them is in the cache with a clock reading made since then, and
the statistics have counted each of them once. -/
structure SentOnce (ds0 : List Notification) (c0 : Nat) (clock0 : Nat → TimePoint)
    (st0 : AlertStatistics) (w : AlertWorld) : Prop where
  clock : w.clock = clock0
  reads : c0 ≤ w.clockReads
  sent : ∃ ns : List Notification, dispatched w = ds0 ++ ns ∧
    (ns.map Notification.cacheKey).Nodup ∧
    (∀ n ∈ ns, ∃ i, c0 ≤ i ∧ i < w.clockReads ∧
      (n.cacheKey, clock0 i) ∈ w.service.alertCache_) ∧
    w.service.statistics_.totalAlerts = st0.totalAlerts + ns.length ∧
    w.service.statistics_.usersNotified = st0.usersNotified + ns.length

/-- A sample that trips two default threshold rules: 35 degrees, 80 percent. -/
def sampleHotHumid : IoTData :=
  { deviceId := "d1", temperature := Double.finite 35, humidity := Double.finite 80 }

/-! ## Lemmas on the cache -/

theorem evictLoop_eq_filter (now : TimePoint) (c : AlertCache) :
    evictLoop now c
      = c.filter (fun e => !decide (now - e.2 > AlertProcessingService.cacheDuration_)) := by
  induction c with
  | nil => rfl
  | cons e rest ih =>
    obtain ⟨k, t⟩ := e
    by_cases h : now - t > AlertProcessingService.cacheDuration_
    · simp [evictLoop, h, ih]
    · simp [evictLoop, h, ih]

theorem mapFind_eq_none_iff (c : AlertCache) (key : String) :
    mapFind c key = none ↔ ∀ e ∈ c, e.1 ≠ key := by
  induction c with
  | nil => simp [mapFind]
  | cons e rest ih =>
    obtain ⟨k, t⟩ := e
    by_cases h : k = key
    · simp [mapFind, h]
    · simp [mapFind, h, ih]

theorem mem_evictLoop {now : TimePoint} {c : AlertCache} {e : String × TimePoint} :
    e ∈ evictLoop now c ↔ e ∈ c ∧ now - e.2 ≤ AlertProcessingService.cacheDuration_ := by
  rw [evictLoop_eq_filter]
  simp [List.mem_filter]

theorem mapFind_evictLoop_none (now : TimePoint) {c : AlertCache} {key : String}
    (h : mapFind c key = none) : mapFind (evictLoop now c) key = none := by
  rw [mapFind_eq_none_iff] at h ⊢
  intro e he
  exact h e (mem_evictLoop.mp he).1

theorem mapAssign_of_none {c : AlertCache} {key : String} (v : TimePoint)
    (h : mapFind c key = none) : mapAssign c key v = c ++ [(key, v)] := by
  induction c with
  | nil => rfl
  | cons e rest ih =>
    obtain ⟨k, t⟩ := e
    by_cases hk : k = key
    · simp [mapFind, hk] at h
    · simp only [mapFind, hk, if_false] at h
      simp [mapAssign, hk, ih h]

theorem mapFind_append_of_none {c : AlertCache} {key : String} (d : AlertCache)
    (h : mapFind c key = none) : mapFind (c ++ d) key = mapFind d key := by
  induction c with
  | nil => rfl
  | cons e rest ih =>
    obtain ⟨k, t⟩ := e
    by_cases hk : k = key
    · simp [mapFind, hk] at h
    · simp only [mapFind, hk, if_false] at h
      simp [mapFind, hk, ih h]

theorem evictLoop_append (now : TimePoint) (c d : AlertCache) :
    evictLoop now (c ++ d) = evictLoop now c ++ evictLoop now d := by
  simp [evictLoop_eq_filter]

theorem mapFind_isSome_iff_any (c : AlertCache) (key : String) :
    (mapFind c key).isSome = c.any (fun e => e.1 == key) := by
  induction c with
  | nil => rfl
  | cons e rest ih =>
    obtain ⟨k, t⟩ := e
    by_cases h : k = key
    · simp [mapFind, h]
    · simp [mapFind, h, ih]

/-! ## Lemmas on the decimal rendering of the user id -/

theorem digitValue_digitChar {k : Nat} (h : k < 10) : digitValue (Nat.digitChar k) = k := by
  interval_cases k <;> rfl

theorem digitChar_isDigit {k : Nat} (h : k < 10) : (Nat.digitChar k).isDigit = true := by
  interval_cases k <;> rfl

theorem decimalValue_append_singleton (l : List Char) (c : Char) :
    decimalValue (l ++ [c]) = 10 * decimalValue l + digitValue c := by
  simp [decimalValue, List.foldl_append]

theorem toDigitsCore_spec (fuel : Nat) : ∀ (n : Nat) (ds : List Char), n < fuel →
    ∃ pre : List Char, Nat.toDigitsCore 10 fuel n ds = pre ++ ds ∧ decimalValue pre = n ∧
      ∀ c ∈ pre, c.isDigit = true := by
  induction fuel with
  | zero => intro n ds h; omega
  | succ fuel ih =>
    intro n ds h
    have hmod : n % 10 < 10 := Nat.mod_lt _ (by norm_num)
    by_cases h0 : n / 10 = 0
    · refine ⟨[Nat.digitChar (n % 10)], ?_, ?_, ?_⟩
      · simp [Nat.toDigitsCore, h0]
      · have h1 := decimalValue_append_singleton [] (Nat.digitChar (n % 10))
        simp only [List.nil_append] at h1
        rw [h1, digitValue_digitChar hmod]
        simp only [decimalValue, List.foldl_nil]
        omega
      · intro c hc
        rw [List.mem_singleton] at hc
        subst hc
        exact digitChar_isDigit hmod
    · have hlt : n / 10 < fuel := by omega
      obtain ⟨pre, hpre, hval, hdig⟩ := ih (n / 10) (Nat.digitChar (n % 10) :: ds) hlt
      refine ⟨pre ++ [Nat.digitChar (n % 10)], ?_, ?_, ?_⟩
      · simp [Nat.toDigitsCore, h0, hpre]
      · rw [decimalValue_append_singleton, hval, digitValue_digitChar hmod]
        omega
      · intro c hc
        rw [List.mem_append, List.mem_singleton] at hc
        rcases hc with hc | hc
        · exact hdig c hc
        · subst hc
          exact digitChar_isDigit hmod

theorem toDigits_spec (n : Nat) : decimalValue (Nat.toDigits 10 n) = n ∧
    ∀ c ∈ Nat.toDigits 10 n, c.isDigit = true := by
  obtain ⟨pre, hpre, h⟩ := toDigitsCore_spec (n + 1) n [] (Nat.lt_succ_self n)
  have : Nat.toDigits 10 n = pre := by simpa [Nat.toDigits] using hpre
  rw [this]
  exact h

theorem toString_ofNat_data (m : Nat) :
    (toString (Int.ofNat m)).data = Nat.toDigits 10 m := rfl

theorem toString_negSucc_data (m : Nat) :
    (toString (Int.negSucc m)).data = (Char.ofNat 45) :: Nat.toDigits 10 (m + 1) := rfl

/-- The decimal rendering of an integer holds digits and at most a leading
minus sign, hence no underscore. -/
theorem toString_int_no_underscore (u : Int) : (Char.ofNat 95) ∉ (toString u).data := by
  intro h
  cases u with
  | ofNat m =>
    rw [toString_ofNat_data] at h
    exact absurd ((toDigits_spec m).2 _ h) (by decide)
  | negSucc m =>
    rw [toString_negSucc_data, List.mem_cons] at h
    rcases h with h | h
    · exact absurd h (by decide)
    · exact absurd ((toDigits_spec (m + 1)).2 _ h) (by decide)

/-- The decimal rendering of an integer determines it. -/
theorem toString_int_injective {u v : Int} (h : (toString u).data = (toString v).data) :
    u = v := by
  have hdig : ∀ (m n : Nat), Nat.toDigits 10 m ≠ (Char.ofNat 45) :: Nat.toDigits 10 (n + 1) := by
    intro m n he
    have h1 := (toDigits_spec m).2 (Char.ofNat 45) (by rw [he]; exact List.mem_cons_self _ _)
    exact absurd h1 (by decide)
  cases u with
  | ofNat m =>
    cases v with
    | ofNat n =>
      rw [toString_ofNat_data, toString_ofNat_data] at h
      have := congrArg decimalValue h
      rw [(toDigits_spec m).1, (toDigits_spec n).1] at this
      rw [this]
    | negSucc n =>
      rw [toString_ofNat_data, toString_negSucc_data] at h
      exact absurd h (hdig m n)
  | negSucc m =>
    cases v with
    | ofNat n =>
      rw [toString_ofNat_data, toString_negSucc_data] at h
      exact absurd h.symm (hdig n m)
    | negSucc n =>
      rw [toString_negSucc_data, toString_negSucc_data] at h
      have := congrArg decimalValue (List.cons.inj h).2
      rw [(toDigits_spec (m + 1)).1, (toDigits_spec (n + 1)).1] at this
      have hmn : m = n := by omega
      rw [hmn]

/-- Two lists that agree after their first separator agree before and after it. -/
theorem split_at_first {c : Char} : ∀ {a b x y : List Char}, c ∉ a → c ∉ b →
    a ++ c :: x = b ++ c :: y → a = b ∧ x = y := by
  intro a
  induction a with
  | nil =>
    intro b x y _ hb h
    cases b with
    | nil => exact ⟨rfl, (List.cons.inj h).2⟩
    | cons b0 bs =>
      have := (List.cons.inj h).1
      exact absurd (by rw [this]; exact List.mem_cons_self _ _) hb
  | cons a0 as ih =>
    intro b x y ha hb h
    cases b with
    | nil =>
      have := (List.cons.inj h).1
      exact absurd (by rw [← this]; exact List.mem_cons_self _ _) ha
    | cons b0 bs =>
      have h1 := List.cons.inj h
      have := ih (fun hm => ha (List.mem_cons_of_mem _ hm))
        (fun hm => hb (List.mem_cons_of_mem _ hm)) h1.2
      exact ⟨by rw [h1.1, this.1], this.2⟩

/-- A device id followed by one of the four alert kinds determines both. -/
theorem device_kind_injective {d d' k k' : String} (hk : k ∈ alertKinds) (hk' : k' ∈ alertKinds)
    (h : d.data ++ (Char.ofNat 95) :: k.data = d'.data ++ (Char.ofNat 95) :: k'.data) :
    d = d' ∧ k = k' := by
  have hr := congrArg List.reverse h
  simp only [alertKinds, List.mem_cons, List.mem_singleton, List.not_mem_nil, or_false] at hk hk'
  rcases hk with rfl | rfl | rfl | rfl <;> rcases hk' with rfl | rfl | rfl | rfl <;>
    first
    | (refine ⟨String.ext ?_, rfl⟩
       simpa using h)
    | (exfalso
       simp at hr)

theorem cacheKey_data (u : Int) (d k : String) :
    (cacheKey u d k).data
      = (toString u).data ++ (Char.ofNat 95) :: (d.data ++ (Char.ofNat 95) :: k.data) := by
  simp [cacheKey, String.data_append]

/-- Distinct triples with one of the four alert kinds have distinct cache keys. -/
theorem cacheKey_injective {u u' : Int} {d d' k k' : String} (hk : k ∈ alertKinds)
    (hk' : k' ∈ alertKinds) (h : cacheKey u d k = cacheKey u' d' k') :
    u = u' ∧ d = d' ∧ k = k' := by
  have hd := congrArg String.data h
  rw [cacheKey_data, cacheKey_data] at hd
  have h1 := split_at_first (toString_int_no_underscore u) (toString_int_no_underscore u') hd
  exact ⟨toString_int_injective h1.1, device_kind_injective hk hk' h1.2⟩

theorem shouldNotify_fst (u : Int) (d k : String) (v : Double) (now : TimePoint)
    (s : AlertProcessingService) :
    (shouldNotify u d k v now s).1
      = !(mapFind (evictLoop now s.alertCache_) (cacheKey u d k)).isSome := by
  unfold shouldNotify
  by_cases hf : (mapFind (evictLoop now s.alertCache_) (cacheKey u d k)).isSome = true
  · simp [hf]
  · simp [hf]

theorem shouldNotify_cache_of_some (u : Int) (d k : String) (v : Double) (now : TimePoint)
    (s : AlertProcessingService)
    (h : (mapFind (evictLoop now s.alertCache_) (cacheKey u d k)).isSome = true) :
    (shouldNotify u d k v now s).2.alertCache_ = evictLoop now s.alertCache_ := by
  unfold shouldNotify
  simp [h]

theorem shouldNotify_cache_of_none (u : Int) (d k : String) (v : Double) (now : TimePoint)
    (s : AlertProcessingService)
    (h : mapFind (evictLoop now s.alertCache_) (cacheKey u d k) = none) :
    (shouldNotify u d k v now s).2.alertCache_
      = evictLoop now s.alertCache_ ++ [(cacheKey u d k, now)] := by
  unfold shouldNotify
  simp [h, mapAssign_of_none]

theorem cacheDuration_nonneg : 0 ≤ AlertProcessingService.cacheDuration_ := by
  decide

/-! ## Lemmas on the rule list -/

theorem removeRule_rules {W : Type} (ruleName : String) (e : RuleEngine W) :
    (removeRule ruleName e).rules_ = e.rules_.filter (fun r => !(r.name == ruleName)) := by
  unfold removeRule
  by_cases h : (e.rules_.filter (fun r => !(r.name == ruleName))).length ≠ e.rules_.length
  · rw [if_pos h]
  · rw [if_neg h]
    have hlen : (e.rules_.filter (fun r => !(r.name == ruleName))).length = e.rules_.length :=
      not_not.mp h
    exact (List.filter_eq_self.mpr (List.filter_length_eq_length.mp hlen)).symm

theorem setEnabledLoop_absent {W : Type} (ruleName : String) (value : Bool) :
    ∀ (l : List (Rule W)), (∀ x ∈ l, x.name ≠ ruleName) → setEnabledLoop ruleName value l = l
  | [], _ => rfl
  | r :: rest, h => by
    have hr : r.name ≠ ruleName := h r (List.mem_cons_self _ _)
    have ih := setEnabledLoop_absent ruleName value rest
      (fun x hx => h x (List.mem_cons_of_mem _ hx))
    simp [setEnabledLoop, hr, ih]

theorem setEnabledLoop_present {W : Type} (ruleName : String) (value : Bool) (r : Rule W)
    (post : List (Rule W)) (hr : r.name = ruleName) :
    ∀ (pre : List (Rule W)), (∀ x ∈ pre, x.name ≠ ruleName) →
      setEnabledLoop ruleName value (pre ++ r :: post)
        = pre ++ { r with enabled := value } :: post
  | [], _ => by simp [setEnabledLoop, hr]
  | p :: pre, h => by
    have hp : p.name ≠ ruleName := h p (List.mem_cons_self _ _)
    have ih := setEnabledLoop_present ruleName value r post hr pre
      (fun x hx => h x (List.mem_cons_of_mem _ hx))
    simp [setEnabledLoop, hp, ih]

theorem setEnabledLoop_map_name {W : Type} (ruleName : String) (value : Bool) :
    ∀ (l : List (Rule W)),
      (setEnabledLoop ruleName value l).map (fun r => r.name) = l.map (fun r => r.name)
  | [] => rfl
  | r :: rest => by
    by_cases hr : r.name = ruleName
    · simp [setEnabledLoop, hr]
    · simp [setEnabledLoop, hr, setEnabledLoop_map_name ruleName value rest]

theorem setEnabledLoop_map_priority {W : Type} (ruleName : String) (value : Bool) :
    ∀ (l : List (Rule W)),
      (setEnabledLoop ruleName value l).map (fun r => r.priority)
        = l.map (fun r => r.priority)
  | [] => rfl
  | r :: rest => by
    by_cases hr : r.name = ruleName
    · simp [setEnabledLoop, hr]
    · simp [setEnabledLoop, hr, setEnabledLoop_map_priority ruleName value rest]

theorem assign_or_push_eq {W : Type} (rule : Rule W) (l : List (Rule W)) :
    (if l.findIdx (fun r => r.name == rule.name) ≠ l.length
      then l.set (l.findIdx (fun r => r.name == rule.name)) rule else l ++ [rule])
      = replaceOrAppend rule l := by
  induction l with
  | nil => simp [replaceOrAppend]
  | cons r rest ih =>
    by_cases hr : r.name = rule.name
    · simp [List.findIdx_cons, replaceOrAppend, hr]
    · have hb : (r.name == rule.name) = false := by simpa using hr
      simp only [List.findIdx_cons, hb, cond_false, List.length_cons, replaceOrAppend, hr,
        if_false, List.set_cons_succ, List.cons_append]
      rw [← ih]
      by_cases hi : rest.findIdx (fun r => r.name == rule.name) = rest.length
      · simp [hi]
      · simp [hi]

theorem addRule_rules {W : Type} (S : StdSort) (rule : Rule W) (e : RuleEngine W) :
    (addRule S rule e).rules_ = sortRulesByPriority S (replaceOrAppend rule e.rules_) := by
  unfold addRule
  simp only
  rw [assign_or_push_eq]

theorem priorityGreater_strictWeakOrder {W : Type} :
    StrictWeakOrder (priorityGreater : Rule W → Rule W → Bool) where
  irrefl := by intro a; simp [priorityGreater]
  trans := by
    intro a b c h1 h2
    simp only [priorityGreater, decide_eq_true_eq] at h1 h2 ⊢
    omega
  incomp_trans := by
    intro a b c h1 h2 h3 h4
    simp only [priorityGreater, decide_eq_false_iff_not, not_lt, gt_iff_lt] at h1 h2 h3 h4 ⊢
    constructor <;> omega

theorem sortRulesByPriority_perm {W : Type} (S : StdSort) (l : List (Rule W)) :
    (sortRulesByPriority S l).Perm l :=
  S.perm priorityGreater l

theorem sortRulesByPriority_sorted {W : Type} (S : StdSort) (l : List (Rule W)) :
    (sortRulesByPriority S l).Pairwise (fun a b => a.priority ≥ b.priority) := by
  have h := S.sorted priorityGreater l priorityGreater_strictWeakOrder
  refine h.imp ?_
  intro a b hab
  simp only [priorityGreater, decide_eq_false_iff_not, not_lt, gt_iff_lt] at hab
  exact hab

theorem replaceOrAppend_absent {W : Type} (rule : Rule W) :
    ∀ (l : List (Rule W)), (∀ x ∈ l, x.name ≠ rule.name) → replaceOrAppend rule l = l ++ [rule]
  | [], _ => rfl
  | r :: rest, h => by
    have hr : r.name ≠ rule.name := h r (List.mem_cons_self _ _)
    have ih := replaceOrAppend_absent rule rest (fun x hx => h x (List.mem_cons_of_mem _ hx))
    simp [replaceOrAppend, hr, ih]

theorem replaceOrAppend_present {W : Type} (rule r : Rule W) (post : List (Rule W))
    (hr : r.name = rule.name) :
    ∀ (pre : List (Rule W)), (∀ x ∈ pre, x.name ≠ rule.name) →
      replaceOrAppend rule (pre ++ r :: post) = pre ++ rule :: post
  | [], _ => by simp [replaceOrAppend, hr]
  | p :: pre, h => by
    have hp : p.name ≠ rule.name := h p (List.mem_cons_self _ _)
    have ih := replaceOrAppend_present rule r post hr pre
      (fun x hx => h x (List.mem_cons_of_mem _ hx))
    simp [replaceOrAppend, hp, ih]

/-- A list holding a rule with the given name splits at the first such rule. -/
theorem split_at_first_named {W : Type} (name : String) :
    ∀ (l : List (Rule W)), (∃ x ∈ l, x.name = name) →
      ∃ pre r post, l = pre ++ r :: post ∧ r.name = name ∧ ∀ x ∈ pre, x.name ≠ name
  | [], h => by
    obtain ⟨x, hx, _⟩ := h
    exact absurd hx (List.not_mem_nil x)
  | a :: rest, h => by
    by_cases ha : a.name = name
    · exact ⟨[], a, rest, rfl, ha, fun x hx => absurd hx (List.not_mem_nil x)⟩
    · have hrest : ∃ x ∈ rest, x.name = name := by
        obtain ⟨x, hx, hn⟩ := h
        rcases List.mem_cons.mp hx with hxa | hxr
        · exact absurd (hxa ▸ hn) ha
        · exact ⟨x, hxr, hn⟩
      obtain ⟨pre, r, post, hl, hr, hpre⟩ := split_at_first_named name rest hrest
      refine ⟨a :: pre, r, post, by rw [hl]; rfl, hr, ?_⟩
      intro x hx
      rcases List.mem_cons.mp hx with hxa | hxp
      · rw [hxa]; exact ha
      · exact hpre x hxp

theorem replaceOrAppend_names_nodup {W : Type} (rule : Rule W) (l : List (Rule W))
    (h : (l.map (fun r => r.name)).Nodup) :
    ((replaceOrAppend rule l).map (fun r => r.name)).Nodup := by
  by_cases hex : ∃ x ∈ l, x.name = rule.name
  · obtain ⟨pre, r, post, hl, hr, hpre⟩ := split_at_first_named rule.name l hex
    rw [hl, replaceOrAppend_present rule r post hr pre hpre]
    rw [hl] at h
    simpa [hr] using h
  · have habs : ∀ x ∈ l, x.name ≠ rule.name := fun x hx hn => hex ⟨x, hx, hn⟩
    rw [replaceOrAppend_absent rule l habs, List.map_append, List.nodup_append]
    refine ⟨h, List.nodup_singleton _, ?_⟩
    intro n hn hn2
    rw [List.map_singleton, List.mem_singleton] at hn2
    obtain ⟨x, hx, hxn⟩ := List.mem_map.mp hn
    exact habs x hx (hxn.trans hn2)

theorem replaceOrAppend_filter_name {W : Type} (rule : Rule W) (l : List (Rule W))
    (h : (l.map (fun r => r.name)).Nodup) :
    (replaceOrAppend rule l).filter (fun x => x.name == rule.name) = [rule] := by
  have hnone : ∀ (m : List (Rule W)), (∀ x ∈ m, x.name ≠ rule.name) →
      m.filter (fun x => x.name == rule.name) = [] := by
    intro m hm
    rw [List.filter_eq_nil_iff]
    intro x hx
    simpa using hm x hx
  by_cases hex : ∃ x ∈ l, x.name = rule.name
  · obtain ⟨pre, r, post, hl, hr, hpre⟩ := split_at_first_named rule.name l hex
    rw [hl, replaceOrAppend_present rule r post hr pre hpre]
    rw [hl, List.map_append, List.map_cons, List.nodup_append] at h
    have hpost : ∀ x ∈ post, x.name ≠ rule.name := by
      intro x hx hn
      have hnd := (List.nodup_cons.mp h.2.1).1
      exact hnd (List.mem_map.mpr ⟨x, hx, by rw [hn, hr]⟩)
    rw [List.filter_append, List.filter_cons, hnone pre hpre, hnone post hpost]
    simp
  · have habs : ∀ x ∈ l, x.name ≠ rule.name := fun x hx hn => hex ⟨x, hx, hn⟩
    rw [replaceOrAppend_absent rule l habs, List.filter_append, hnone l habs]
    simp

theorem replaceOrAppend_length_present {W : Type} (rule : Rule W) (l : List (Rule W))
    (hex : ∃ x ∈ l, x.name = rule.name) : (replaceOrAppend rule l).length = l.length := by
  obtain ⟨pre, r, post, hl, hr, hpre⟩ := split_at_first_named rule.name l hex
  rw [hl, replaceOrAppend_present rule r post hr pre hpre]
  simp

theorem applyOps_cons {W : Type} (S : StdSort) (op : RuleOp W) (ops : List (RuleOp W))
    (e : RuleEngine W) : applyOps S (op :: ops) e = applyOps S ops (op.apply S e) := rfl

/-- A property of the rule list that every rule-management call preserves holds
after any sequence of calls. -/
theorem applyOps_invariant {W : Type} (S : StdSort) (P : List (Rule W) → Prop)
    (hadd : ∀ rule l, P l → P (sortRulesByPriority S (replaceOrAppend rule l)))
    (hremove : ∀ name l, P l → P (l.filter (fun r => !(r.name == name))))
    (htoggle : ∀ name value l, P l → P (setEnabledLoop name value l)) :
    ∀ (ops : List (RuleOp W)) (e : RuleEngine W), P e.rules_ → P (applyOps S ops e).rules_
  | [], _, h => h
  | op :: ops, e, h => by
    rw [applyOps_cons]
    apply applyOps_invariant S P hadd hremove htoggle ops
    cases op with
    | addRule rule =>
      show P (addRule S rule e).rules_
      rw [addRule_rules]
      exact hadd rule _ h
    | removeRule name =>
      show P (removeRule name e).rules_
      rw [removeRule_rules]
      exact hremove name _ h
    | enableRule name => exact htoggle name true _ h
    | disableRule name => exact htoggle name false _ h

theorem names_nodup_reachable {W : Type} (S : StdSort) (ops : List (RuleOp W))
    (e : RuleEngine W) (h : (e.rules_.map (fun r => r.name)).Nodup) :
    ((applyOps S ops e).rules_.map (fun r => r.name)).Nodup := by
  refine applyOps_invariant S (fun l => (l.map (fun r => r.name)).Nodup) ?_ ?_ ?_ ops e h
  · intro rule l hl
    exact ((sortRulesByPriority_perm S _).map _).nodup_iff.mpr
      (replaceOrAppend_names_nodup rule l hl)
  · intro name l hl
    exact hl.sublist ((List.filter_sublist l).map _)
  · intro name value l hl
    rw [setEnabledLoop_map_name]
    exact hl

theorem sorted_reachable {W : Type} (S : StdSort) (ops : List (RuleOp W))
    (e : RuleEngine W) (h : e.rules_.Pairwise (fun a b => a.priority ≥ b.priority)) :
    (applyOps S ops e).rules_.Pairwise (fun a b => a.priority ≥ b.priority) := by
  refine applyOps_invariant S (fun l => l.Pairwise (fun a b => a.priority ≥ b.priority))
    ?_ ?_ ?_ ops e h
  · intro rule l _
    exact sortRulesByPriority_sorted S _
  · intro name l hl
    exact hl.filter _
  · intro name value l hl
    have h1 : (l.map (fun r => r.priority)).Pairwise (fun a b => a ≥ b) :=
      List.pairwise_map.mpr hl
    rw [← setEnabledLoop_map_priority name value l] at h1
    exact List.pairwise_map.mp h1

theorem getRuleNames_eq_map {W : Type} (e : RuleEngine W) :
    getRuleNames e = e.rules_.map (fun r => r.name) := by
  unfold getRuleNames
  have h : ∀ (l : List (Rule W)) (acc : List String),
      l.foldl (fun names rule => names ++ [rule.name]) acc = acc ++ l.map (fun r => r.name) := by
    intro l
    induction l with
    | nil => intro acc; simp
    | cons r rest ih => intro acc; simp [ih]
  simpa using h e.rules_ []

/-- A list in non-increasing priority order that rearranges a list in strictly
decreasing priority order is that list. -/
theorem sorted_perm_unique {W : Type} :
    ∀ (l2 l : List (Rule W)), l.Perm l2 →
      l.Pairwise (fun a b => a.priority ≥ b.priority) →
      l2.Pairwise (fun a b => a.priority > b.priority) → l = l2
  | [], l, hp, _, _ => List.Perm.eq_nil hp
  | x :: t, l, hp, hs, hs2 => by
    cases l with
    | nil => exact absurd hp.symm.eq_nil (List.cons_ne_nil x t)
    | cons y u =>
      have hy : y ∈ x :: t := hp.subset (List.mem_cons_self _ _)
      rcases List.mem_cons.mp hy with hyx | hyt
      · subst hyx
        have hu := sorted_perm_unique t u ((List.perm_cons _).mp hp)
          (List.pairwise_cons.mp hs).2 (List.pairwise_cons.mp hs2).2
        rw [hu]
      · have h1 : x.priority > y.priority := (List.pairwise_cons.mp hs2).1 y hyt
        have hx : x ∈ y :: u := hp.symm.subset (List.mem_cons_self _ _)
        rcases List.mem_cons.mp hx with hxy | hxu
        · rw [hxy] at h1
          exact absurd h1 (lt_irrefl _)
        · have h2 : y.priority ≥ x.priority := (List.pairwise_cons.mp hs).1 x hxu
          omega

/-- A list sorted by non-increasing first component splits at any level. -/
theorem sorted_split (k : Int) :
    ∀ (l : List (Int × String)), l.Pairwise (fun a b => a.1 ≥ b.1) →
      l = l.filter (fun a => decide (a.1 > k)) ++ l.filter (fun a => decide (a.1 ≤ k))
  | [], _ => rfl
  | a :: t, h => by
    have ht := sorted_split k t (List.pairwise_cons.mp h).2
    by_cases ha : a.1 > k
    · have ha2 : ¬ a.1 ≤ k := not_le.mpr ha
      rw [List.filter_cons, List.filter_cons, if_pos (decide_eq_true ha),
        if_neg (by simpa using ha), List.cons_append, ← ht]
    · have hall : ∀ b ∈ t, ¬ b.1 > k := by
        intro b hb
        have := (List.pairwise_cons.mp h).1 b hb
        omega
      have h1 : t.filter (fun a => decide (a.1 > k)) = [] := by
        rw [List.filter_eq_nil_iff]
        intro b hb
        simpa using hall b hb
      have h2 : t.filter (fun a => decide (a.1 ≤ k)) = t := by
        rw [List.filter_eq_self]
        intro b hb
        simpa using hall b hb
      rw [List.filter_cons, List.filter_cons, if_neg (by simpa using ha),
        if_pos (by simpa using ha), h1, h2, List.nil_append]

theorem perm_two {α : Type} {a b : α} {l : List α} (h : l.Perm [a, b]) :
    l = [a, b] ∨ l = [b, a] := by
  have hlen : l.length = 2 := h.length_eq
  obtain ⟨x, y, rfl⟩ := List.length_eq_two.mp hlen
  have hx : x ∈ [a, b] := h.subset (List.mem_cons_self _ _)
  rcases List.mem_cons.mp hx with hxa | hxb
  · subst hxa
    have := (List.perm_cons _).mp h
    rw [List.perm_singleton.mp this]
    exact Or.inl rfl
  · rw [List.mem_singleton] at hxb
    subst hxb
    have h2 : [x, y].Perm [x, a] := h.trans (List.Perm.swap _ _ _)
    have := (List.perm_cons _).mp h2
    rw [List.perm_singleton.mp this]
    exact Or.inr rfl

theorem addRule_perm_append {W : Type} (S : StdSort) (rule : Rule W) (e : RuleEngine W)
    (l : List (Rule W)) (hp : e.rules_.Perm l) (hnew : ∀ x ∈ l, x.name ≠ rule.name) :
    (addRule S rule e).rules_.Perm (l ++ [rule]) := by
  rw [addRule_rules]
  refine (sortRulesByPriority_perm S _).trans ?_
  rw [replaceOrAppend_absent rule e.rules_ (fun x hx => hnew x (hp.subset hx))]
  exact hp.append_right _

/-- After `setupDefaultRules` the rule list rearranges the five default rules. -/
theorem setupDefaultRules_perm {W : Type} (S : StdSort) (e : RuleEngine W) :
    (setupDefaultRules S e).rules_.Perm (defaultRules e) := by
  have h1 : (addRule S createDataValidationRule { e with rules_ := [] }).rules_.Perm
      ([] ++ [createDataValidationRule]) :=
    addRule_perm_append S _ _ [] (List.Perm.refl _) (by simp)
  have hnames : ∀ (l : List (Rule W)) (n : String),
      (∀ m ∈ l.map (fun r => r.name), m ≠ n) → ∀ x ∈ l, x.name ≠ n :=
    fun l n h x hx => h x.name (List.mem_map.mpr ⟨x, hx, rfl⟩)
  have h2 := addRule_perm_append S (createTemperatureHighRule e (Double.finite 28)) _ _ h1
    (hnames _ _ (show ∀ m ∈ ["data_validation"],
      m ≠ "temperature_high_alert" by decide))
  have h3 := addRule_perm_append S (createTemperatureLowRule e (Double.finite 15)) _ _ h2
    (hnames _ _ (show ∀ m ∈ ["data_validation", "temperature_high_alert"],
      m ≠ "temperature_low_alert" by decide))
  have h4 := addRule_perm_append S (createHumidityHighRule e (Double.finite 70)) _ _ h3
    (hnames _ _ (show ∀ m ∈ ["data_validation", "temperature_high_alert", "temperature_low_alert"],
      m ≠ "humidity_high_alert" by decide))
  have h5 := addRule_perm_append S (createHumidityLowRule e (Double.finite 30)) _ _ h4
    (hnames _ _ (show ∀ m ∈ ["data_validation", "temperature_high_alert", "temperature_low_alert", "humidity_high_alert"],
      m ≠ "humidity_low_alert" by decide))
  exact h5

/-- The conditions of the default rules are lambdas that compare doubles: none
of them throws. -/
theorem setupDefaultRules_conditions_return {W : Type} (S : StdSort) (e : RuleEngine W)
    (data : IoTData) :
    ∀ r ∈ (setupDefaultRules S e).rules_, r.enabled = true → r.conditionThrows data = none := by
  intro r hr _
  have hmem := (setupDefaultRules_perm S e).mem_iff.mp hr
  simp only [defaultRules, List.mem_cons, List.mem_singleton, List.not_mem_nil,
    or_false] at hmem
  rcases hmem with hm | hm | hm | hm | hm <;> rw [hm] <;> rfl

theorem setupDefaultRules_sorted {W : Type} (S : StdSort) (e : RuleEngine W) :
    (setupDefaultRules S e).rules_.Pairwise (fun a b => a.priority ≥ b.priority) := by
  unfold setupDefaultRules
  simp only
  rw [addRule_rules]
  exact sortRulesByPriority_sorted S _

/-- With a sort that leaves a range of at most `n` rules already in priority
order as it is, `addRule` of a rule with a new name and a priority that is at
most those present appends the rule. -/
theorem addRule_append_in_order {W : Type} (S : StdSort) (n : Nat)
    (hshort : ∀ l : List (Rule W), l.length ≤ n →
      l.Pairwise (fun a b => a.priority ≥ b.priority) → sortRulesByPriority S l = l)
    (rule : Rule W) (e : RuleEngine W) (l : List (Rule W)) (hl : e.rules_ = l)
    (hnew : ∀ x ∈ l, x.name ≠ rule.name) (hlen : (l ++ [rule]).length ≤ n)
    (hord : (l ++ [rule]).Pairwise (fun a b => a.priority ≥ b.priority)) :
    addRule S rule e = { e with rules_ := l ++ [rule] } := by
  have h : addRule S rule e = { e with rules_ := (addRule S rule e).rules_ } := rfl
  rw [h, addRule_rules, hl, replaceOrAppend_absent rule l hnew, hshort _ hlen hord]

/-- The insertion sort leaves a rule list in priority order as it is. -/
theorem insertionStdSort_in_order {W : Type} (l : List (Rule W))
    (h : l.Pairwise (fun a b => a.priority ≥ b.priority)) :
    sortRulesByPriority insertionStdSort l = l := by
  have hs : l.Sorted (fun a b => priorityGreater b a = false) := by
    refine List.Pairwise.imp ?_ h
    intro a b hab
    simp only [priorityGreater, decide_eq_false_iff_not, not_lt]
    exact hab
  exact List.Sorted.insertionSort_eq hs

/-- With a sort that leaves a range of at most five rules already in priority
order as it is, the default rules stay in the order they are added. -/
theorem setupDefaultRules_in_order {W : Type} (S : StdSort) (e : RuleEngine W)
    (hshort : ∀ l : List (Rule W), l.length ≤ 5 →
      l.Pairwise (fun a b => a.priority ≥ b.priority) → sortRulesByPriority S l = l) :
    (setupDefaultRules S e).rules_ = defaultRules e := by
  have h1 := addRule_append_in_order S 5 hshort createDataValidationRule
    { e with rules_ := [] } [] rfl (by simp) (by simp) (by simp)
  have h2 := addRule_append_in_order S 5 hshort (createTemperatureHighRule e (Double.finite 28))
    { e with rules_ := [] ++ [createDataValidationRule] } _ rfl
    (by
      intro x hx
      simp only [List.nil_append, List.mem_singleton] at hx
      rw [hx]
      simp [createDataValidationRule, createTemperatureHighRule])
    (by simp)
    (by simp [createDataValidationRule, createTemperatureHighRule])
  have h3 := addRule_append_in_order S 5 hshort (createTemperatureLowRule e (Double.finite 15))
    { e with rules_ := ([] ++ [createDataValidationRule])
        ++ [createTemperatureHighRule e (Double.finite 28)] } _ rfl
    (by
      intro x hx
      simp only [List.nil_append, List.singleton_append, List.mem_cons, List.mem_singleton,
        List.not_mem_nil, or_false] at hx
      rcases hx with hx | hx <;> rw [hx] <;>
        simp [createDataValidationRule, createTemperatureHighRule, createTemperatureLowRule])
    (by simp)
    (by simp [createDataValidationRule, createTemperatureHighRule, createTemperatureLowRule])
  have h4 := addRule_append_in_order S 5 hshort (createHumidityHighRule e (Double.finite 70))
    { e with rules_ := (([] ++ [createDataValidationRule])
        ++ [createTemperatureHighRule e (Double.finite 28)])
        ++ [createTemperatureLowRule e (Double.finite 15)] } _ rfl
    (by
      intro x hx
      simp only [List.nil_append, List.singleton_append, List.cons_append, List.mem_cons,
        List.mem_singleton, List.not_mem_nil, or_false] at hx
      rcases hx with hx | hx | hx <;> rw [hx] <;>
        simp [createDataValidationRule, createTemperatureHighRule, createTemperatureLowRule,
          createHumidityHighRule])
    (by simp)
    (by simp [createDataValidationRule, createTemperatureHighRule, createTemperatureLowRule,
      createHumidityHighRule])
  have h5 := addRule_append_in_order S 5 hshort (createHumidityLowRule e (Double.finite 30))
    { e with rules_ := ((([] ++ [createDataValidationRule])
        ++ [createTemperatureHighRule e (Double.finite 28)])
        ++ [createTemperatureLowRule e (Double.finite 15)])
        ++ [createHumidityHighRule e (Double.finite 70)] } _ rfl
    (by
      intro x hx
      simp only [List.nil_append, List.singleton_append, List.cons_append, List.mem_cons,
        List.mem_singleton, List.not_mem_nil, or_false] at hx
      rcases hx with hx | hx | hx | hx <;> rw [hx] <;>
        simp [createDataValidationRule, createTemperatureHighRule, createTemperatureLowRule,
          createHumidityHighRule, createHumidityLowRule])
    (by simp)
    (by simp [createDataValidationRule, createTemperatureHighRule, createTemperatureLowRule,
      createHumidityHighRule, createHumidityLowRule])
  unfold setupDefaultRules
  simp only
  rw [h1, h2, h3, h4, h5]
  rfl

/-- With the insertion sort the default rules stay in the order they are added. -/
theorem setupDefaultRules_insertion {W : Type} (e : RuleEngine W) :
    (setupDefaultRules insertionStdSort e).rules_ = defaultRules e := by
  have h1 : addRule insertionStdSort createDataValidationRule { e with rules_ := [] }
      = { e with rules_ := [createDataValidationRule] } := rfl
  have h2 : addRule insertionStdSort (createTemperatureHighRule e (Double.finite 28))
      { e with rules_ := [createDataValidationRule] }
      = { e with rules_ := [createDataValidationRule,
          createTemperatureHighRule e (Double.finite 28)] } := rfl
  have h3 : addRule insertionStdSort (createTemperatureLowRule e (Double.finite 15))
      { e with rules_ := [createDataValidationRule,
          createTemperatureHighRule e (Double.finite 28)] }
      = { e with rules_ := [createDataValidationRule,
          createTemperatureHighRule e (Double.finite 28),
          createTemperatureLowRule e (Double.finite 15)] } := rfl
  have h4 : addRule insertionStdSort (createHumidityHighRule e (Double.finite 70))
      { e with rules_ := [createDataValidationRule,
          createTemperatureHighRule e (Double.finite 28),
          createTemperatureLowRule e (Double.finite 15)] }
      = { e with rules_ := [createDataValidationRule,
          createTemperatureHighRule e (Double.finite 28),
          createTemperatureLowRule e (Double.finite 15),
          createHumidityHighRule e (Double.finite 70)] } := rfl
  have h5 : addRule insertionStdSort (createHumidityLowRule e (Double.finite 30))
      { e with rules_ := [createDataValidationRule,
          createTemperatureHighRule e (Double.finite 28),
          createTemperatureLowRule e (Double.finite 15),
          createHumidityHighRule e (Double.finite 70)] }
      = { e with rules_ := defaultRules e } := rfl
  show (addRule insertionStdSort (createHumidityLowRule e (Double.finite 30))
    (addRule insertionStdSort (createHumidityHighRule e (Double.finite 70))
      (addRule insertionStdSort (createTemperatureLowRule e (Double.finite 15))
        (addRule insertionStdSort (createTemperatureHighRule e (Double.finite 28))
          (addRule insertionStdSort createDataValidationRule
            { e with rules_ := [] }))))).rules_ = defaultRules e
  rw [h1, h2, h3, h4, h5]

/-! ## Lemmas on processData -/

theorem executeRule_caught {W : Type} (rule : Rule W) (data : IoTData) (w : W)
    (h : (rule.action data w).2 ≠ some Thrown.other) :
    executeRule rule data w = ((rule.action data w).1, none) := by
  unfold executeRule
  rcases hact : rule.action data w with ⟨w1, t⟩
  rw [hact] at h
  cases t with
  | none => rfl
  | some t =>
    cases t with
    | stdException what => rfl
    | other => exact absurd rfl h

theorem triggeredRules_cons {W : Type} (data : IoTData) (r : Rule W) (rest : List (Rule W)) :
    triggeredRules data (r :: rest)
      = if (r.enabled && r.condition data) = true then r :: triggeredRules data rest
        else triggeredRules data rest := by
  unfold triggeredRules
  rw [List.filter_cons]

/-- The loop of `processData` when no condition of an enabled rule throws and
no action of a triggered rule throws an object that `executeRule` lets
through. -/
theorem applyRules_caught {W : Type} (data : IoTData) :
    ∀ (rules : List (Rule W)) (st : LoopState W),
      (∀ r ∈ rules, r.enabled = true → r.conditionThrows data = none) →
      (∀ r ∈ triggeredRules data rules, ∀ w, (r.action data w).2 ≠ some Thrown.other) →
      (applyRules data rules st).2 = none ∧
      (applyRules data rules st).1.statistics.totalProcessed = st.statistics.totalProcessed ∧
      (applyRules data rules st).1.statistics.rulesTriggered
        = st.statistics.rulesTriggered + (triggeredRules data rules).length ∧
      (applyRules data rules st).1.statistics.ruleTriggerCount
        = bumpCounts st.statistics.ruleTriggerCount (triggeredRules data rules) ∧
      (applyRules data rules st).1.world = runActions data (triggeredRules data rules) st.world ∧
      (applyRules data rules st).1.trace = st.trace ++ expectedTrace data rules
  | [], st, _, _ => by
    simp [applyRules, triggeredRules, bumpCounts, runActions, expectedTrace]
  | r :: rest, st, hcond, h => by
    have hcrest : ∀ q ∈ rest, q.enabled = true → q.conditionThrows data = none :=
      fun q hq => hcond q (List.mem_cons_of_mem _ hq)
    by_cases hen : r.enabled = true
    · have hct : r.conditionThrows data = none := hcond r (List.mem_cons_self _ _) hen
      by_cases hc : r.condition data = true
      · have htrig : triggeredRules data (r :: rest) = r :: triggeredRules data rest := by
          rw [triggeredRules_cons, if_pos (by simp [hen, hc])]
        have hr : ∀ w, (r.action data w).2 ≠ some Thrown.other :=
          h r (by rw [htrig]; exact List.mem_cons_self _ _)
        have hrest : ∀ q ∈ triggeredRules data rest, ∀ w,
            (q.action data w).2 ≠ some Thrown.other :=
          fun q hq => h q (by rw [htrig]; exact List.mem_cons_of_mem _ hq)
        have hstep : applyRules data (r :: rest) st
            = applyRules data rest
              { statistics :=
                  { st.statistics with
                    rulesTriggered := st.statistics.rulesTriggered + 1,
                    ruleTriggerCount := mapIncrement st.statistics.ruleTriggerCount r.name },
                world := (r.action data st.world).1,
                trace := (st.trace ++ [Event.conditionEvaluated r.name])
                  ++ [Event.actionExecuted r.name] } := by
          simp only [applyRules, hen, hc, hct, Bool.not_true, if_true,
            executeRule_caught r data _ (hr st.world)]
          rfl
        obtain ⟨i1, i2, i3, i4, i5, i6⟩ := applyRules_caught data rest
          { statistics :=
              { st.statistics with
                rulesTriggered := st.statistics.rulesTriggered + 1,
                ruleTriggerCount := mapIncrement st.statistics.ruleTriggerCount r.name },
            world := (r.action data st.world).1,
            trace := (st.trace ++ [Event.conditionEvaluated r.name])
              ++ [Event.actionExecuted r.name] } hcrest hrest
        rw [hstep, htrig]
        refine ⟨i1, i2, ?_, ?_, ?_, ?_⟩
        · rw [i3, List.length_cons]
          push_cast
          ring
        · rw [i4]
          rfl
        · rw [i5]
          rfl
        · rw [i6]
          simp [expectedTrace, hen, hc]
      · have htrig : triggeredRules data (r :: rest) = triggeredRules data rest := by
          rw [triggeredRules_cons, if_neg (by simp [hen, hc])]
        have hstep : applyRules data (r :: rest) st
            = applyRules data rest
              { st with trace := st.trace ++ [Event.conditionEvaluated r.name] } := by
          simp only [applyRules, hen, hc, hct, Bool.not_true]
          rfl
        obtain ⟨i1, i2, i3, i4, i5, i6⟩ := applyRules_caught data rest
          { st with trace := st.trace ++ [Event.conditionEvaluated r.name] } hcrest
          (by rw [← htrig]; exact h)
        rw [hstep, htrig]
        refine ⟨i1, i2, i3, i4, i5, ?_⟩
        rw [i6]
        simp [expectedTrace, hen, hc]
    · have htrig : triggeredRules data (r :: rest) = triggeredRules data rest := by
        rw [triggeredRules_cons, if_neg (by simp [hen])]
      have hstep : applyRules data (r :: rest) st = applyRules data rest st := by
        simp [applyRules, hen]
      obtain ⟨i1, i2, i3, i4, i5, i6⟩ := applyRules_caught data rest st hcrest
        (by rw [← htrig]; exact h)
      rw [hstep, htrig]
      refine ⟨i1, i2, i3, i4, i5, ?_⟩
      rw [i6]
      simp [expectedTrace, hen]

theorem countOf_mapIncrement (m : List (String × Int)) (key n : String) :
    countOf (mapIncrement m key) n = countOf m n + (if key = n then 1 else 0) := by
  induction m with
  | nil =>
    by_cases h : key = n <;> simp [mapIncrement, countOf, h]
  | cons e rest ih =>
    obtain ⟨k, c⟩ := e
    by_cases hk : k = key
    · by_cases hn : k = n
      · have : key = n := hk ▸ hn
        simp [mapIncrement, countOf, hk, this]
      · have : ¬ key = n := fun h => hn (hk.trans h)
        simp [mapIncrement, countOf, hk, this]
    · by_cases hn : k = n
      · have : ¬ key = n := fun h => hk (hn.trans h.symm)
        subst hn
        simp [mapIncrement, countOf, hk, this]
      · simp [mapIncrement, countOf, hk, hn, ih]

theorem countOf_bumpCounts {W : Type} (n : String) :
    ∀ (rules : List (Rule W)) (m : List (String × Int)),
      countOf (bumpCounts m rules) n
        = countOf m n + ((rules.filter (fun r => decide (r.name = n))).length : Int)
  | [], m => by simp [bumpCounts]
  | r :: rest, m => by
    have ih := countOf_bumpCounts n rest (mapIncrement m r.name)
    have hstep : bumpCounts m (r :: rest) = bumpCounts (mapIncrement m r.name) rest := rfl
    rw [hstep, ih, countOf_mapIncrement, List.filter_cons]
    by_cases h : r.name = n
    · simp only [h, if_true, decide_True, List.length_cons]
      push_cast
      ring
    · simp [h]

theorem expectedTrace_actions {W : Type} (data : IoTData) :
    ∀ (rules : List (Rule W)),
      (expectedTrace data rules).filter Event.isAction
        = (triggeredRules data rules).map (fun r => Event.actionExecuted r.name)
  | [] => rfl
  | r :: rest => by
    have ih := expectedTrace_actions data rest
    rw [triggeredRules_cons]
    by_cases hen : r.enabled = true
    · by_cases hc : r.condition data = true
      · simp [expectedTrace, hen, hc, Event.isAction, ih]
      · simp [expectedTrace, hen, hc, Event.isAction, ih]
    · simp [expectedTrace, hen, ih]

theorem mem_expectedTrace_condition {W : Type} (data : IoTData) (n : String) :
    ∀ (rules : List (Rule W)), Event.conditionEvaluated n ∈ expectedTrace data rules →
      ∃ r ∈ rules, r.enabled = true ∧ r.name = n
  | [], h => by simp [expectedTrace] at h
  | r :: rest, h => by
    rw [expectedTrace, List.mem_append] at h
    rcases h with h | h
    · by_cases hen : r.enabled = true
      · by_cases hc : r.condition data = true
        · simp [hen, hc] at h
          exact ⟨r, List.mem_cons_self _ _, hen, h.symm⟩
        · simp [hen, hc] at h
          exact ⟨r, List.mem_cons_self _ _, hen, h.symm⟩
      · simp [hen] at h
    · obtain ⟨q, hq, h1, h2⟩ := mem_expectedTrace_condition data n rest h
      exact ⟨q, List.mem_cons_of_mem _ hq, h1, h2⟩

theorem mem_expectedTrace_action {W : Type} (data : IoTData) (n : String) :
    ∀ (rules : List (Rule W)), Event.actionExecuted n ∈ expectedTrace data rules ↔
      ∃ r ∈ triggeredRules data rules, r.name = n := by
  intro rules
  have h1 : Event.actionExecuted n ∈ expectedTrace data rules ↔
      Event.actionExecuted n ∈ (expectedTrace data rules).filter Event.isAction := by
    rw [List.mem_filter]
    simp [Event.isAction]
  rw [h1, expectedTrace_actions, List.mem_map]
  constructor
  · rintro ⟨r, hr, he⟩
    exact ⟨r, hr, by injection he⟩
  · rintro ⟨r, hr, he⟩
    exact ⟨r, hr, by rw [he]⟩

/-- What `processData` returns on a valid sample when no condition of an
enabled rule throws and no action of a triggered rule throws an object that
`executeRule` lets through. -/
theorem processData_caught {W : Type} (data : IoTData) (e : RuleEngine W) (w : W)
    (hvalid : data.isValid = true)
    (hconds : ∀ r ∈ e.rules_, r.enabled = true → r.conditionThrows data = none)
    (hcaught : ∀ r ∈ triggeredRules data e.rules_, ∀ w1,
      (r.action data w1).2 ≠ some Thrown.other) :
    (processData data e w).escaped = none ∧
    (processData data e w).engine.rules_ = e.rules_ ∧
    (processData data e w).engine.statistics_.totalProcessed
      = e.statistics_.totalProcessed + 1 ∧
    (processData data e w).engine.statistics_.rulesTriggered
      = e.statistics_.rulesTriggered + (triggeredRules data e.rules_).length ∧
    (processData data e w).engine.statistics_.ruleTriggerCount
      = bumpCounts e.statistics_.ruleTriggerCount (triggeredRules data e.rules_) ∧
    (processData data e w).world = runActions data (triggeredRules data e.rules_) w ∧
    (processData data e w).trace = expectedTrace data e.rules_ := by
  obtain ⟨i1, i2, i3, i4, i5, i6⟩ := applyRules_caught data e.rules_
    { statistics := { e.statistics_ with totalProcessed := e.statistics_.totalProcessed + 1 },
      world := w, trace := [] } hconds hcaught
  have hp : processData data e w
      = { engine := { e with statistics_ := (applyRules data e.rules_
            { statistics :=
                { e.statistics_ with totalProcessed := e.statistics_.totalProcessed + 1 },
              world := w, trace := [] }).1.statistics },
          world := (applyRules data e.rules_
            { statistics :=
                { e.statistics_ with totalProcessed := e.statistics_.totalProcessed + 1 },
              world := w, trace := [] }).1.world,
          trace := (applyRules data e.rules_
            { statistics :=
                { e.statistics_ with totalProcessed := e.statistics_.totalProcessed + 1 },
              world := w, trace := [] }).1.trace,
          escaped := (applyRules data e.rules_
            { statistics :=
                { e.statistics_ with totalProcessed := e.statistics_.totalProcessed + 1 },
              world := w, trace := [] }).2 } := by
    unfold processData
    simp [hvalid]
  rw [hp]
  exact ⟨i1, rfl, i2, i3, i4, i5, by rw [i6]; rfl⟩

theorem expectedTrace_append {W : Type} (data : IoTData) (l2 : List (Rule W)) :
    ∀ (l1 : List (Rule W)),
      expectedTrace data (l1 ++ l2) = expectedTrace data l1 ++ expectedTrace data l2
  | [] => rfl
  | r :: rest => by
    rw [List.cons_append, expectedTrace, expectedTrace, expectedTrace_append data l2 rest,
      List.append_assoc]

theorem mem_triggeredRules {W : Type} {data : IoTData} {rules : List (Rule W)} {r : Rule W} :
    r ∈ triggeredRules data rules ↔ r ∈ rules ∧ r.enabled = true ∧ r.condition data = true := by
  unfold triggeredRules
  rw [List.mem_filter, Bool.and_eq_true]

/-- In a list with pairwise distinct names a member is the only rule of its name. -/
theorem filter_name_length_one {W : Type} (l : List (Rule W)) (r : Rule W)
    (hnd : (l.map (fun x => x.name)).Nodup) (hr : r ∈ l) :
    (l.filter (fun x => decide (x.name = r.name))).length = 1 := by
  have hc : (l.map (fun x => x.name)).count r.name = 1 :=
    List.count_eq_one_of_mem hnd (List.mem_map.mpr ⟨r, hr, rfl⟩)
  rw [List.count, List.countP_map, List.countP_eq_length_filter] at hc
  rw [← hc]
  congr 2

theorem triggeredRules_names_nodup {W : Type} (data : IoTData) (l : List (Rule W))
    (hnd : (l.map (fun x => x.name)).Nodup) :
    ((triggeredRules data l).map (fun x => x.name)).Nodup :=
  hnd.sublist ((List.filter_sublist l).map _)

/-- One turn of the loop of `processData` on a rule whose condition, if it is
called, returns and whose action, if it runs, throws nothing that `executeRule`
lets through. -/
theorem applyRules_cons_caught {W : Type} (data : IoTData) (r : Rule W) (rest : List (Rule W))
    (st : LoopState W)
    (hct : r.enabled = true → r.conditionThrows data = none)
    (h : r.enabled = true → r.condition data = true →
      (r.action data st.world).2 ≠ some Thrown.other) :
    applyRules data (r :: rest) st
      = applyRules data rest
          (if r.enabled = true then
            if r.condition data = true then
              { statistics :=
                  { st.statistics with
                    rulesTriggered := st.statistics.rulesTriggered + 1,
                    ruleTriggerCount := mapIncrement st.statistics.ruleTriggerCount r.name },
                world := (r.action data st.world).1,
                trace := (st.trace ++ [Event.conditionEvaluated r.name])
                  ++ [Event.actionExecuted r.name] }
            else { st with trace := st.trace ++ [Event.conditionEvaluated r.name] }
          else st) := by
  by_cases hen : r.enabled = true
  · by_cases hc : r.condition data = true
    · rw [if_pos hen, if_pos hc]
      simp only [applyRules, hen, hc, hct hen, Bool.not_true, if_true,
        executeRule_caught r data _ (h hen hc)]
      rfl
    · rw [if_pos hen, if_neg hc]
      simp only [applyRules, hen, hc, hct hen, Bool.not_true]
      rfl
  · rw [if_neg hen]
    simp [applyRules, hen]

/-- The loop of `processData` over a list whose first part lets no exception
through goes on over the second part from the state the first part leaves. -/
theorem applyRules_append_caught {W : Type} (data : IoTData) (rest : List (Rule W)) :
    ∀ (pre : List (Rule W)) (st : LoopState W),
      (∀ q ∈ pre, q.enabled = true → q.conditionThrows data = none) →
      (∀ q ∈ triggeredRules data pre, ∀ w, (q.action data w).2 ≠ some Thrown.other) →
      applyRules data (pre ++ rest) st = applyRules data rest (applyRules data pre st).1
  | [], _, _, _ => rfl
  | r :: pre, st, hcs, h => by
    have hct : r.enabled = true → r.conditionThrows data = none :=
      hcs r (List.mem_cons_self _ _)
    have hr : r.enabled = true → r.condition data = true →
        (r.action data st.world).2 ≠ some Thrown.other := by
      intro hen hc
      exact h r (mem_triggeredRules.mpr ⟨List.mem_cons_self _ _, hen, hc⟩) st.world
    have hpre : ∀ q ∈ triggeredRules data pre, ∀ w,
        (q.action data w).2 ≠ some Thrown.other := by
      intro q hq
      have := mem_triggeredRules.mp hq
      exact h q (mem_triggeredRules.mpr ⟨List.mem_cons_of_mem _ this.1, this.2⟩)
    rw [List.cons_append, applyRules_cons_caught data r (pre ++ rest) st hct hr,
      applyRules_cons_caught data r pre st hct hr]
    exact applyRules_append_caught data rest pre _
      (fun q hq => hcs q (List.mem_cons_of_mem _ hq)) hpre

/-- The loop of `processData` stops at an enabled rule whose condition
throws. -/
theorem applyRules_condition_escape {W : Type} (data : IoTData) (r : Rule W)
    (post : List (Rule W)) (st : LoopState W) (t : Thrown) (hen : r.enabled = true)
    (hct : r.conditionThrows data = some t) :
    applyRules data (r :: post) st
      = ({ st with trace := st.trace ++ [Event.conditionEvaluated r.name] }, some t) := by
  simp only [applyRules, hen, hct, Bool.not_true]
  rfl

/-- The loop of `processData` stops at a triggered rule whose action throws an
object that is not derived from `std::exception`. -/
theorem applyRules_escape {W : Type} (data : IoTData) (r : Rule W) (post : List (Rule W))
    (st : LoopState W) (hen : r.enabled = true) (hct : r.conditionThrows data = none)
    (hc : r.condition data = true)
    (hthrow : (r.action data st.world).2 = some Thrown.other) :
    applyRules data (r :: post) st
      = ({ st with
            world := (r.action data st.world).1,
            trace := (st.trace ++ [Event.conditionEvaluated r.name])
              ++ [Event.actionExecuted r.name] },
          some Thrown.other) := by
  have hexec : executeRule r data st.world = ((r.action data st.world).1, some Thrown.other) := by
    unfold executeRule
    rcases hact : r.action data st.world with ⟨w1, t⟩
    rw [hact] at hthrow
    simp only at hthrow
    rw [hthrow]
  simp only [applyRules, hen, hc, hct, Bool.not_true, if_true, hexec]
  rfl

theorem processData_valid {W : Type} (data : IoTData) (e : RuleEngine W) (w : W)
    (hvalid : data.isValid = true) :
    processData data e w
      = { engine := { e with statistics_ := (applyRules data e.rules_
            { statistics :=
                { e.statistics_ with totalProcessed := e.statistics_.totalProcessed + 1 },
              world := w, trace := [] }).1.statistics },
          world := (applyRules data e.rules_
            { statistics :=
                { e.statistics_ with totalProcessed := e.statistics_.totalProcessed + 1 },
              world := w, trace := [] }).1.world,
          trace := (applyRules data e.rules_
            { statistics :=
                { e.statistics_ with totalProcessed := e.statistics_.totalProcessed + 1 },
              world := w, trace := [] }).1.trace,
          escaped := (applyRules data e.rules_
            { statistics :=
                { e.statistics_ with totalProcessed := e.statistics_.totalProcessed + 1 },
              world := w, trace := [] }).2 } := by
  unfold processData
  simp [hvalid]

/-- What `processData` returns on a valid sample when the first triggered rule
whose action throws an object not derived from `std::exception` is `r`. -/
theorem processData_escape {W : Type} (data : IoTData) (e : RuleEngine W) (w : W)
    (pre post : List (Rule W)) (r : Rule W)
    (hvalid : data.isValid = true) (hrules : e.rules_ = pre ++ r :: post)
    (hen : r.enabled = true) (hcond : r.condition data = true)
    (hconds : ∀ q ∈ pre ++ [r], q.enabled = true → q.conditionThrows data = none)
    (hpre : ∀ q ∈ triggeredRules data pre, ∀ w1, (q.action data w1).2 ≠ some Thrown.other)
    (hthrow : ∀ w1, (r.action data w1).2 = some Thrown.other) :
    (processData data e w).escaped = some Thrown.other ∧
    (processData data e w).trace
      = expectedTrace data pre
          ++ [Event.conditionEvaluated r.name, Event.actionExecuted r.name] ∧
    (processData data e w).engine.statistics_.totalProcessed
      = e.statistics_.totalProcessed + 1 ∧
    (processData data e w).engine.statistics_.rulesTriggered
      = e.statistics_.rulesTriggered + (triggeredRules data pre).length ∧
    (processData data e w).engine.statistics_.ruleTriggerCount
      = bumpCounts e.statistics_.ruleTriggerCount (triggeredRules data pre) := by
  obtain ⟨_, i2, i3, i4, _, i6⟩ := applyRules_caught data pre
    { statistics := { e.statistics_ with totalProcessed := e.statistics_.totalProcessed + 1 },
      world := w, trace := [] } (fun q hq => hconds q (List.mem_append_left _ hq)) hpre
  rw [processData_valid data e w hvalid, hrules,
    applyRules_append_caught data _ pre _ (fun q hq => hconds q (List.mem_append_left _ hq))
      hpre,
    applyRules_escape data r post _ hen
      (hconds r (List.mem_append_right _ (List.mem_singleton_self _)) hen) hcond (hthrow _)]
  refine ⟨rfl, ?_, i2, i3, i4⟩
  show ((applyRules data pre _).1.trace ++ [Event.conditionEvaluated r.name])
    ++ [Event.actionExecuted r.name] = _
  rw [i6]
  simp

/-- What `processData` returns on a valid sample when the first rule that lets
an exception through is the enabled rule `r`, whose condition throws. -/
theorem processData_condition_escape {W : Type} (data : IoTData) (e : RuleEngine W) (w : W)
    (pre post : List (Rule W)) (r : Rule W) (t : Thrown)
    (hvalid : data.isValid = true) (hrules : e.rules_ = pre ++ r :: post)
    (hen : r.enabled = true) (hct : r.conditionThrows data = some t)
    (hconds : ∀ q ∈ pre, q.enabled = true → q.conditionThrows data = none)
    (hpre : ∀ q ∈ triggeredRules data pre, ∀ w1, (q.action data w1).2 ≠ some Thrown.other) :
    (processData data e w).escaped = some t ∧
    (processData data e w).trace
      = expectedTrace data pre ++ [Event.conditionEvaluated r.name] ∧
    (processData data e w).world = runActions data (triggeredRules data pre) w ∧
    (processData data e w).engine.statistics_.totalProcessed
      = e.statistics_.totalProcessed + 1 ∧
    (processData data e w).engine.statistics_.rulesTriggered
      = e.statistics_.rulesTriggered + (triggeredRules data pre).length ∧
    (processData data e w).engine.statistics_.ruleTriggerCount
      = bumpCounts e.statistics_.ruleTriggerCount (triggeredRules data pre) := by
  obtain ⟨_, i2, i3, i4, i5, i6⟩ := applyRules_caught data pre
    { statistics := { e.statistics_ with totalProcessed := e.statistics_.totalProcessed + 1 },
      world := w, trace := [] } hconds hpre
  rw [processData_valid data e w hvalid, hrules,
    applyRules_append_caught data _ pre _ hconds hpre,
    applyRules_condition_escape data r post _ t hen hct]
  refine ⟨rfl, ?_, i5, i2, i3, i4⟩
  show (applyRules data pre _).1.trace ++ [Event.conditionEvaluated r.name] = _
  rw [i6]
  simp

/-- The calls the loop of `processData` makes are an initial part of the calls
expected on the rule list, whether an exception leaves the loop or not. -/
theorem applyRules_trace_initial {W : Type} (data : IoTData) :
    ∀ (rules : List (Rule W)) (st : LoopState W),
      ∃ evs : List Event, (applyRules data rules st).1.trace = st.trace ++ evs ∧
        evs <+: expectedTrace data rules
  | [], st => ⟨[], by simp [applyRules], List.prefix_refl _⟩
  | r :: rest, st => by
    by_cases hen : r.enabled = true
    · cases hct : r.conditionThrows data with
      | some t =>
        refine ⟨[Event.conditionEvaluated r.name], ?_, ?_⟩
        · rw [applyRules_condition_escape data r rest st t hen hct]
        · simp [expectedTrace, hen]
      | none =>
        by_cases hc : r.condition data = true
        · rcases hx : executeRule r data st.world with ⟨w1, t0⟩
          cases t0 with
          | some t =>
            refine ⟨[Event.conditionEvaluated r.name, Event.actionExecuted r.name], ?_, ?_⟩
            · simp only [applyRules, hen, hct, hc, hx, Bool.not_true, if_true]
              simp
            · simp [expectedTrace, hen, hc]
          | none =>
            obtain ⟨evs, h1, h2⟩ := applyRules_trace_initial data rest
              { statistics :=
                  { st.statistics with
                    rulesTriggered := st.statistics.rulesTriggered + 1,
                    ruleTriggerCount := mapIncrement st.statistics.ruleTriggerCount r.name },
                world := w1,
                trace := (st.trace ++ [Event.conditionEvaluated r.name])
                  ++ [Event.actionExecuted r.name] }
            refine ⟨Event.conditionEvaluated r.name :: Event.actionExecuted r.name :: evs,
              ?_, ?_⟩
            · simp only [applyRules, hen, hct, hc, hx, Bool.not_true, if_true]
              simp only [Bool.false_eq_true, if_false]
              rw [h1]
              simp
            · simp [expectedTrace, hen, hc, h2]
        · obtain ⟨evs, h1, h2⟩ := applyRules_trace_initial data rest
            { st with trace := st.trace ++ [Event.conditionEvaluated r.name] }
          refine ⟨Event.conditionEvaluated r.name :: evs, ?_, ?_⟩
          · simp only [applyRules, hen, hct, hc, Bool.not_true]
            simp only [Bool.false_eq_true, if_false]
            rw [h1]
            simp
          · simp [expectedTrace, hen, hc, h2]
    · obtain ⟨evs, h1, h2⟩ := applyRules_trace_initial data rest st
      refine ⟨evs, ?_, ?_⟩
      · simp only [applyRules, hen, Bool.not_false, Bool.not_eq_true] at h1 ⊢
        simpa [hen] using h1
      · simp [expectedTrace, hen, h2]

/-! ## Lemmas on the alert processing service -/

theorem shouldNotify_of_none (u : Int) (d k : String) (v : Double) (now : TimePoint)
    (s : AlertProcessingService)
    (h : mapFind (evictLoop now s.alertCache_) (cacheKey u d k) = none) :
    shouldNotify u d k v now s
      = (true, { s with alertCache_ := evictLoop now s.alertCache_ ++ [(cacheKey u d k, now)] }) := by
  unfold shouldNotify
  simp [h, mapAssign_of_none]

theorem shouldNotify_of_some (u : Int) (d k : String) (v : Double) (now : TimePoint)
    (s : AlertProcessingService)
    (h : (mapFind (evictLoop now s.alertCache_) (cacheKey u d k)).isSome = true) :
    shouldNotify u d k v now s = (false, { s with alertCache_ := evictLoop now s.alertCache_ }) := by
  unfold shouldNotify
  simp [h]

/-- The notify-check passes: the gateway is called and the statistics are
updated. -/
theorem notifyAndDispatch_pass (u : Int) (d k : String) (v : Double) (m dir : String)
    (w : AlertWorld)
    (hfresh : mapFind (evictLoop (w.clock w.clockReads) w.service.alertCache_)
      (cacheKey u d k) = none) :
    notifyAndDispatch u d k v m dir w
      = ({ w with
            service := updateStatistics m
              { w.service with
                alertCache_ := evictLoop (w.clock w.clockReads) w.service.alertCache_
                  ++ [(cacheKey u d k, w.clock w.clockReads)] },
            clockReads := w.clockReads + 1,
            trace := (w.trace ++ [AlertEvent.shouldNotify u d k true])
              ++ [AlertEvent.sendTelegramAlert
                { chatId := u, deviceId := d, value := v, metricType := m,
                  direction := dir }] }, none) := by
  unfold notifyAndDispatch
  simp only [shouldNotify_of_none u d k v _ w.service hfresh, if_true]

/-- The notify-check finds a live entry for the key. -/
theorem notifyAndDispatch_suppressed (u : Int) (d k : String) (v : Double) (m dir : String)
    (w : AlertWorld)
    (hlive : (mapFind (evictLoop (w.clock w.clockReads) w.service.alertCache_)
      (cacheKey u d k)).isSome = true) :
    notifyAndDispatch u d k v m dir w
      = ({ w with
            service :=
              { w.service with
                alertCache_ := evictLoop (w.clock w.clockReads) w.service.alertCache_ },
            clockReads := w.clockReads + 1,
            trace := w.trace ++ [AlertEvent.shouldNotify u d k false] }, none) := by
  unfold notifyAndDispatch
  simp [shouldNotify_of_some u d k v _ w.service hlive]

theorem updateStatistics_statsInv (m : String) (s : AlertProcessingService)
    (hm : m = "temperature" ∨ m = "humidity") (h : StatsInv s.statistics_) :
    StatsInv (updateStatistics m s).statistics_ := by
  unfold StatsInv at h ⊢
  obtain ⟨h1, h2⟩ := h
  rcases hm with hm | hm
  · subst hm
    simp only [updateStatistics, if_true]
    constructor <;> omega
  · subst hm
    have hne : ¬ ("humidity" = "temperature") := by decide
    simp only [updateStatistics, hne, if_false, if_true]
    constructor <;> omega

theorem good_skip : Good (skip : AlertWorld → AlertWorld × Option Thrown) where
  noOther := fun _ h => Option.noConfusion h
  database := fun _ => rfl
  notifier := fun _ => rfl
  clock := fun _ => rfl
  stats := fun _ h => h

theorem andThen_none {W : Type} (f g : W → W × Option Thrown) (w w1 : W)
    (h : f w = (w1, none)) : andThen f g w = g w1 := by
  unfold andThen
  rw [h]

theorem andThen_some {W : Type} (f g : W → W × Option Thrown) (w w1 : W) (t : Thrown)
    (h : f w = (w1, some t)) : andThen f g w = (w1, some t) := by
  unfold andThen
  rw [h]

theorem good_andThen (f g : AlertWorld → AlertWorld × Option Thrown)
    (hf : Good f) (hg : Good g) : Good (andThen f g) := by
  have key : ∀ w, (andThen f g w = g (f w).1 ∧ (f w).2 = none) ∨
      (andThen f g w = f w ∧ (f w).2 ≠ none) := by
    intro w
    rcases hfw : f w with ⟨w1, t⟩
    cases t with
    | none => exact Or.inl ⟨andThen_none f g w w1 hfw, rfl⟩
    | some t => exact Or.inr ⟨andThen_some f g w w1 t hfw, by simp⟩
  constructor
  · intro w
    rcases key w with ⟨h, _⟩ | ⟨h, _⟩
    · rw [h]; exact hg.noOther _
    · rw [h]; exact hf.noOther _
  · intro w
    rcases key w with ⟨h, _⟩ | ⟨h, _⟩
    · rw [h, hg.database, hf.database]
    · rw [h, hf.database]
  · intro w
    rcases key w with ⟨h, _⟩ | ⟨h, _⟩
    · rw [h, hg.notifier, hf.notifier]
    · rw [h, hf.notifier]
  · intro w
    rcases key w with ⟨h, _⟩ | ⟨h, _⟩
    · rw [h, hg.clock, hf.clock]
    · rw [h, hf.clock]
  · intro w hw
    rcases key w with ⟨h, _⟩ | ⟨h, _⟩
    · rw [h]; exact hg.stats _ (hf.stats _ hw)
    · rw [h]; exact hf.stats _ hw

theorem shouldNotify_statistics (u : Int) (d k : String) (v : Double) (now : TimePoint)
    (s : AlertProcessingService) :
    (shouldNotify u d k v now s).2.statistics_ = s.statistics_ := by
  unfold shouldNotify
  by_cases hf : (mapFind (evictLoop now s.alertCache_) (cacheKey u d k)).isSome = true
  · rw [if_pos hf]
  · rw [if_neg hf]

theorem good_notifyAndDispatch (u : Int) (d k : String) (v : Double) (m dir : String)
    (hm : m = "temperature" ∨ m = "humidity") :
    Good (notifyAndDispatch u d k v m dir) := by
  have key : ∀ w : AlertWorld, ∃ (s : AlertProcessingService) (tr : List AlertEvent)
      (t : Option Thrown), notifyAndDispatch u d k v m dir w
        = ({ w with service := s, clockReads := w.clockReads + 1, trace := tr }, t) ∧
      t ≠ some Thrown.other ∧
      (StatsInv w.service.statistics_ → StatsInv s.statistics_) := by
    intro w
    cases hfind : mapFind (evictLoop (w.clock w.clockReads) w.service.alertCache_)
        (cacheKey u d k) with
    | none =>
      exact ⟨_, _, _, notifyAndDispatch_pass u d k v m dir w hfind,
        fun h => Option.noConfusion h,
        fun h => updateStatistics_statsInv m _ hm h⟩
    | some t0 =>
      exact ⟨_, _, _, notifyAndDispatch_suppressed u d k v m dir w (by rw [hfind]; rfl),
        fun h => Option.noConfusion h, fun h => h⟩
  constructor
  · intro w
    obtain ⟨s, tr, t, h, ht, _⟩ := key w
    rw [h]; exact ht
  · intro w
    obtain ⟨s, tr, t, h, _, _⟩ := key w
    rw [h]
  · intro w
    obtain ⟨s, tr, t, h, _, _⟩ := key w
    rw [h]
  · intro w
    obtain ⟨s, tr, t, h, _, _⟩ := key w
    rw [h]
  · intro w hw
    obtain ⟨s, tr, t, h, _, hs⟩ := key w
    rw [h]; exact hs hw

theorem good_ite (c : Bool) (f g : AlertWorld → AlertWorld × Option Thrown)
    (hf : Good f) (hg : Good g) : Good (if c = true then f else g) := by
  cases c
  · simpa using hg
  · simpa using hf

theorem good_checkThresholds (alert : UserAlert) (u : Int) (d : String) (t h : Double) :
    Good (checkThresholds alert u d t h) := by
  unfold checkThresholds
  exact good_andThen _ _
    (good_ite _ _ _ (good_notifyAndDispatch _ _ _ _ _ _ (Or.inl rfl)) good_skip)
    (good_andThen _ _
      (good_ite _ _ _ (good_notifyAndDispatch _ _ _ _ _ _ (Or.inl rfl)) good_skip)
      (good_andThen _ _
        (good_ite _ _ _ (good_notifyAndDispatch _ _ _ _ _ _ (Or.inr rfl)) good_skip)
        (good_ite _ _ _ (good_notifyAndDispatch _ _ _ _ _ _ (Or.inr rfl)) good_skip)))

theorem good_checkUserAlerts (u : Int) (d : String) (t h : Double) :
    Good (checkUserAlerts u d t h) := by
  have key : ∀ w : AlertWorld,
      (∃ t0, t0 ≠ some Thrown.other ∧ checkUserAlerts u d t h w
        = ({ w with trace := w.trace ++ [AlertEvent.getUserAlert u] }, t0)) ∨
      (∃ alert, checkUserAlerts u d t h w
        = checkThresholds alert u d t h
            { w with trace := w.trace ++ [AlertEvent.getUserAlert u] }) := by
    intro w
    unfold checkUserAlerts
    cases hget : w.database_.getUserAlert u with
    | error what =>
      exact Or.inl ⟨_, fun h => Thrown.noConfusion (Option.some.inj h), rfl⟩
    | ok alert =>
      by_cases hany : alert.hasAnyAlert = true
      · exact Or.inr ⟨alert, by simp [hany]⟩
      · exact Or.inl ⟨none, fun h => Option.noConfusion h, by simp [hany]⟩
  have hct := fun alert => good_checkThresholds alert u d t h
  constructor
  · intro w
    rcases key w with ⟨t0, ht0, h⟩ | ⟨alert, h⟩
    · rw [h]; exact ht0
    · rw [h]; exact (hct alert).noOther _
  · intro w
    rcases key w with ⟨t0, ht0, h⟩ | ⟨alert, h⟩
    · rw [h]
    · rw [h, (hct alert).database]
  · intro w
    rcases key w with ⟨t0, ht0, h⟩ | ⟨alert, h⟩
    · rw [h]
    · rw [h, (hct alert).notifier]
  · intro w
    rcases key w with ⟨t0, ht0, h⟩ | ⟨alert, h⟩
    · rw [h]
    · rw [h, (hct alert).clock]
  · intro w hw
    rcases key w with ⟨t0, ht0, h⟩ | ⟨alert, h⟩
    · rw [h]; exact hw
    · rw [h]; exact (hct alert).stats _ hw

theorem forEachSubscriber_cons (d : String) (t h : Double) (u : Int) (rest : List Int) :
    forEachSubscriber d t h (u :: rest)
      = andThen (checkUserAlerts u d t h) (forEachSubscriber d t h rest) := by
  funext w
  rcases hc : checkUserAlerts u d t h w with ⟨w1, t0⟩
  cases t0 with
  | none => rw [andThen_none _ _ _ _ hc, forEachSubscriber, hc]
  | some t1 => rw [andThen_some _ _ _ _ _ hc, forEachSubscriber, hc]

theorem good_forEachSubscriber (d : String) (t h : Double) :
    ∀ (l : List Int), Good (forEachSubscriber d t h l)
  | [] => by
    have : forEachSubscriber d t h [] = skip := by
      funext w
      rfl
    rw [this]
    exact good_skip
  | u :: rest => by
    rw [forEachSubscriber_cons]
    exact good_andThen _ _ (good_checkUserAlerts u d t h) (good_forEachSubscriber d t h rest)

/-- A step that only records a call made on the repository. -/
theorem good_record (ev : AlertEvent) (t : Option Thrown) (ht : t ≠ some Thrown.other) :
    Good (fun w : AlertWorld => ({ w with trace := w.trace ++ [ev] }, t)) where
  noOther := fun _ => ht
  database := fun _ => rfl
  notifier := fun _ => rfl
  clock := fun _ => rfl
  stats := fun _ h => h

theorem processTelemetryData_eq (d : String) (t h : Double) (w : AlertWorld) :
    processTelemetryData d t h w
      = match w.database_.getDeviceSubscribers d with
        | Except.error what =>
          ({ w with trace := w.trace ++ [AlertEvent.getDeviceSubscribers d] },
            some (Thrown.stdException what))
        | Except.ok subscribers =>
          forEachSubscriber d t h subscribers
            { w with trace := w.trace ++ [AlertEvent.getDeviceSubscribers d] } := by
  unfold processTelemetryData
  cases w.database_.getDeviceSubscribers d with
  | error what => rfl
  | ok subscribers =>
    simp only
    rcases forEachSubscriber d t h subscribers
      { w with trace := w.trace ++ [AlertEvent.getDeviceSubscribers d] } with ⟨w1, t0⟩
    cases t0 <;> rfl

theorem good_processTelemetryData (d : String) (t h : Double) :
    Good (processTelemetryData d t h) := by
  have key : ∀ w : AlertWorld,
      (∃ t0, t0 ≠ some Thrown.other ∧ processTelemetryData d t h w
        = ({ w with trace := w.trace ++ [AlertEvent.getDeviceSubscribers d] }, t0)) ∨
      (∃ l, processTelemetryData d t h w
        = forEachSubscriber d t h l
            { w with trace := w.trace ++ [AlertEvent.getDeviceSubscribers d] }) := by
    intro w
    rw [processTelemetryData_eq]
    cases w.database_.getDeviceSubscribers d with
    | error what => exact Or.inl ⟨_, fun h => Thrown.noConfusion (Option.some.inj h), rfl⟩
    | ok l => exact Or.inr ⟨l, rfl⟩
  have hl := fun l => good_forEachSubscriber d t h l
  constructor
  · intro w
    rcases key w with ⟨t0, ht0, h⟩ | ⟨l, h⟩
    · rw [h]; exact ht0
    · rw [h]; exact (hl l).noOther _
  · intro w
    rcases key w with ⟨t0, ht0, h⟩ | ⟨l, h⟩
    · rw [h]
    · rw [h, (hl l).database]
  · intro w
    rcases key w with ⟨t0, ht0, h⟩ | ⟨l, h⟩
    · rw [h]
    · rw [h, (hl l).notifier]
  · intro w
    rcases key w with ⟨t0, ht0, h⟩ | ⟨l, h⟩
    · rw [h]
    · rw [h, (hl l).clock]
  · intro w hw
    rcases key w with ⟨t0, ht0, h⟩ | ⟨l, h⟩
    · rw [h]; exact hw
    · rw [h]; exact (hl l).stats _ hw
/-- A step is good when, on every state, it either only rewrites the record of
calls and throws nothing but a `std::exception`, or goes on as a good step from
a state whose record of calls alone was rewritten. -/
theorem good_of_shape (f : AlertWorld → AlertWorld × Option Thrown)
    (h : ∀ w : AlertWorld,
      (∃ (tr : List AlertEvent) (t0 : Option Thrown), t0 ≠ some Thrown.other ∧
        f w = ({ w with trace := tr }, t0)) ∨
      (∃ (g : AlertWorld → AlertWorld × Option Thrown) (tr : List AlertEvent), Good g ∧
        f w = g { w with trace := tr })) : Good f := by
  constructor
  · intro w
    rcases h w with ⟨tr, t0, ht0, hf⟩ | ⟨g, tr, hg, hf⟩
    · rw [hf]; exact ht0
    · rw [hf]; exact hg.noOther _
  · intro w
    rcases h w with ⟨tr, t0, ht0, hf⟩ | ⟨g, tr, hg, hf⟩
    · rw [hf]
    · rw [hf, hg.database]
  · intro w
    rcases h w with ⟨tr, t0, ht0, hf⟩ | ⟨g, tr, hg, hf⟩
    · rw [hf]
    · rw [hf, hg.notifier]
  · intro w
    rcases h w with ⟨tr, t0, ht0, hf⟩ | ⟨g, tr, hg, hf⟩
    · rw [hf]
    · rw [hf, hg.clock]
  · intro w hw
    rcases h w with ⟨tr, t0, ht0, hf⟩ | ⟨g, tr, hg, hf⟩
    · rw [hf]; exact hw
    · rw [hf]; exact hg.stats _ hw

theorem good_checkDevice (d : String) : Good (checkDevice d) := by
  apply good_of_shape
  intro w
  unfold checkDevice
  cases w.database_.getRemoteTelemetry d 1 with
  | error what => exact Or.inl ⟨_, _, fun h => Thrown.noConfusion (Option.some.inj h), rfl⟩
  | ok l =>
    cases l with
    | nil => exact Or.inl ⟨_, none, fun h => Option.noConfusion h, rfl⟩
    | cons data _ =>
      cases w.database_.getDeviceSubscribers d with
      | error what =>
        exact Or.inl ⟨_, _, fun h => Thrown.noConfusion (Option.some.inj h), rfl⟩
      | ok us =>
        cases us with
        | nil => exact Or.inl ⟨_, none, fun h => Option.noConfusion h, rfl⟩
        | cons u rest =>
          exact Or.inr ⟨forEachSubscriber d data.temperature data.humidity (u :: rest), _,
            good_forEachSubscriber _ _ _ _, rfl⟩

/-- One turn of the loop over the devices: whatever the turn throws is caught. -/
theorem forEachDevice_cons (d : String) (rest : List String) (w : AlertWorld) :
    forEachDevice (d :: rest) w = forEachDevice rest (checkDevice d w).1 := by
  have hno := (good_checkDevice d).noOther w
  rcases hc : checkDevice d w with ⟨w1, t0⟩
  rw [hc] at hno
  cases t0 with
  | none => rw [forEachDevice, hc]
  | some t1 =>
    cases t1 with
    | stdException what => rw [forEachDevice, hc]
    | other => exact absurd rfl hno

theorem forEachDevice_returns : ∀ (l : List String) (w : AlertWorld),
    (forEachDevice l w).2 = none
  | [], _ => rfl
  | d :: rest, w => by
    rw [forEachDevice_cons]
    exact forEachDevice_returns rest _

theorem good_forEachDevice : ∀ (l : List String), Good (forEachDevice l)
  | [] => by
    have : forEachDevice [] = skip := by
      funext w
      rfl
    rw [this]
    exact good_skip
  | d :: rest => by
    have ih := good_forEachDevice rest
    have hd := good_checkDevice d
    constructor
    · intro w
      rw [forEachDevice_cons]; exact ih.noOther _
    · intro w
      rw [forEachDevice_cons, ih.database, hd.database]
    · intro w
      rw [forEachDevice_cons, ih.notifier, hd.notifier]
    · intro w
      rw [forEachDevice_cons, ih.clock, hd.clock]
    · intro w hw
      rw [forEachDevice_cons]; exact ih.stats _ (hd.stats _ hw)

theorem good_checkAllSubscribedDevices : Good checkAllSubscribedDevices := by
  apply good_of_shape
  intro w
  unfold checkAllSubscribedDevices
  by_cases hconn : w.database_.isRemoteConnected = true
  · simp only [hconn, Bool.not_true, Bool.false_eq_true, if_false]
    cases w.database_.getAllSubscribedDevices with
    | error what => exact Or.inl ⟨_, _, fun h => Thrown.noConfusion (Option.some.inj h), rfl⟩
    | ok devices =>
      by_cases hempty : devices.isEmpty = true
      · exact Or.inl ⟨(w.trace ++ [AlertEvent.isRemoteConnected])
            ++ [AlertEvent.getAllSubscribedDevices], none, fun h => Option.noConfusion h,
          by simp only [hempty, if_true]⟩
      · exact Or.inr ⟨forEachDevice devices, _, good_forEachDevice devices,
          by simp only [hempty]; rfl⟩
  · have hfalse : w.database_.isRemoteConnected = false := by simpa using hconn
    exact Or.inl ⟨w.trace ++ [AlertEvent.isRemoteConnected], none,
      fun h => Option.noConfusion h, by simp [hfalse]⟩

theorem runAlertOps_cons (op : AlertOp) (ops : List AlertOp) (w : AlertWorld) :
    runAlertOps (op :: ops) w = runAlertOps ops (op.run w) := rfl

theorem statsInv_reachable : ∀ (ops : List AlertOp) (w : AlertWorld),
    StatsInv w.service.statistics_ → StatsInv (runAlertOps ops w).service.statistics_
  | [], _, h => h
  | op :: ops, w, h => by
    rw [runAlertOps_cons]
    apply statsInv_reachable ops
    cases op with
    | processTelemetryData d t hum => exact (good_processTelemetryData d t hum).stats w h
    | checkAllSubscribedDevices => exact good_checkAllSubscribedDevices.stats w h
    | resetStatistics => exact ⟨rfl, rfl⟩
    | surroundings db nt ck => exact h

theorem dispatched_append (w : AlertWorld) (evs : List AlertEvent) :
    dispatched { w with trace := w.trace ++ evs }
      = dispatched w ++ evs.filterMap AlertEvent.sent := by
  unfold dispatched
  simp [List.filterMap_append]
theorem newEvents_skip (A : AlertEvent → Prop) : NewEvents A skip :=
  fun w => ⟨[], by simp [skip], fun ev h => absurd h (List.not_mem_nil ev)⟩

theorem newEvents_mono {A B : AlertEvent → Prop} (h : ∀ ev, A ev → B ev)
    {f : AlertWorld → AlertWorld × Option Thrown} (hf : NewEvents A f) : NewEvents B f := by
  intro w
  obtain ⟨evs, h1, h2⟩ := hf w
  exact ⟨evs, h1, fun ev hev => h ev (h2 ev hev)⟩

theorem newEvents_andThen {A : AlertEvent → Prop}
    {f g : AlertWorld → AlertWorld × Option Thrown} (hf : NewEvents A f) (hg : NewEvents A g) :
    NewEvents A (andThen f g) := by
  intro w
  obtain ⟨evs, h1, h2⟩ := hf w
  rcases hfw : f w with ⟨w1, t⟩
  rw [hfw] at h1
  cases t with
  | none =>
    obtain ⟨evs2, h3, h4⟩ := hg w1
    refine ⟨evs ++ evs2, ?_, ?_⟩
    · rw [andThen_none f g w w1 hfw, h3, h1, List.append_assoc]
    · intro ev hev
      rcases List.mem_append.mp hev with h | h
      · exact h2 ev h
      · exact h4 ev h
  | some t =>
    exact ⟨evs, by rw [andThen_some f g w w1 t hfw]; exact h1, h2⟩

theorem newEvents_notifyAndDispatch (u : Int) (d k : String) (v : Double) (m dir : String) :
    NewEvents (blockEvent true u d k v m dir) (notifyAndDispatch u d k v m dir) := by
  intro w
  cases hfind : mapFind (evictLoop (w.clock w.clockReads) w.service.alertCache_)
      (cacheKey u d k) with
  | none =>
    have hev : ∀ ev ∈ [AlertEvent.shouldNotify u d k true, AlertEvent.sendTelegramAlert
        { chatId := u, deviceId := d, value := v, metricType := m, direction := dir }],
        blockEvent true u d k v m dir ev := by
      intro ev hev
      rw [List.mem_cons, List.mem_singleton] at hev
      rcases hev with h | h
      · exact ⟨rfl, Or.inl ⟨true, h⟩⟩
      · exact ⟨rfl, Or.inr h⟩
    rw [notifyAndDispatch_pass u d k v m dir w hfind]
    exact ⟨_, by simp, hev⟩
  | some t0 =>
    rw [notifyAndDispatch_suppressed u d k v m dir w (by rw [hfind]; rfl)]
    refine ⟨[AlertEvent.shouldNotify u d k false], rfl, ?_⟩
    intro ev hev
    rw [List.mem_singleton] at hev
    exact ⟨rfl, Or.inl ⟨false, hev⟩⟩

theorem newEvents_block (fires : Bool) (u : Int) (d k : String) (v : Double) (m dir : String) :
    NewEvents (blockEvent fires u d k v m dir)
      (if fires = true then notifyAndDispatch u d k v m dir else skip) := by
  cases fires
  · simpa using newEvents_skip _
  · simpa using newEvents_notifyAndDispatch u d k v m dir

theorem newEvents_checkThresholds (alert : UserAlert) (u : Int) (d : String) (t h : Double) :
    NewEvents (thresholdEvent alert u d t h) (checkThresholds alert u d t h) := by
  unfold checkThresholds
  refine newEvents_andThen
    (newEvents_mono (fun ev hev => Or.inl hev) (newEvents_block _ _ _ _ _ _ _))
    (newEvents_andThen
      (newEvents_mono (fun ev hev => Or.inr (Or.inl hev)) (newEvents_block _ _ _ _ _ _ _))
      (newEvents_andThen
        (newEvents_mono (fun ev hev => Or.inr (Or.inr (Or.inl hev)))
          (newEvents_block _ _ _ _ _ _ _))
        (newEvents_mono (fun ev hev => Or.inr (Or.inr (Or.inr hev)))
          (newEvents_block _ _ _ _ _ _ _))))

theorem thresholdEvent_userOf {alert : UserAlert} {u : Int} {d : String} {t h : Double}
    {ev : AlertEvent} (hev : thresholdEvent alert u d t h ev) : ev.userOf = some u := by
  rcases hev with ⟨_, hb⟩ | ⟨_, hb⟩ | ⟨_, hb⟩ | ⟨_, hb⟩ <;>
    rcases hb with ⟨b, hb⟩ | hb <;> rw [hb] <;> rfl

/-- The record of calls after `checkUserAlerts`: the fetch of the settings, then
events of the four blocks only, and none if the fetch fails. -/
theorem checkUserAlerts_trace (u : Int) (d : String) (t h : Double) (w : AlertWorld) :
    ∃ evs : List AlertEvent,
      (checkUserAlerts u d t h w).1.trace = w.trace ++ AlertEvent.getUserAlert u :: evs ∧
      ∀ ev ∈ evs, ∃ alert, w.database_.getUserAlert u = Except.ok alert ∧
        thresholdEvent alert u d t h ev := by
  unfold checkUserAlerts
  cases hget : w.database_.getUserAlert u with
  | error what => exact ⟨[], rfl, fun ev hev => absurd hev (List.not_mem_nil ev)⟩
  | ok alert =>
    by_cases hany : alert.hasAnyAlert = true
    · obtain ⟨evs, h1, h2⟩ := newEvents_checkThresholds alert u d t h
        { w with trace := w.trace ++ [AlertEvent.getUserAlert u] }
      refine ⟨evs, ?_, fun ev hev => ⟨alert, rfl, h2 ev hev⟩⟩
      simp only [hany, Bool.not_true, Bool.false_eq_true, if_false]
      rw [h1]
      simp
    · refine ⟨[], ?_, fun ev hev => absurd hev (List.not_mem_nil ev)⟩
      simp [hany]

theorem newEvents_checkUserAlerts (u : Int) (d : String) (t h : Double) :
    NewEvents (fun ev => ev.userOf = some u) (checkUserAlerts u d t h) := by
  intro w
  obtain ⟨evs, h1, h2⟩ := checkUserAlerts_trace u d t h w
  refine ⟨AlertEvent.getUserAlert u :: evs, h1, ?_⟩
  intro ev hev
  rcases List.mem_cons.mp hev with h | h
  · rw [h]; rfl
  · obtain ⟨alert, _, hte⟩ := h2 ev h
    exact thresholdEvent_userOf hte

theorem newEvents_forEachSubscriber (d : String) (t h : Double) :
    ∀ (l : List Int),
      NewEvents (fun ev => ∃ u ∈ l, ev.userOf = some u) (forEachSubscriber d t h l)
  | [] => by
    have : forEachSubscriber d t h [] = skip := by
      funext w
      rfl
    rw [this]
    exact newEvents_skip _
  | u :: rest => by
    rw [forEachSubscriber_cons]
    exact newEvents_andThen
      (newEvents_mono (fun ev hev => ⟨u, List.mem_cons_self _ _, hev⟩)
        (newEvents_checkUserAlerts u d t h))
      (newEvents_mono (fun ev ⟨v, hv, hev⟩ => ⟨v, List.mem_cons_of_mem _ hv, hev⟩)
        (newEvents_forEachSubscriber d t h rest))

/-- The loop over the subscribers, once it has gone through a first part of
the list without an exception, goes on over the rest. -/
theorem forEachSubscriber_append (d : String) (t h : Double) (post : List Int) :
    ∀ (pre : List Int) (w w1 : AlertWorld),
      forEachSubscriber d t h pre w = (w1, none) →
      forEachSubscriber d t h (pre ++ post) w = forEachSubscriber d t h post w1
  | [], w, w1, hpre => by
    have : w = w1 := by
      have := congrArg Prod.fst hpre
      exact this
    rw [List.nil_append, this]
  | u :: pre, w, w1, hpre => by
    rw [forEachSubscriber_cons] at hpre
    rw [List.cons_append, forEachSubscriber_cons]
    rcases hc : checkUserAlerts u d t h w with ⟨w2, t0⟩
    cases t0 with
    | none =>
      rw [andThen_none _ _ _ _ hc] at hpre ⊢
      exact forEachSubscriber_append d t h post pre w2 w1 hpre
    | some t1 =>
      rw [andThen_some _ _ _ _ _ hc] at hpre
      exact absurd (congrArg Prod.snd hpre) (by simp)

/-- When the loop over the subscribers returns, the settings of every
subscriber have been fetched. -/
theorem forEachSubscriber_all_evaluated (d : String) (t h : Double) :
    ∀ (l : List Int) (w w1 : AlertWorld), forEachSubscriber d t h l w = (w1, none) →
      (∀ ev ∈ w.trace, ev ∈ w1.trace) ∧ ∀ u ∈ l, AlertEvent.getUserAlert u ∈ w1.trace
  | [], w, w1, hl => by
    have : w = w1 := congrArg Prod.fst hl
    rw [← this]
    exact ⟨fun ev hev => hev, fun u hu => absurd hu (List.not_mem_nil u)⟩
  | u :: rest, w, w1, hl => by
    rw [forEachSubscriber_cons] at hl
    rcases hc : checkUserAlerts u d t h w with ⟨w2, t0⟩
    cases t0 with
    | none =>
      rw [andThen_none _ _ _ _ hc] at hl
      obtain ⟨hgrow, hall⟩ := forEachSubscriber_all_evaluated d t h rest w2 w1 hl
      obtain ⟨evs, h1, _⟩ := checkUserAlerts_trace u d t h w
      rw [hc] at h1
      have hw2 : ∀ ev ∈ w.trace, ev ∈ w2.trace := by
        intro ev hev
        show ev ∈ w2.trace
        rw [h1]
        exact List.mem_append_left _ hev
      have hu2 : AlertEvent.getUserAlert u ∈ w2.trace := by
        show AlertEvent.getUserAlert u ∈ w2.trace
        rw [h1]
        exact List.mem_append_right _ (List.mem_cons_self _ _)
      refine ⟨fun ev hev => hgrow ev (hw2 ev hev), ?_⟩
      intro v hv
      rcases List.mem_cons.mp hv with h0 | h0
      · rw [h0]; exact hgrow _ hu2
      · exact hall v h0
    | some t1 =>
      rw [andThen_some _ _ _ _ _ hc] at hl
      exact absurd (congrArg Prod.snd hl) (by simp)
/-! ## Lemmas for the threshold semantics -/

theorem keysOf_fresh {d : String} {users : List Int} {u : Int} {ks : List String}
    {c : AlertCache} {k : String} (hk : k ∈ alertKinds) (hu : u ∉ users) (hks : k ∉ ks)
    (h : KeysOf d users u ks c) : mapFind c (cacheKey u d k) = none := by
  rw [mapFind_eq_none_iff]
  intro e he heq
  obtain ⟨v, k2, hk2, hkey, hor⟩ := h e he
  rw [hkey] at heq
  obtain ⟨hv, _, hkk⟩ := cacheKey_injective hk2 hk heq
  rcases hor with hmem | ⟨_, hmem⟩
  · exact hu (hv ▸ hmem)
  · exact hks (hkk ▸ hmem)

theorem keysOf_insert {d : String} {users : List Int} {u : Int} {ks : List String}
    {c : AlertCache} {k : String} (now : TimePoint) (hk : k ∈ alertKinds)
    (h : KeysOf d users u ks c) :
    KeysOf d users u (k :: ks) (evictLoop now c ++ [(cacheKey u d k, now)]) := by
  intro e he
  rcases List.mem_append.mp he with he | he
  · obtain ⟨v, k2, hk2, hkey, hor⟩ := h e (mem_evictLoop.mp he).1
    refine ⟨v, k2, hk2, hkey, ?_⟩
    rcases hor with hmem | ⟨hv, hmem⟩
    · exact Or.inl hmem
    · exact Or.inr ⟨hv, List.mem_cons_of_mem _ hmem⟩
  · rw [List.mem_singleton] at he
    exact ⟨u, k, hk, by rw [he], Or.inr ⟨rfl, List.mem_cons_self _ _⟩⟩

theorem keysOf_more_kinds {d : String} {users : List Int} {u : Int} {ks : List String}
    {c : AlertCache} (k : String) (h : KeysOf d users u ks c) :
    KeysOf d users u (k :: ks) c := by
  intro e he
  obtain ⟨v, k2, hk2, hkey, hor⟩ := h e he
  refine ⟨v, k2, hk2, hkey, ?_⟩
  rcases hor with hmem | ⟨hv, hmem⟩
  · exact Or.inl hmem
  · exact Or.inr ⟨hv, List.mem_cons_of_mem _ hmem⟩

theorem keysOf_done {d : String} {users : List Int} {u : Int} {ks : List String}
    {c : AlertCache} (u2 : Int) (h : KeysOf d users u ks c) :
    KeysOf d (u :: users) u2 [] c := by
  intro e he
  obtain ⟨v, k2, hk2, hkey, hor⟩ := h e he
  refine ⟨v, k2, hk2, hkey, Or.inl ?_⟩
  rcases hor with hmem | ⟨hv, _⟩
  · exact List.mem_cons_of_mem _ hmem
  · rw [hv]; exact List.mem_cons_self _ _

/-- One block of `checkUserAlerts` on a cache that holds no entry for its key:
the block dispatches its notification iff it fires. -/
theorem block_fresh (fires : Bool) (u : Int) (d k : String) (v : Double) (m dir : String)
    (w : AlertWorld) (users : List Int) (ks : List String)
    (hk : k ∈ alertKinds) (hu : u ∉ users) (hks : k ∉ ks)
    (hkeys : KeysOf d users u ks w.service.alertCache_) :
    ∃ w1 : AlertWorld,
      (if fires = true then notifyAndDispatch u d k v m dir else skip) w = (w1, none) ∧
      w1.database_ = w.database_ ∧ w1.notifier_ = w.notifier_ ∧
      dispatched w1 = dispatched w ++
        (if fires = true then
          [{ chatId := u, deviceId := d, value := v, metricType := m, direction := dir }]
        else []) ∧
      KeysOf d users u (k :: ks) w1.service.alertCache_ := by
  cases fires
  · refine ⟨w, by simp [skip], rfl, rfl, by simp, keysOf_more_kinds k hkeys⟩
  · have hfresh := mapFind_evictLoop_none (w.clock w.clockReads)
      (keysOf_fresh hk hu hks hkeys)
    have hp := notifyAndDispatch_pass u d k v m dir w hfresh
    refine ⟨(notifyAndDispatch u d k v m dir w).1, ?_, ?_, ?_, ?_, ?_⟩
    · rw [if_pos rfl, hp]
    · rw [hp]
    · rw [hp]
    · rw [hp, if_pos rfl]
      unfold dispatched
      simp [AlertEvent.sent]
    · rw [hp]
      exact keysOf_insert (w.clock w.clockReads) hk hkeys

/-- The four blocks of `checkUserAlerts` for a user that has no entry in the
cache. -/
theorem checkThresholds_fresh (alert : UserAlert) (u : Int) (d : String) (t h : Double)
    (w : AlertWorld) (users : List Int) (hu : u ∉ users)
    (hkeys : KeysOf d users u [] w.service.alertCache_) :
    ∃ w1 : AlertWorld, checkThresholds alert u d t h w = (w1, none) ∧
      w1.database_ = w.database_ ∧ w1.notifier_ = w.notifier_ ∧
      dispatched w1 = dispatched w ++ expectedNotifications alert u d t h ∧
      KeysOf d users u ["hum_low", "hum_high", "temp_low", "temp_high"]
        w1.service.alertCache_ := by
  obtain ⟨w1, e1, d1, n1, s1, k1⟩ := block_fresh
    (Double.gt alert.temperatureHighThreshold (Double.finite 0) &&
      Double.gt t alert.temperatureHighThreshold)
    u d "temp_high" t "temperature" "above" w users [] (by decide) hu (by decide) hkeys
  obtain ⟨w2, e2, d2, n2, s2, k2⟩ := block_fresh
    (Double.gt alert.temperatureLowThreshold (Double.finite 0) &&
      Double.lt t alert.temperatureLowThreshold)
    u d "temp_low" t "temperature" "below" w1 users ["temp_high"] (by decide) hu (by decide)
    k1
  obtain ⟨w3, e3, d3, n3, s3, k3⟩ := block_fresh
    (Double.gt alert.humidityHighThreshold (Double.finite 0) &&
      Double.gt h alert.humidityHighThreshold)
    u d "hum_high" h "humidity" "above" w2 users ["temp_low", "temp_high"] (by decide) hu
    (by decide) k2
  obtain ⟨w4, e4, d4, n4, s4, k4⟩ := block_fresh
    (Double.gt alert.humidityLowThreshold (Double.finite 0) &&
      Double.lt h alert.humidityLowThreshold)
    u d "hum_low" h "humidity" "below" w3 users ["hum_high", "temp_low", "temp_high"]
    (by decide) hu (by decide) k3
  refine ⟨w4, ?_, by rw [d4, d3, d2, d1], by rw [n4, n3, n2, n1], ?_, k4⟩
  · unfold checkThresholds
    rw [andThen_none _ _ _ _ e1, andThen_none _ _ _ _ e2, andThen_none _ _ _ _ e3, e4]
  · rw [s4, s3, s2, s1]
    unfold expectedNotifications
    simp only [List.append_assoc]

theorem expectedNotifications_unarmed (alert : UserAlert) (u : Int) (d : String)
    (t h : Double) (hany : alert.hasAnyAlert = false) :
    expectedNotifications alert u d t h = [] := by
  unfold UserAlert.hasAnyAlert at hany
  simp only [Bool.or_eq_false_iff] at hany
  obtain ⟨⟨⟨h1, h2⟩, h3⟩, h4⟩ := hany
  simp [expectedNotifications, h1, h2, h3, h4]

/-- `checkUserAlerts` for a user that has no entry in the cache, with settings
that the repository returns. -/
theorem checkUserAlerts_fresh (alert : UserAlert) (u : Int) (d : String) (t h : Double)
    (w : AlertWorld) (users : List Int) (hu : u ∉ users)
    (hget : w.database_.getUserAlert u = Except.ok alert)
    (hkeys : KeysOf d users u [] w.service.alertCache_) :
    ∃ w1 : AlertWorld, checkUserAlerts u d t h w = (w1, none) ∧
      w1.database_ = w.database_ ∧ w1.notifier_ = w.notifier_ ∧
      dispatched w1 = dispatched w ++ expectedNotifications alert u d t h ∧
      ∀ u2, KeysOf d (u :: users) u2 [] w1.service.alertCache_ := by
  have hd0 : dispatched { w with trace := w.trace ++ [AlertEvent.getUserAlert u] }
      = dispatched w := by
    rw [dispatched_append]
    simp [AlertEvent.sent]
  by_cases hany : alert.hasAnyAlert = true
  · obtain ⟨w1, e1, d1, n1, s1, k1⟩ := checkThresholds_fresh alert u d t h
      { w with trace := w.trace ++ [AlertEvent.getUserAlert u] } users hu hkeys
    refine ⟨w1, ?_, d1, n1, by rw [s1, hd0], fun u2 => keysOf_done u2 k1⟩
    unfold checkUserAlerts
    simp only [hget, hany, Bool.not_true, Bool.false_eq_true, if_false]
    exact e1
  · have hfalse : alert.hasAnyAlert = false := by simpa using hany
    refine ⟨{ w with trace := w.trace ++ [AlertEvent.getUserAlert u] }, ?_, rfl, rfl, ?_,
      fun u2 => keysOf_done u2 hkeys⟩
    · unfold checkUserAlerts
      simp [hget, hfalse]
    · rw [hd0, expectedNotifications_unarmed alert u d t h hfalse, List.append_nil]

/-- The loop over subscribers none of which has an entry in the cache and none
of which is repeated, with a repository that returns. -/
theorem forEachSubscriber_fresh (cfg : Int → UserAlert) (d : String) (t h : Double) :
    ∀ (l : List Int) (users : List Int) (w : AlertWorld), l.Nodup →
      (∀ u ∈ l, u ∉ users) →
      (∀ u ∈ l, w.database_.getUserAlert u = Except.ok (cfg u)) →
      (∀ u2, KeysOf d users u2 [] w.service.alertCache_) →
      ∃ w1 : AlertWorld, forEachSubscriber d t h l w = (w1, none) ∧
        dispatched w1 = dispatched w
          ++ (l.map (fun u => expectedNotifications (cfg u) u d t h)).flatten
  | [], users, w, _, _, _, _ => ⟨w, rfl, by simp⟩
  | u :: rest, users, w, hnd, hdisj, hcfg, hkeys => by
    obtain ⟨w1, e1, d1, n1, s1, k1⟩ := checkUserAlerts_fresh (cfg u) u d t h w users
      (hdisj u (List.mem_cons_self _ _)) (hcfg u (List.mem_cons_self _ _)) (hkeys u)
    have hnd2 := List.nodup_cons.mp hnd
    obtain ⟨w2, e2, s2⟩ := forEachSubscriber_fresh cfg d t h rest (u :: users) w1 hnd2.2
      (by
        intro v hv hmem
        rcases List.mem_cons.mp hmem with h0 | h0
        · exact hnd2.1 (h0 ▸ hv)
        · exact hdisj v (List.mem_cons_of_mem _ hv) h0)
      (by
        intro v hv
        rw [d1]
        exact hcfg v (List.mem_cons_of_mem _ hv))
      k1
    refine ⟨w2, ?_, ?_⟩
    · rw [forEachSubscriber_cons, andThen_none _ _ _ _ e1, e2]
    · rw [s2, s1]
      simp [List.append_assoc]

theorem Double.lt_false_of_le {a b : Double} (h : Double.le a b = true) :
    Double.lt b a = false := by
  cases a <;> cases b <;> simp_all [Double.le, Double.lt]

theorem Double.gt_false_of_le {a b : Double} (h : Double.le a b = true) :
    Double.gt a b = false :=
  Double.lt_false_of_le h

/-- The default rules that trigger on a sample whose temperature lies in
15..28 and whose humidity lies in 30..70: the validation rule alone. -/
theorem triggeredRules_default_inband {W : Type} (S : StdSort) (e : RuleEngine W)
    (data : IoTData)
    (ht1 : Double.le (Double.finite 15) data.temperature = true)
    (ht2 : Double.le data.temperature (Double.finite 28) = true)
    (hh1 : Double.le (Double.finite 30) data.humidity = true)
    (hh2 : Double.le data.humidity (Double.finite 70) = true) :
    triggeredRules data (setupDefaultRules S e).rules_ = [createDataValidationRule] := by
  have hp := (setupDefaultRules_perm S e).filter (fun r => r.enabled && r.condition data)
  have hf : (defaultRules e).filter (fun r => r.enabled && r.condition data)
      = [createDataValidationRule] := by
    simp [defaultRules, List.filter_cons, createDataValidationRule, createTemperatureHighRule,
      createTemperatureLowRule, createHumidityHighRule, createHumidityLowRule,
      Double.gt_false_of_le ht2, Double.lt_false_of_le ht1, Double.gt_false_of_le hh2,
      Double.lt_false_of_le hh1]
  rw [hf] at hp
  exact List.perm_singleton.mp hp

/-- The default rules that trigger on the sample of Scenario A: the validation
rule, then the temperature-high rule. -/
theorem triggeredRules_default_sampleD1 {W : Type} (S : StdSort) (e : RuleEngine W) :
    triggeredRules sampleD1 (setupDefaultRules S e).rules_
      = [createDataValidationRule, createTemperatureHighRule e (Double.finite 28)] := by
  have hp := (setupDefaultRules_perm S e).filter (fun r => r.enabled && r.condition sampleD1)
  have hf : (defaultRules e).filter (fun r => r.enabled && r.condition sampleD1)
      = [createDataValidationRule, createTemperatureHighRule e (Double.finite 28)] := by
    have c1 : Double.gt (Double.finite 35) (Double.finite 28) = true := by decide
    have c2 : Double.lt (Double.finite 35) (Double.finite 15) = false := by decide
    have c3 : Double.gt (Double.finite 50) (Double.finite 70) = false := by decide
    have c4 : Double.lt (Double.finite 50) (Double.finite 30) = false := by decide
    simp [defaultRules, List.filter_cons, createDataValidationRule, createTemperatureHighRule,
      createTemperatureLowRule, createHumidityHighRule, createHumidityLowRule, sampleD1,
      c1, c2, c3, c4]
  rw [hf] at hp
  have hsorted : (triggeredRules sampleD1 (setupDefaultRules S e).rules_).Pairwise
      (fun a b => a.priority ≥ b.priority) :=
    List.Pairwise.sublist (List.filter_sublist _) (setupDefaultRules_sorted S e)
  exact sorted_perm_unique _ _ hp hsorted
    (by simp [createDataValidationRule, createTemperatureHighRule])

/-- An event of a block whose threshold is not armed does not exist; an event
of another block is neither the notify-check of this alert type nor the
gateway call of this metric and direction. -/
theorem blockEvent_other {fires : Bool} {u : Int} {d k : String} {v : Double}
    {m dir : String} {ev : AlertEvent} (k2 : String) (v2 : Double) (m2 dir2 : String)
    (h : blockEvent fires u d k v m dir ev) (hk : k ≠ k2) (hmd : ¬ (m = m2 ∧ dir = dir2)) :
    (∀ b, ev ≠ AlertEvent.shouldNotify u d k2 b) ∧
    ev ≠ AlertEvent.sendTelegramAlert
      { chatId := u, deviceId := d, value := v2, metricType := m2, direction := dir2 } := by
  obtain ⟨_, hev | hev⟩ := h
  · obtain ⟨b, hb⟩ := hev
    rw [hb]
    refine ⟨fun b2 hc => ?_, fun hc => AlertEvent.noConfusion hc⟩
    injection hc with _ _ hkk _
    exact hk hkk
  · rw [hev]
    refine ⟨fun b2 hc => AlertEvent.noConfusion hc, fun hc => ?_⟩
    injection hc with hn
    injection hn with _ _ _ hm hd
    exact hmd ⟨hm, hd⟩

theorem blockEvent_unarmed {th : Double} {u : Int} {d k : String} {v : Double}
    {m dir : String} {ev : AlertEvent} {c : Bool} (hth : Double.le th (Double.finite 0) = true)
    (h : blockEvent (Double.gt th (Double.finite 0) && c) u d k v m dir ev) : False := by
  have := h.1
  rw [Double.gt_false_of_le hth, Bool.false_and] at this
  exact absurd this (by decide)

theorem Double.lt_irrefl (x : Double) : Double.lt x x = false := by
  cases x <;> simp [Double.lt]

theorem forEachSubscriber_single (d : String) (t h : Double) (u : Int) (w : AlertWorld) :
    forEachSubscriber d t h [u] w = checkUserAlerts u d t h w := by
  rw [forEachSubscriber_cons]
  rcases hc : checkUserAlerts u d t h w with ⟨w1, t0⟩
  cases t0 with
  | none => rw [andThen_none _ _ _ _ hc]; rfl
  | some x => rw [andThen_some _ _ _ _ _ hc]

theorem andThen_skip_left {W : Type} (g : W → W × Option Thrown) (w : W) :
    andThen skip g w = g w := rfl

theorem andThen_skip_right {W : Type} (f : W → W × Option Thrown) (w : W) :
    andThen f skip w = f w := by
  rcases hf : f w with ⟨w1, t0⟩
  cases t0 with
  | none => rw [andThen_none _ _ _ _ hf]; rfl
  | some x => rw [andThen_some _ _ _ _ _ hf]

/-- With the settings of Scenario B, a temperature of 10 and a humidity in
30..70, the four blocks come down to the temperature-low block. -/
theorem checkThresholds_scenarioB (u : Int) (d : String) (h : Double) (w : AlertWorld)
    (hh1 : Double.le (Double.finite 30) h = true)
    (hh2 : Double.le h (Double.finite 70) = true) :
    checkThresholds scenarioAlert u d (Double.finite 10) h w
      = notifyAndDispatch u d "temp_low" (Double.finite 10) "temperature" "below" w := by
  have c1 : (Double.gt scenarioAlert.temperatureHighThreshold (Double.finite 0) &&
      Double.gt (Double.finite 10) scenarioAlert.temperatureHighThreshold) = false := by decide
  have c2 : (Double.gt scenarioAlert.temperatureLowThreshold (Double.finite 0) &&
      Double.lt (Double.finite 10) scenarioAlert.temperatureLowThreshold) = true := by decide
  have c3 : (Double.gt scenarioAlert.humidityHighThreshold (Double.finite 0) &&
      Double.gt h scenarioAlert.humidityHighThreshold) = false := by
    rw [show scenarioAlert.humidityHighThreshold = Double.finite 70 from rfl,
      Double.gt_false_of_le hh2, Bool.and_false]
  have c4 : (Double.gt scenarioAlert.humidityLowThreshold (Double.finite 0) &&
      Double.lt h scenarioAlert.humidityLowThreshold) = false := by
    rw [show scenarioAlert.humidityLowThreshold = Double.finite 30 from rfl,
      Double.lt_false_of_le hh1, Bool.and_false]
  unfold checkThresholds
  rw [c1, c2, c3, c4]
  simp only [Bool.false_eq_true, if_false, if_true]
  rw [andThen_skip_left, show andThen (skip : AlertWorld → AlertWorld × Option Thrown) skip = skip
    from rfl, andThen_skip_right]

/-- One call of Scenario B: the fetches of the subscriber list and of the
settings, then the temperature-low block. -/
theorem processTelemetryData_scenarioB_call (u : Int) (d : String) (h : Double) (w : AlertWorld)
    (hsubs : w.database_.getDeviceSubscribers d = Except.ok [u])
    (hcfg : w.database_.getUserAlert u = Except.ok scenarioAlert)
    (hh1 : Double.le (Double.finite 30) h = true)
    (hh2 : Double.le h (Double.finite 70) = true) :
    processTelemetryData d (Double.finite 10) h w
      = notifyAndDispatch u d "temp_low" (Double.finite 10) "temperature" "below"
          { w with trace := (w.trace ++ [AlertEvent.getDeviceSubscribers d])
              ++ [AlertEvent.getUserAlert u] } := by
  rw [processTelemetryData_eq, hsubs]
  simp only
  rw [forEachSubscriber_single]
  unfold checkUserAlerts
  simp only [hcfg]
  rw [show scenarioAlert.hasAnyAlert = true from by decide]
  simp only [Bool.not_true, Bool.false_eq_true, if_false]
  rw [checkThresholds_scenarioB u d h _ hh1 hh2]

/-- A call of Scenario B whose notify-check passes. -/
theorem scenario_call_pass (u : Int) (d : String) (h : Double) (w : AlertWorld)
    (hsubs : w.database_.getDeviceSubscribers d = Except.ok [u])
    (hcfg : w.database_.getUserAlert u = Except.ok scenarioAlert)
    (hh1 : Double.le (Double.finite 30) h = true)
    (hh2 : Double.le h (Double.finite 70) = true)
    (hfresh : mapFind (evictLoop (w.clock w.clockReads) w.service.alertCache_)
      (cacheKey u d "temp_low") = none) :
    ∃ w1 : AlertWorld, processTelemetryData d (Double.finite 10) h w = (w1, none) ∧
      w1.database_ = w.database_ ∧ w1.notifier_ = w.notifier_ ∧ w1.clock = w.clock ∧
      w1.clockReads = w.clockReads + 1 ∧
      w1.service.alertCache_ = evictLoop (w.clock w.clockReads) w.service.alertCache_
        ++ [(cacheKey u d "temp_low", w.clock w.clockReads)] ∧
      w1.service.statistics_.totalAlerts = w.service.statistics_.totalAlerts + 1 ∧
      dispatched w1 = dispatched w ++
        [{ chatId := u, deviceId := d, value := Double.finite 10,
           metricType := "temperature", direction := "below" }] := by
  have hp := notifyAndDispatch_pass u d "temp_low" (Double.finite 10) "temperature" "below"
    { w with trace := (w.trace ++ [AlertEvent.getDeviceSubscribers d])
        ++ [AlertEvent.getUserAlert u] } hfresh
  rw [← processTelemetryData_scenarioB_call u d h w hsubs hcfg hh1 hh2] at hp
  refine ⟨_, hp, rfl, rfl, rfl, rfl, rfl, rfl, ?_⟩
  unfold dispatched
  simp [AlertEvent.sent]

/-- A call of Scenario B whose notify-check finds a live entry. -/
theorem scenario_call_suppressed (u : Int) (d : String) (h : Double) (w : AlertWorld)
    (hsubs : w.database_.getDeviceSubscribers d = Except.ok [u])
    (hcfg : w.database_.getUserAlert u = Except.ok scenarioAlert)
    (hh1 : Double.le (Double.finite 30) h = true)
    (hh2 : Double.le h (Double.finite 70) = true)
    (hlive : (mapFind (evictLoop (w.clock w.clockReads) w.service.alertCache_)
      (cacheKey u d "temp_low")).isSome = true) :
    ∃ w1 : AlertWorld, processTelemetryData d (Double.finite 10) h w = (w1, none) ∧
      w1.database_ = w.database_ ∧ w1.notifier_ = w.notifier_ ∧ w1.clock = w.clock ∧
      w1.clockReads = w.clockReads + 1 ∧
      w1.service.alertCache_ = evictLoop (w.clock w.clockReads) w.service.alertCache_ ∧
      w1.service.statistics_.totalAlerts = w.service.statistics_.totalAlerts ∧
      dispatched w1 = dispatched w := by
  have hp := notifyAndDispatch_suppressed u d "temp_low" (Double.finite 10) "temperature"
    "below" { w with trace := (w.trace ++ [AlertEvent.getDeviceSubscribers d])
        ++ [AlertEvent.getUserAlert u] } hlive
  rw [← processTelemetryData_scenarioB_call u d h w hsubs hcfg hh1 hh2] at hp
  refine ⟨_, hp, rfl, rfl, rfl, rfl, rfl, rfl, ?_⟩
  unfold dispatched
  simp [AlertEvent.sent]

theorem evictLoop_single_kept (k : String) (t0 : TimePoint) :
    evictLoop (t0 + seconds 1) [(k, t0)] = [(k, t0)] := by
  simp [evictLoop, AlertProcessingService.cacheDuration_, seconds, ticksPerSecond]

theorem evictLoop_single_expired (k : String) (t0 : TimePoint) :
    evictLoop (t0 + seconds 301) [(k, t0)] = [] := by
  simp [evictLoop, AlertProcessingService.cacheDuration_, seconds, ticksPerSecond]

theorem notifyAndDispatch_returns (u : Int) (d k : String) (v : Double) (m dir : String)
    (w : AlertWorld) :
    (notifyAndDispatch u d k v m dir w).2 = none := by
  unfold notifyAndDispatch
  simp only
  split <;> rfl

/-- Two statements in sequence return when the first returns and the second
returns from every state with the same collaborators. -/
theorem andThen_returns {f g : AlertWorld → AlertWorld × Option Thrown} (hf : Good f)
    (w : AlertWorld) (h1 : (f w).2 = none)
    (h2 : ∀ w1 : AlertWorld, w1.notifier_ = w.notifier_ → w1.database_ = w.database_ →
      (g w1).2 = none) :
    (andThen f g w).2 = none := by
  rcases hfw : f w with ⟨w1, t0⟩
  rw [hfw] at h1
  simp only at h1
  subst h1
  rw [andThen_none _ _ _ _ hfw]
  have hn := hf.notifier w
  have hd := hf.database w
  rw [hfw] at hn hd
  exact h2 w1 hn hd

theorem block_returns (c : Bool) (u : Int) (d k : String) (v : Double) (m dir : String)
    (w : AlertWorld) :
    ((if c = true then notifyAndDispatch u d k v m dir else skip) w).2 = none := by
  cases c
  · rfl
  · exact notifyAndDispatch_returns u d k v m dir w

theorem checkThresholds_returns (alert : UserAlert) (u : Int) (d : String) (t h : Double)
    (w : AlertWorld) :
    (checkThresholds alert u d t h w).2 = none := by
  unfold checkThresholds
  refine andThen_returns (good_ite _ _ _ (good_notifyAndDispatch _ _ _ _ _ _ (Or.inl rfl))
    good_skip) w (block_returns _ _ _ _ _ _ _ w) (fun w1 _ _ => ?_)
  refine andThen_returns (good_ite _ _ _ (good_notifyAndDispatch _ _ _ _ _ _ (Or.inl rfl))
    good_skip) w1 (block_returns _ _ _ _ _ _ _ w1) (fun w2 _ _ => ?_)
  refine andThen_returns (good_ite _ _ _ (good_notifyAndDispatch _ _ _ _ _ _ (Or.inr rfl))
    good_skip) w2 (block_returns _ _ _ _ _ _ _ w2) (fun w3 _ _ => ?_)
  exact block_returns _ _ _ _ _ _ _ w3

theorem checkUserAlerts_returns (u : Int) (d : String) (t h : Double) (w : AlertWorld)
    (hget : ∃ alert, w.database_.getUserAlert u = Except.ok alert) :
    (checkUserAlerts u d t h w).2 = none := by
  obtain ⟨alert, hget⟩ := hget
  unfold checkUserAlerts
  simp only [hget]
  split
  · rfl
  · exact checkThresholds_returns alert u d t h _

/-- The loop over the subscribers returns when the repository yields the
settings of each of them. -/
theorem forEachSubscriber_returns (d : String) (t h : Double) :
    ∀ (l : List Int) (w : AlertWorld),
      (∀ u ∈ l, ∃ alert, w.database_.getUserAlert u = Except.ok alert) →
      (forEachSubscriber d t h l w).2 = none
  | [], _, _ => rfl
  | u :: rest, w, hget => by
    rw [forEachSubscriber_cons]
    refine andThen_returns (good_checkUserAlerts u d t h) w
      (checkUserAlerts_returns u d t h w (hget u (List.mem_cons_self _ _)))
      (fun w1 hn hd => ?_)
    exact forEachSubscriber_returns d t h rest w1
      (fun v hv => by rw [hd]; exact hget v (List.mem_cons_of_mem _ hv))

/-! ## Lemmas on isolation, statistics, formatting and the poller -/

theorem mapFind_isSome_of_mem {c : AlertCache} {e : String × TimePoint} (he : e ∈ c) :
    (mapFind c e.1).isSome = true := by
  cases hf : mapFind c e.1 with
  | some t => rfl
  | none => exact absurd rfl ((mapFind_eq_none_iff c e.1).mp hf e he)

theorem keeps_skip (I : AlertWorld → Prop) : Keeps I skip := fun _ h => h

theorem keeps_andThen {I : AlertWorld → Prop} {f g : AlertWorld → AlertWorld × Option Thrown}
    (hf : Keeps I f) (hg : Keeps I g) : Keeps I (andThen f g) := by
  intro w hw
  rcases hfw : f w with ⟨w1, t0⟩
  have h1 : I w1 := by
    have := hf w hw
    rw [hfw] at this
    exact this
  cases t0 with
  | none =>
    rw [andThen_none _ _ _ _ hfw]
    exact hg w1 h1
  | some x =>
    rw [andThen_some _ _ _ _ _ hfw]
    exact h1

theorem keeps_ite {I : AlertWorld → Prop} (c : Bool)
    {f g : AlertWorld → AlertWorld × Option Thrown} (hf : Keeps I f) (hg : Keeps I g) :
    Keeps I (if c = true then f else g) := by
  cases c
  · exact hg
  · exact hf

theorem keeps_checkThresholds {I : AlertWorld → Prop} (hI : StepInv I) (alert : UserAlert)
    (u : Int) (d : String) (t h : Double) : Keeps I (checkThresholds alert u d t h) := by
  unfold checkThresholds
  exact keeps_andThen
    (keeps_ite _ (hI.block ("temp_high", "temperature", "above") (by decide) u d t)
      (keeps_skip I))
    (keeps_andThen
      (keeps_ite _ (hI.block ("temp_low", "temperature", "below") (by decide) u d t)
        (keeps_skip I))
      (keeps_andThen
        (keeps_ite _ (hI.block ("hum_high", "humidity", "above") (by decide) u d h)
          (keeps_skip I))
        (keeps_ite _ (hI.block ("hum_low", "humidity", "below") (by decide) u d h)
          (keeps_skip I))))

theorem keeps_checkUserAlerts {I : AlertWorld → Prop} (hI : StepInv I) (u : Int) (d : String)
    (t h : Double) : Keeps I (checkUserAlerts u d t h) := by
  intro w hw
  have h0 := hI.record (AlertEvent.getUserAlert u) w rfl hw
  unfold checkUserAlerts
  simp only
  split
  · exact h0
  · split
    · exact h0
    · exact keeps_checkThresholds hI _ u d t h _ h0

theorem keeps_forEachSubscriber {I : AlertWorld → Prop} (hI : StepInv I) (d : String)
    (t h : Double) : ∀ (l : List Int), Keeps I (forEachSubscriber d t h l)
  | [] => fun _ hw => hw
  | u :: rest => by
    rw [forEachSubscriber_cons]
    exact keeps_andThen (keeps_checkUserAlerts hI u d t h)
      (keeps_forEachSubscriber hI d t h rest)

theorem keeps_processTelemetryData {I : AlertWorld → Prop} (hI : StepInv I) (d : String)
    (t h : Double) : Keeps I (processTelemetryData d t h) := by
  intro w hw
  have h0 := hI.record (AlertEvent.getDeviceSubscribers d) w rfl hw
  rw [processTelemetryData_eq]
  split
  · exact h0
  · exact keeps_forEachSubscriber hI d t h _ _ h0

theorem keeps_checkDevice {I : AlertWorld → Prop} (hI : StepInv I) (d : String) :
    Keeps I (checkDevice d) := by
  intro w hw
  have h0 := hI.record (AlertEvent.getRemoteTelemetry d 1) w rfl hw
  have h1 := hI.record (AlertEvent.getDeviceSubscribers d) _ rfl h0
  unfold checkDevice
  simp only
  split
  · exact h0
  · exact h0
  · split
    · exact h1
    · exact h1
    · exact keeps_forEachSubscriber hI d _ _ _ _ h1

/-- The state the loop over the devices leaves: each turn starts from the state
the turn before it left, whether that turn returned or threw. -/
theorem forEachDevice_fold : ∀ (l : List String) (w : AlertWorld),
    (forEachDevice l w).1 = l.foldl (fun acc d => (checkDevice d acc).1) w
  | [], _ => rfl
  | d :: rest, w => by
    rw [forEachDevice_cons, forEachDevice_fold rest, List.foldl_cons]

theorem keeps_forEachDevice {I : AlertWorld → Prop} (hI : StepInv I) :
    ∀ (l : List String), Keeps I (forEachDevice l)
  | [] => fun _ hw => hw
  | d :: rest => by
    intro w hw
    rw [forEachDevice_cons]
    exact keeps_forEachDevice hI rest _ (keeps_checkDevice hI d w hw)

theorem keeps_checkAllSubscribedDevices {I : AlertWorld → Prop} (hI : StepInv I) :
    Keeps I checkAllSubscribedDevices := by
  intro w hw
  have h0 := hI.record AlertEvent.isRemoteConnected w rfl hw
  have h1 := hI.record AlertEvent.getAllSubscribedDevices _ rfl h0
  unfold checkAllSubscribedDevices
  simp only
  split
  · exact h0
  · split
    · exact h1
    · split
      · exact h1
      · exact keeps_forEachDevice hI _ _ h1

/-- An event once recorded stays in the record of calls. -/
theorem stepInv_mem (ev0 : AlertEvent) : StepInv (fun w => ev0 ∈ w.trace) where
  record := fun _ _ _ h => List.mem_append_left _ h
  block := by
    intro b _ u d v w hw
    obtain ⟨evs, htr, _⟩ := newEvents_notifyAndDispatch u d b.1 v b.2.1 b.2.2 w
    show ev0 ∈ (notifyAndDispatch u d b.1 v b.2.1 b.2.2 w).1.trace
    rw [htr]
    exact List.mem_append_left _ hw

theorem checkDevice_fetches (d : String) (w : AlertWorld) :
    AlertEvent.getRemoteTelemetry d 1 ∈ (checkDevice d w).1.trace := by
  have h0 : AlertEvent.getRemoteTelemetry d 1 ∈
      (w.trace ++ [AlertEvent.getRemoteTelemetry d 1]) := by simp
  have h1 : AlertEvent.getRemoteTelemetry d 1 ∈
      ((w.trace ++ [AlertEvent.getRemoteTelemetry d 1])
        ++ [AlertEvent.getDeviceSubscribers d]) := by simp
  unfold checkDevice
  simp only
  split
  · exact h0
  · exact h0
  · split
    · exact h1
    · exact h1
    · exact keeps_forEachSubscriber (stepInv_mem _) d _ _ _
        { w with trace := (w.trace ++ [AlertEvent.getRemoteTelemetry d 1])
            ++ [AlertEvent.getDeviceSubscribers d] } h1

theorem forEachDevice_fetches : ∀ (l : List String) (w : AlertWorld),
    ∀ d ∈ l, AlertEvent.getRemoteTelemetry d 1 ∈ (forEachDevice l w).1.trace
  | [], _, d, hd => absurd hd (List.not_mem_nil d)
  | d0 :: rest, w, d, hd => by
    rw [forEachDevice_cons]
    rcases List.mem_cons.mp hd with h0 | h0
    · rw [h0]
      exact keeps_forEachDevice (stepInv_mem _) rest _ (checkDevice_fetches d0 w)
    · exact forEachDevice_fetches rest _ d h0

theorem statisticsLe_refl (a : Statistics) : Statistics.le a a :=
  ⟨le_refl _, le_refl _, fun _ => le_refl _⟩

theorem statisticsLe_trans {a b c : Statistics} (h1 : Statistics.le a b)
    (h2 : Statistics.le b c) : Statistics.le a c :=
  ⟨h1.1.trans h2.1, h1.2.1.trans h2.2.1, fun n => (h1.2.2 n).trans (h2.2.2 n)⟩

theorem applyRules_statistics_le {W : Type} (data : IoTData) :
    ∀ (l : List (Rule W)) (st : LoopState W),
      Statistics.le st.statistics (applyRules data l st).1.statistics
  | [], st => statisticsLe_refl _
  | rule :: rest, st => by
    unfold applyRules
    by_cases hen : rule.enabled = true
    · simp only [hen, Bool.not_true, Bool.false_eq_true, if_false]
      cases hct : rule.conditionThrows data with
      | some t => exact statisticsLe_refl _
      | none =>
        by_cases hc : rule.condition data = true
        · simp only [hc, if_true]
          rcases hx : executeRule rule data st.world with ⟨w1, t0⟩
          cases t0 with
          | some t => exact statisticsLe_refl _
          | none =>
            refine statisticsLe_trans ?_ (applyRules_statistics_le data rest _)
            refine ⟨le_refl _, by simp, fun n => ?_⟩
            simp only [countOf_mapIncrement]
            split <;> simp
        · simp only [hc, Bool.false_eq_true, if_false]
          exact applyRules_statistics_le data rest _
    · have hoff : rule.enabled = false := by simpa using hen
      simp only [hoff, Bool.not_false, if_true]
      exact applyRules_statistics_le data rest st

theorem processData_statistics_le {W : Type} (data : IoTData) (e : RuleEngine W) (w : W) :
    Statistics.le e.statistics_ (processData data e w).engine.statistics_ := by
  unfold processData
  by_cases hv : data.isValid = true
  · simp only [hv, Bool.not_true, Bool.false_eq_true, if_false]
    refine statisticsLe_trans ?_ (applyRules_statistics_le data e.rules_ _)
    exact ⟨by simp, le_refl _, fun _ => le_refl _⟩
  · have hinv : data.isValid = false := by simpa using hv
    simp only [hinv, Bool.not_false, if_true]
    exact statisticsLe_refl _

theorem addRule_statistics {W : Type} (S : StdSort) (rule : Rule W) (e : RuleEngine W) :
    (addRule S rule e).statistics_ = e.statistics_ := rfl

theorem removeRule_statistics {W : Type} (ruleName : String) (e : RuleEngine W) :
    (removeRule ruleName e).statistics_ = e.statistics_ := by
  unfold removeRule
  simp only
  split <;> rfl

theorem setupDefaultRules_statistics {W : Type} (S : StdSort) (e : RuleEngine W) :
    (setupDefaultRules S e).statistics_ = e.statistics_ := by
  unfold setupDefaultRules
  simp only [addRule_statistics]

/-- The alert counters are at least those of `st0`: a property the elementary
steps of the service keep. -/
theorem stepInv_statistics_le (st0 : AlertStatistics) :
    StepInv (fun w => AlertStatistics.le st0 w.service.statistics_) where
  record := fun _ _ _ h => h
  block := by
    intro b hb u d v w hw
    have hshape : (notifyAndDispatch u d b.1 v b.2.1 b.2.2 w).1.service.statistics_
          = w.service.statistics_ ∨
        (notifyAndDispatch u d b.1 v b.2.1 b.2.2 w).1.service.statistics_
          = (updateStatistics b.2.1 w.service).statistics_ := by
      unfold notifyAndDispatch
      simp only
      split
      · right
        simp only [updateStatistics, shouldNotify_statistics]
      · left
        exact shouldNotify_statistics _ _ _ _ _ _
    rcases hshape with hs | hs
    · simp only [hs]
      exact hw
    · simp only [hs]
      obtain ⟨h1, h2, h3, h4⟩ := hw
      unfold updateStatistics
      simp only
      split
      · exact ⟨by simp; omega, by simp; omega, by simpa using h3, by simp; omega⟩
      · split
        · exact ⟨by simp; omega, by simpa using h2, by simp; omega, by simp; omega⟩
        · exact ⟨by simp; omega, by simpa using h2, by simpa using h3, by simp; omega⟩

theorem loopsAlive_append (tr : List PollerEvent) (ev : PollerEvent) :
    loopsAlive (tr ++ [ev]) = ev.count (loopsAlive tr) := by
  simp [loopsAlive, List.foldl_append, PollerEvent.count]

theorem pollerInv_start (i : Int) (a : Application) (h : PollerInv a) :
    ∃ a1, startRemotePolling i a = some a1 ∧ PollerInv a1 := by
  rcases h with ⟨hr, ht, hl⟩ | ⟨hr, ht, hl⟩
  · exact ⟨a, by simp [startRemotePolling, hr], Or.inl ⟨hr, ht, hl⟩⟩
  · refine ⟨Application.mk true (some i) (a.trace ++ [PollerEvent.launched i]),
      by simp [startRemotePolling, hr, ht], Or.inl ⟨rfl, rfl, ?_⟩⟩
    show loopsAlive (a.trace ++ [PollerEvent.launched i]) = 1
    rw [loopsAlive_append, hl]
    rfl

theorem pollerInv_stop (a : Application) (h : PollerInv a) : PollerInv (stopRemotePolling a) := by
  rcases h with ⟨hr, ht, hl⟩ | ⟨hr, ht, hl⟩
  · obtain ⟨i, hi⟩ := Option.isSome_iff_exists.mp ht
    have hs : stopRemotePolling a = Application.mk false none
        (a.trace ++ [PollerEvent.joined]) := by
      simp [stopRemotePolling, hi]
    rw [hs]
    refine Or.inr ⟨rfl, rfl, ?_⟩
    show loopsAlive (a.trace ++ [PollerEvent.joined]) = 0
    rw [loopsAlive_append, hl]
    rfl
  · have hs : stopRemotePolling a = { a with pollingRunning_ := false } := by
      simp [stopRemotePolling, ht]
    rw [hs]
    exact Or.inr ⟨rfl, ht, hl⟩

theorem pollerInv_reachable : ∀ (ops : List PollerOp) (a : Application), PollerInv a →
    ∃ a1, runPollerOps ops a = some a1 ∧ PollerInv a1
  | [], a, h => ⟨a, rfl, h⟩
  | PollerOp.start i :: rest, a, h => by
    obtain ⟨a1, hs, h1⟩ := pollerInv_start i a h
    obtain ⟨a2, hr, h2⟩ := pollerInv_reachable rest a1 h1
    exact ⟨a2, by simp [runPollerOps, hs, hr], h2⟩
  | PollerOp.stop :: rest, a, h => by
    obtain ⟨a2, hr, h2⟩ := pollerInv_reachable rest _ (pollerInv_stop a h)
    exact ⟨a2, by simp [runPollerOps, hr], h2⟩

theorem digitChar_eq_zero_iff {k : Nat} (h : k < 10) :
    Nat.digitChar k = Char.ofNat 48 ↔ k = 0 := by
  interval_cases k <;> decide

theorem isDigit_ne_point {c : Char} (h : c.isDigit = true) : c ≠ Char.ofNat 46 := by
  intro hc
  rw [hc] at h
  exact absurd h (by decide)

theorem toDigits_ne_nil (n : Nat) : Nat.toDigits 10 n ≠ [] := by
  unfold Nat.toDigits
  rw [Nat.toDigitsCore]
  split
  · exact List.cons_ne_nil _ _
  · obtain ⟨pre, hpre, _⟩ := toDigitsCore_spec n (n / 10) [Nat.digitChar (n % 10)]
      (by omega)
    rw [hpre]
    simp

theorem fixed2_data (q : ℚ) :
    (Double.fixed2 (Double.finite q)).data
      = ((if q < 0 then [Char.ofNat 45] else []) ++ Nat.toDigits 10 (roundedHundredths q / 100))
        ++ [Char.ofNat 46, Nat.digitChar (roundedHundredths q % 100 / 10),
            Nat.digitChar (roundedHundredths q % 10)] := by
  unfold Double.fixed2
  simp only [String.data_append]
  have h1 : (toString (roundedHundredths q / 100)).data
      = Nat.toDigits 10 (roundedHundredths q / 100) := rfl
  rw [h1]
  split <;> (rw [List.append_assoc]; rfl)

/-- The two statements of `formatDoubleNice` on a string that ends in a point
and two characters other than the point. -/
theorem trim_two_decimals (P : List Char) (a b : Char) (ha : a ≠ Char.ofNat 46)
    (hb : b ≠ Char.ofNat 46) :
    (popBackPoint (popBackZeros (P ++ [Char.ofNat 46, a, b]).reverse)).reverse
      = P ++ (if b ≠ Char.ofNat 48 then [Char.ofNat 46, a, b]
          else if a ≠ Char.ofNat 48 then [Char.ofNat 46, a] else []) := by
  have hrev : (P ++ [Char.ofNat 46, a, b]).reverse = b :: a :: Char.ofNat 46 :: P.reverse := by
    simp
  rw [hrev]
  by_cases hb0 : b = Char.ofNat 48
  · by_cases ha0 : a = Char.ofNat 48
    · have hp : Char.ofNat 46 ≠ Char.ofNat 48 := by decide
      simp [popBackZeros, popBackPoint, hb0, ha0, hp]
    · simp [popBackZeros, popBackPoint, hb0, ha0, ha]
  · simp [popBackZeros, popBackPoint, hb0, hb]

theorem roundedHundredths_of_floor (q : ℚ) (k : Nat) (h0 : 0 ≤ q) (h1 : (k : ℚ) ≤ q * 100)
    (h2 : q * 100 - k < 1 / 2) : roundedHundredths q = k := by
  unfold roundedHundredths
  simp only
  rw [abs_of_nonneg h0]
  have hfl : Int.floor (q * 100) = (k : Int) := by
    rw [Int.floor_eq_iff]
    constructor
    · exact_mod_cast h1
    · push_cast
      linarith
  rw [hfl, Int.toNat_ofNat]
  rw [if_neg]
  rintro (h | ⟨h, _⟩) <;> linarith

theorem mem_sign_and_digits {q : ℚ} {n : Nat} {c : Char}
    (hc : c ∈ (if q < 0 then [Char.ofNat 45] else []) ++ Nat.toDigits 10 n) :
    c ≠ Char.ofNat 46 := by
  rcases List.mem_append.mp hc with h | h
  · split at h
    · rw [List.mem_singleton] at h
      rw [h]
      decide
    · exact absurd h (List.not_mem_nil c)
  · exact isDigit_ne_point ((toDigits_spec n).2 c h)

theorem alertType_of_block {b : String × String × String} (hb : b ∈ alertBlocks) (u : Int)
    (d : String) (v : Double) :
    Notification.cacheKey
      { chatId := u, deviceId := d, value := v, metricType := b.2.1, direction := b.2.2 }
      = cacheKey u d b.1 := by
  simp only [alertBlocks, List.mem_cons, List.mem_singleton, List.not_mem_nil, or_false] at hb
  rcases hb with hb | hb | hb | hb <;> subst hb <;> rfl

theorem updateStatistics_cache (m : String) (s : AlertProcessingService) :
    (updateStatistics m s).alertCache_ = s.alertCache_ := rfl

theorem updateStatistics_total (m : String) (s : AlertProcessingService) :
    (updateStatistics m s).statistics_.totalAlerts = s.statistics_.totalAlerts + 1 ∧
    (updateStatistics m s).statistics_.usersNotified = s.statistics_.usersNotified + 1 := by
  unfold updateStatistics
  simp only
  split
  · exact ⟨rfl, rfl⟩
  · split <;> exact ⟨rfl, rfl⟩

theorem notifyAndDispatch_clockReads (u : Int) (d k : String) (v : Double) (m dir : String)
    (w : AlertWorld) :
    (notifyAndDispatch u d k v m dir w).1.clockReads = w.clockReads + 1 := by
  unfold notifyAndDispatch
  simp only
  split <;> rfl

/-- The elementary steps of the service keep `SentOnce` up to the clock reading
`c1` when the clock advances by at most 300 s over the readings `c0` to `c1`. -/
theorem stepInv_sentOnce (ds0 : List Notification) (c0 c1 : Nat) (clock0 : Nat → TimePoint)
    (st0 : AlertStatistics)
    (hwin : ∀ i j, c0 ≤ i → i ≤ j → j < c1 → clock0 j - clock0 i ≤ seconds 300) :
    StepInv (fun w => w.clockReads ≤ c1 → SentOnce ds0 c0 clock0 st0 w) where
  record := by
    intro ev w hev hw0 hle
    have hw := hw0 hle
    obtain ⟨ns, hds, hnd, hent, hst⟩ := hw.sent
    refine ⟨hw.clock, hw.reads, ns, ?_, hnd, hent, hst⟩
    rw [dispatched_append]
    simp [hev, hds]
  block := by
    intro b hb u d v w hw0 hle
    have hle1 : w.clockReads + 1 ≤ c1 := by
      rw [← notifyAndDispatch_clockReads u d b.1 v b.2.1 b.2.2 w]
      exact hle
    have hw := hw0 (by omega)
    obtain ⟨ns, hds, hnd, hent, hst⟩ := hw.sent
    have hclock := hw.clock
    have hkept : ∀ n ∈ ns, ∃ i, c0 ≤ i ∧ i < w.clockReads + 1 ∧
        (n.cacheKey, clock0 i) ∈ evictLoop (w.clock w.clockReads) w.service.alertCache_ := by
      intro n hn
      obtain ⟨i, hi0, hi1, hmem⟩ := hent n hn
      refine ⟨i, hi0, by omega, mem_evictLoop.mpr ⟨hmem, ?_⟩⟩
      rw [hclock]
      exact hwin i w.clockReads hi0 (by omega) (by omega)
    cases hfind : mapFind (evictLoop (w.clock w.clockReads) w.service.alertCache_)
        (cacheKey u d b.1) with
    | some t0 =>
      have hsup := notifyAndDispatch_suppressed u d b.1 v b.2.1 b.2.2 w (by rw [hfind]; rfl)
      rw [hsup]
      refine ⟨hclock, Nat.le_succ_of_le hw.reads, ns, ?_, hnd, hkept, hst⟩
      have := dispatched_append w [AlertEvent.shouldNotify u d b.1 false]
      simp only [List.filterMap_cons, AlertEvent.sent, List.filterMap_nil,
        List.append_nil] at this
      rw [← hds, ← this]
      rfl
    | none =>
      have hkey := alertType_of_block hb u d v
      have hnew : cacheKey u d b.1 ∉ ns.map Notification.cacheKey := by
        intro hmem
        obtain ⟨n, hn, hk⟩ := List.mem_map.mp hmem
        obtain ⟨i, _, _, hin⟩ := hkept n hn
        rw [hk] at hin
        exact (mapFind_eq_none_iff _ _).mp hfind _ hin rfl
      have hdisp : ∀ w2 : AlertWorld,
          w2.trace = (w.trace ++ [AlertEvent.shouldNotify u d b.1 true])
            ++ [AlertEvent.sendTelegramAlert
              { chatId := u, deviceId := d, value := v, metricType := b.2.1,
                direction := b.2.2 }] →
          dispatched w2 = ds0 ++ (ns ++
            [{ chatId := u, deviceId := d, value := v, metricType := b.2.1,
               direction := b.2.2 }]) := by
        intro w2 htr
        unfold dispatched at hds ⊢
        rw [htr, List.filterMap_append, List.filterMap_append, hds]
        simp [AlertEvent.sent]
      have hnd2 : ((ns ++ [Notification.mk u d v b.2.1 b.2.2]).map Notification.cacheKey).Nodup := by
        rw [List.map_append, List.map_singleton, hkey]
        exact List.Nodup.append hnd (List.nodup_singleton _)
          (by
            intro x hx1 hx2
            rw [List.mem_singleton] at hx2
            exact hnew (hx2 ▸ hx1))
      have hent2 : ∀ n ∈ ns ++ [Notification.mk u d v b.2.1 b.2.2],
          ∃ i, c0 ≤ i ∧ i < w.clockReads + 1 ∧
            (n.cacheKey, clock0 i) ∈ evictLoop (w.clock w.clockReads) w.service.alertCache_
              ++ [(cacheKey u d b.1, w.clock w.clockReads)] := by
        intro n hn
        rcases List.mem_append.mp hn with h1 | h1
        · obtain ⟨i, hi0, hi1, hin⟩ := hkept n h1
          exact ⟨i, hi0, hi1, List.mem_append_left _ hin⟩
        · rw [List.mem_singleton] at h1
          refine ⟨w.clockReads, hw.reads, Nat.lt_succ_self _, List.mem_append_right _ ?_⟩
          rw [h1, hkey, hclock]
          exact List.mem_singleton_self _
      rw [notifyAndDispatch_pass u d b.1 v b.2.1 b.2.2 w hfind]
      refine ⟨hclock, Nat.le_succ_of_le hw.reads, _, hdisp _ rfl, hnd2, hent2, ?_⟩
      obtain ⟨h1, h2⟩ := hst
      obtain ⟨e1, e2⟩ := updateStatistics_total b.2.1
        { w.service with
          alertCache_ := evictLoop (w.clock w.clockReads) w.service.alertCache_
            ++ [(cacheKey u d b.1, w.clock w.clockReads)] }
      refine ⟨e1.trans ?_, e2.trans ?_⟩
      · show w.service.statistics_.totalAlerts + 1 = _
        rw [h1, List.length_append, List.length_singleton]
        push_cast
        ring
      · show w.service.statistics_.usersNotified + 1 = _
        rw [h2, List.length_append, List.length_singleton]
        push_cast
        ring

theorem sentOnce_start (w : AlertWorld) :
    SentOnce (dispatched w) w.clockReads w.clock w.service.statistics_ w :=
  ⟨rfl, le_refl _, [], by simp, List.nodup_nil, fun _ h => absurd h (List.not_mem_nil _),
    by simp, by simp⟩

theorem keeps_runActions {I : AlertWorld → Prop} (data : IoTData) :
    ∀ (l : List (Rule AlertWorld)) (w : AlertWorld),
      (∀ r ∈ l, Keeps I (r.action data)) → I w → I (runActions data l w)
  | [], _, _, hw => hw
  | r :: rest, w, hl, hw => by
    show I (runActions data rest (r.action data w).1)
    exact keeps_runActions data rest _ (fun q hq => hl q (List.mem_cons_of_mem _ hq))
      (hl r (List.mem_cons_self _ _) w hw)

/-- The action of a default rule is that of the validation rule, which returns
the state as it is, or one call of the alert service with the reading of the
sample. -/
theorem defaultRules_action (statistics : Statistics) (data : IoTData)
    {r : Rule AlertWorld} (hr : r ∈ defaultRules (wiredEngine statistics)) :
    r.action data = (fun w => (w, none)) ∨
    r.action data = processTelemetryData data.deviceId data.temperature data.humidity := by
  simp only [defaultRules, List.mem_cons, List.mem_singleton, List.not_mem_nil,
    or_false] at hr
  rcases hr with hm | hm | hm | hm | hm <;> rw [hm]
  · exact Or.inl rfl
  all_goals exact Or.inr rfl

/-- The action of the validation rule returns the state as it is; the action of
each of the four threshold rules is one call of the alert service with the
reading of the sample. -/
theorem defaultRules_action_by_name (statistics : Statistics) (data : IoTData)
    {r : Rule AlertWorld} (hr : r ∈ defaultRules (wiredEngine statistics)) :
    (r.name = "data_validation" → r.action data = (fun w => (w, none))) ∧
    (r.name ≠ "data_validation" →
      r.action data = processTelemetryData data.deviceId data.temperature data.humidity) := by
  simp only [defaultRules, List.mem_cons, List.mem_singleton, List.not_mem_nil,
    or_false] at hr
  rcases hr with hm | hm | hm | hm | hm <;> rw [hm]
  · exact ⟨fun _ => rfl, fun h => absurd rfl h⟩
  all_goals exact ⟨fun h => by
    simp [createTemperatureHighRule, createTemperatureLowRule, createHumidityHighRule,
      createHumidityLowRule] at h, fun _ => rfl⟩

/-- Running the actions of rules each of which is the validation rule or calls
the alert service with the reading of the sample: one call of the service per
rule that is not the validation rule. -/
theorem runActions_iterate (data : IoTData) :
    ∀ (l : List (Rule AlertWorld)) (w : AlertWorld),
      (∀ r ∈ l, (r.name = "data_validation" → r.action data = (fun w1 => (w1, none))) ∧
        (r.name ≠ "data_validation" →
          r.action data
            = processTelemetryData data.deviceId data.temperature data.humidity)) →
      runActions data l w
        = Nat.iterate
            (fun w1 => (processTelemetryData data.deviceId data.temperature data.humidity w1).1)
            (l.filter (fun r => decide (r.name ≠ "data_validation"))).length w
  | [], _, _ => rfl
  | r :: rest, w, h => by
    have ih := fun w2 => runActions_iterate data rest w2
      (fun q hq => h q (List.mem_cons_of_mem _ hq))
    have hr := h r (List.mem_cons_self _ _)
    have hstep : runActions data (r :: rest) w = runActions data rest (r.action data w).1 := rfl
    rw [hstep, ih, List.filter_cons]
    by_cases hn : r.name = "data_validation"
    · rw [hr.1 hn, if_neg (by simp [hn])]
    · rw [hr.2 hn, if_pos (by simp [hn]), List.length_cons, Function.iterate_succ_apply]

/-- The number of default threshold rules that trigger on a sample. -/
theorem triggeredRules_default_thresholds {W : Type} (S : StdSort) (e : RuleEngine W)
    (data : IoTData) :
    ((triggeredRules data (setupDefaultRules S e).rules_).filter
        (fun r => decide (r.name ≠ "data_validation"))).length
      = (if Double.gt data.temperature (Double.finite 28) = true then 1 else 0)
        + (if Double.lt data.temperature (Double.finite 15) = true then 1 else 0)
        + (if Double.gt data.humidity (Double.finite 70) = true then 1 else 0)
        + (if Double.lt data.humidity (Double.finite 30) = true then 1 else 0) := by
  have hp := ((setupDefaultRules_perm S e).filter
    (fun r => r.enabled && r.condition data)).filter
    (fun r => decide (r.name ≠ "data_validation"))
  unfold triggeredRules
  rw [hp.length_eq]
  cases c1 : Double.gt data.temperature (Double.finite 28) <;>
  cases c2 : Double.lt data.temperature (Double.finite 15) <;>
  cases c3 : Double.gt data.humidity (Double.finite 70) <;>
  cases c4 : Double.lt data.humidity (Double.finite 30) <;>
  simp [defaultRules, List.filter_cons, createDataValidationRule, createTemperatureHighRule,
    createTemperatureLowRule, createHumidityHighRule, createHumidityLowRule, c1, c2, c3, c4]

/-- The default rules that trigger on the sample with 35 degrees and 80
percent: the validation rule, the temperature-high rule and the humidity-high
rule, in this order. -/
theorem triggeredRules_default_sampleHotHumid {W : Type} (S : StdSort) (e : RuleEngine W) :
    triggeredRules sampleHotHumid (setupDefaultRules S e).rules_
      = [createDataValidationRule, createTemperatureHighRule e (Double.finite 28),
          createHumidityHighRule e (Double.finite 70)] := by
  have hp := (setupDefaultRules_perm S e).filter
    (fun r => r.enabled && r.condition sampleHotHumid)
  have hf : (defaultRules e).filter (fun r => r.enabled && r.condition sampleHotHumid)
      = [createDataValidationRule, createTemperatureHighRule e (Double.finite 28),
          createHumidityHighRule e (Double.finite 70)] := by
    have c1 : Double.gt (Double.finite 35) (Double.finite 28) = true := by decide
    have c2 : Double.lt (Double.finite 35) (Double.finite 15) = false := by decide
    have c3 : Double.gt (Double.finite 80) (Double.finite 70) = true := by decide
    have c4 : Double.lt (Double.finite 80) (Double.finite 30) = false := by decide
    simp [defaultRules, List.filter_cons, createDataValidationRule, createTemperatureHighRule,
      createTemperatureLowRule, createHumidityHighRule, createHumidityLowRule, sampleHotHumid,
      c1, c2, c3, c4]
  rw [hf] at hp
  have hsorted : (triggeredRules sampleHotHumid (setupDefaultRules S e).rules_).Pairwise
      (fun a b => a.priority ≥ b.priority) :=
    List.Pairwise.sublist (List.filter_sublist _) (setupDefaultRules_sorted S e)
  exact sorted_perm_unique _ _ hp hsorted
    (by simp [createDataValidationRule, createTemperatureHighRule, createHumidityHighRule])

/-! ## Properties -/

/-- C1: dedup idempotence of shouldNotify. From a cache with no entry for the
key, a call at t0 returns true, a second call for the same key at t1 with
t0 ≤ t1 and t1 - t0 within 300 s returns false, and a third call at t2 with
t2 - t0 greater than 300 s returns true again. -/
theorem shouldNotify_dedup_idempotence (s : AlertProcessingService) (userId : Int)
    (deviceId alertKind : String) (v0 v1 v2 : Double) (t0 t1 t2 : TimePoint)
    (hfresh : mapFind s.alertCache_ (cacheKey userId deviceId alertKind) = none)
    (h01 : t0 ≤ t1) (hin : t1 - t0 ≤ seconds 300) (hout : t2 - t0 > seconds 300) :
    (shouldNotify userId deviceId alertKind v0 t0 s).1 = true ∧
    (shouldNotify userId deviceId alertKind v1 t1
      (shouldNotify userId deviceId alertKind v0 t0 s).2).1 = false ∧
    (shouldNotify userId deviceId alertKind v2 t2
      (shouldNotify userId deviceId alertKind v1 t1
        (shouldNotify userId deviceId alertKind v0 t0 s).2).2).1 = true := by
  have _ := h01
  have h0 := mapFind_evictLoop_none t0 hfresh
  have e1 : shouldNotify userId deviceId alertKind v0 t0 s
      = (true, { s with alertCache_ :=
          (evictLoop t0 s.alertCache_ ++ [(cacheKey userId deviceId alertKind, t0)]) }) := by
    simp [shouldNotify, h0, mapAssign_of_none]
  have hkeep : evictLoop t1 [(cacheKey userId deviceId alertKind, t0)]
      = [(cacheKey userId deviceId alertKind, t0)] := by
    have : ¬ (t1 - t0 > AlertProcessingService.cacheDuration_) := not_lt.mpr hin
    simp [evictLoop, this]
  have hdrop : evictLoop t2 [(cacheKey userId deviceId alertKind, t0)] = [] := by
    have : t2 - t0 > AlertProcessingService.cacheDuration_ := hout
    simp [evictLoop, this]
  have h1 := mapFind_evictLoop_none t1 h0
  have e2 : shouldNotify userId deviceId alertKind v1 t1
      (shouldNotify userId deviceId alertKind v0 t0 s).2
      = (false, { s with alertCache_ :=
          (evictLoop t1 (evictLoop t0 s.alertCache_)
            ++ [(cacheKey userId deviceId alertKind, t0)]) }) := by
    rw [e1]
    simp [shouldNotify, evictLoop_append, hkeep, mapFind_append_of_none _ h1, mapFind]
  have h2 := mapFind_evictLoop_none t2 h1
  refine ⟨by rw [e1], by rw [e2], ?_⟩
  rw [e2]
  simp [shouldNotify, evictLoop_append, hdrop, h2]

/-- Witness of C1: user 123 on device dev-A, first call at tick 0, second one
second later, third 301 seconds later, on the empty cache. -/
theorem shouldNotify_dedup_idempotence_witness :
    (shouldNotify 123 "dev-A" "temp_high" (Double.finite 42) 0 {}).1 = true ∧
    (shouldNotify 123 "dev-A" "temp_high" (Double.finite 43) (seconds 1)
      (shouldNotify 123 "dev-A" "temp_high" (Double.finite 42) 0 {}).2).1 = false ∧
    (shouldNotify 123 "dev-A" "temp_high" (Double.finite 44) (seconds 301)
      (shouldNotify 123 "dev-A" "temp_high" (Double.finite 43) (seconds 1)
        (shouldNotify 123 "dev-A" "temp_high" (Double.finite 42) 0 {}).2).2).1 = true :=
  shouldNotify_dedup_idempotence {} 123 "dev-A" "temp_high" _ _ _ 0 (seconds 1) (seconds 301)
    rfl (by decide) (by decide) (by decide)

/-- C2: key exactness and kind independence of shouldNotify. For user ids,
device ids (arbitrary strings) and the four alert kinds, two triples with the
same cache key are equal; the entry created by a call for (u, d, k) makes a
later call for (u2, d2, k2), whose key had no entry before, return false only
if the triples are equal; in particular after temp_high fired, a simultaneous
check of another kind for the same user and device returns true. -/
theorem shouldNotify_key_exactness (u u2 : Int) (d d2 k k2 : String)
    (hk : k ∈ alertKinds) (hk2 : k2 ∈ alertKinds) :
    (cacheKey u d k = cacheKey u2 d2 k2 → u2 = u ∧ d2 = d ∧ k2 = k) ∧
    (∀ (s : AlertProcessingService) (v v2 : Double) (t0 t1 : TimePoint),
      mapFind s.alertCache_ (cacheKey u2 d2 k2) = none →
      (shouldNotify u2 d2 k2 v2 t1 (shouldNotify u d k v t0 s).2).1 = false →
      u2 = u ∧ d2 = d ∧ k2 = k) ∧
    (∀ (s : AlertProcessingService) (v v2 : Double) (t : TimePoint),
      k = "temp_high" → k2 ≠ "temp_high" →
      mapFind s.alertCache_ (cacheKey u d k2) = none →
      (shouldNotify u d k2 v2 t (shouldNotify u d k v t s).2).1 = true) := by
  have hinj : ∀ (a : Int) (b : String), cacheKey u d k = cacheKey a b k2 →
      a = u ∧ b = d ∧ k2 = k := by
    intro a b h
    have := cacheKey_injective hk hk2 h
    exact ⟨this.1.symm, this.2.1.symm, this.2.2.symm⟩
  have hother : ∀ (a : Int) (b : String) (s : AlertProcessingService) (v v2 : Double)
      (t0 t1 : TimePoint), mapFind s.alertCache_ (cacheKey a b k2) = none →
      cacheKey u d k ≠ cacheKey a b k2 →
      (shouldNotify a b k2 v2 t1 (shouldNotify u d k v t0 s).2).1 = true := by
    intro a b s v v2 t0 t1 hnone hne
    have hstep : mapFind (shouldNotify u d k v t0 s).2.alertCache_ (cacheKey a b k2) = none := by
      have h0 := mapFind_evictLoop_none t0 hnone
      cases hf : mapFind (evictLoop t0 s.alertCache_) (cacheKey u d k) with
      | some t =>
        rw [shouldNotify_cache_of_some u d k v t0 s (by rw [hf]; rfl)]
        exact h0
      | none =>
        rw [shouldNotify_cache_of_none u d k v t0 s hf, mapFind_append_of_none _ h0]
        simp [mapFind, hne]
    have h1 := mapFind_evictLoop_none t1 hstep
    rw [shouldNotify_fst, h1]
    rfl
  refine ⟨hinj u2 d2, ?_, ?_⟩
  · intro s v v2 t0 t1 hnone hfalse
    by_contra hcon
    have hne : cacheKey u d k ≠ cacheKey u2 d2 k2 := fun he => hcon (hinj u2 d2 he)
    have := hother u2 d2 s v v2 t0 t1 hnone hne
    rw [hfalse] at this
    exact Bool.false_ne_true this
  · intro s v v2 t _ hk2ne hnone
    have hne : cacheKey u d k ≠ cacheKey u d k2 := by
      intro he
      have := (hinj u d he).2.2
      subst this
      rename_i hkth
      exact hk2ne hkth
    exact hother u d s v v2 t t hnone hne

/-- Witness of C2: the device id dev_temp contains the separator; after
temp_high fired for user 7, the hum_low check at the same instant passes. -/
theorem shouldNotify_key_exactness_witness :
    (cacheKey 7 "dev_temp" "temp_high" = cacheKey 7 "dev_temp" "hum_low" →
      (7 : Int) = 7 ∧ "dev_temp" = "dev_temp" ∧ "hum_low" = "temp_high") ∧
    (shouldNotify 7 "dev_temp" "hum_low" (Double.finite 10) 5
      (shouldNotify 7 "dev_temp" "temp_high" (Double.finite 42) 5 {}).2).1 = true :=
  ⟨(shouldNotify_key_exactness 7 7 "dev_temp" "dev_temp" "temp_high" "hum_low"
      (by decide) (by decide)).1,
    (shouldNotify_key_exactness 7 7 "dev_temp" "dev_temp" "temp_high" "hum_low"
      (by decide) (by decide)).2.2 {} (Double.finite 42) (Double.finite 10) 5 rfl (by decide) rfl⟩

/-- C3: shouldNotify equals its three-step reference definition; a suppressed
call leaves the cache exactly as eviction left it (the stored time of the key
is not refreshed) and leaves the statistics alone; after every call no entry
older than the window remains in the cache. -/
theorem shouldNotify_refines_spec (userId : Int) (deviceId alertKind : String) (value : Double)
    (now : TimePoint) (s : AlertProcessingService) :
    shouldNotify userId deviceId alertKind value now s
      = shouldNotifySpec userId deviceId alertKind now s ∧
    ((shouldNotify userId deviceId alertKind value now s).1 = false →
      (shouldNotify userId deviceId alertKind value now s).2.alertCache_
        = s.alertCache_.filter (fun e => decide (now - e.2 ≤ seconds 300))) ∧
    (shouldNotify userId deviceId alertKind value now s).2.statistics_ = s.statistics_ ∧
    (∀ e ∈ (shouldNotify userId deviceId alertKind value now s).2.alertCache_,
      now - e.2 ≤ seconds 300) := by
  have hfilter : evictLoop now s.alertCache_
      = s.alertCache_.filter (fun e => decide (now - e.2 ≤ seconds 300)) := by
    rw [evictLoop_eq_filter]
    congr 1
    funext e
    by_cases h : now - e.2 ≤ seconds 300
    · have h2 : ¬ (now - e.2 > AlertProcessingService.cacheDuration_) := not_lt.mpr h
      rw [decide_eq_true h, decide_eq_false h2]
      rfl
    · have h2 : now - e.2 > AlertProcessingService.cacheDuration_ := not_le.mp h
      rw [decide_eq_false h, decide_eq_true h2]
      rfl
  have hspec : shouldNotify userId deviceId alertKind value now s
      = shouldNotifySpec userId deviceId alertKind now s := by
    unfold shouldNotify shouldNotifySpec
    simp only [mapFind_isSome_iff_any, hfilter]
    by_cases hany : (s.alertCache_.filter (fun e => decide (now - e.2 ≤ seconds 300))).any
        (fun e => e.1 == cacheKey userId deviceId alertKind) = true
    · rw [if_pos hany, if_pos hany]
    · rw [if_neg hany, if_neg hany]
      have hn : mapFind (s.alertCache_.filter (fun e => decide (now - e.2 ≤ seconds 300)))
          (cacheKey userId deviceId alertKind) = none := by
        have := mapFind_isSome_iff_any
          (s.alertCache_.filter (fun e => decide (now - e.2 ≤ seconds 300)))
          (cacheKey userId deviceId alertKind)
        cases hm : mapFind (s.alertCache_.filter (fun e => decide (now - e.2 ≤ seconds 300)))
          (cacheKey userId deviceId alertKind) with
        | none => rfl
        | some t => rw [hm] at this; exact absurd this.symm hany
      rw [mapAssign_of_none _ hn]
  have hlive : ∀ e ∈ evictLoop now s.alertCache_, now - e.2 ≤ seconds 300 := by
    intro e he
    exact (mem_evictLoop.mp he).2
  refine ⟨hspec, ?_, ?_, ?_⟩
  · intro hfalse
    rw [shouldNotify_fst] at hfalse
    have hsome : (mapFind (evictLoop now s.alertCache_)
        (cacheKey userId deviceId alertKind)).isSome = true := by
      simpa using hfalse
    rw [shouldNotify_cache_of_some _ _ _ _ _ _ hsome, hfilter]
  · unfold shouldNotify
    by_cases hf : (mapFind (evictLoop now s.alertCache_)
        (cacheKey userId deviceId alertKind)).isSome = true
    · rw [if_pos hf]
    · rw [if_neg hf]
  · cases hf : mapFind (evictLoop now s.alertCache_) (cacheKey userId deviceId alertKind) with
    | some t =>
      rw [shouldNotify_cache_of_some _ _ _ _ _ _ (by rw [hf]; rfl)]
      exact hlive
    | none =>
      rw [shouldNotify_cache_of_none _ _ _ _ _ _ hf]
      intro e he
      rw [List.mem_append, List.mem_singleton] at he
      rcases he with he | he
      · exact hlive e he
      · subst he
        simp [seconds, ticksPerSecond]

/-- Witness of C3: at 350 s the entry fired at 0 s is evicted and the hum_low
entry fired at 100 s is live; the call for hum_low is suppressed, and the cache
it leaves is the evicted one, where hum_low still carries 100 s. -/
theorem shouldNotify_refines_spec_witness :
    (shouldNotify 1 "d" "hum_low" (Double.finite 5) (seconds 350)
      staleAndLiveService).2.alertCache_
      = staleAndLiveService.alertCache_.filter
          (fun e => decide (seconds 350 - e.2 ≤ seconds 300)) ∧
    staleAndLiveService.alertCache_.filter (fun e => decide (seconds 350 - e.2 ≤ seconds 300))
      = [(cacheKey 1 "d" "hum_low", seconds 100)] :=
  ⟨(shouldNotify_refines_spec 1 "d" "hum_low" (Double.finite 5) (seconds 350)
      staleAndLiveService).2.1 (by decide), by decide⟩

/-- C7: a sample is valid iff its device id is non-empty and its temperature
and humidity are numbers with -50 ≤ temperature ≤ 100 and 0 ≤ humidity ≤ 100, the
four bounds included; on a sample that is not valid processData calls no
condition and no action and returns the engine, with all its counters, and the
outside state unchanged, raising nothing. -/
theorem processData_rejects_invalid {W : Type} (data : IoTData) (e : RuleEngine W) (w : W) :
    (data.isValid = true ↔
      data.deviceId ≠ "" ∧
      ∃ t h : ℚ, data.temperature = Double.finite t ∧ data.humidity = Double.finite h ∧
        -50 ≤ t ∧ t ≤ 100 ∧ 0 ≤ h ∧ h ≤ 100) ∧
    (data.isValid = false →
      processData data e w = { engine := e, world := w, trace := [], escaped := none }) := by
  constructor
  · have hne : (!data.deviceId.isEmpty) = true ↔ data.deviceId ≠ "" := by
      rw [Bool.not_eq_true', ← Bool.not_eq_true, String.isEmpty_iff]
    unfold IoTData.isValid
    simp only [Bool.and_eq_true, hne]
    constructor
    · rintro ⟨⟨⟨⟨h1, h2⟩, h3⟩, h4⟩, h5⟩
      refine ⟨h1, ?_⟩
      cases ht : data.temperature with
      | finite t =>
        cases hh : data.humidity with
        | finite h =>
          rw [ht] at h2 h3
          rw [hh] at h4 h5
          simp only [Double.ge, Double.le, Double.ofInt, decide_eq_true_eq] at h2 h3 h4 h5
          exact ⟨t, h, rfl, rfl, by simpa using h2, by simpa using h3, by simpa using h4,
            by simpa using h5⟩
        | posInf => rw [hh] at h5; exact absurd h5 (by simp [Double.le, Double.ofInt])
        | negInf => rw [hh] at h4; exact absurd h4 (by simp [Double.ge, Double.le, Double.ofInt])
        | nan => rw [hh] at h4; exact absurd h4 (by simp [Double.ge, Double.le, Double.ofInt])
      | posInf => rw [ht] at h3; exact absurd h3 (by simp [Double.le, Double.ofInt])
      | negInf => rw [ht] at h2; exact absurd h2 (by simp [Double.ge, Double.le, Double.ofInt])
      | nan => rw [ht] at h2; exact absurd h2 (by simp [Double.ge, Double.le, Double.ofInt])
    · rintro ⟨h1, t, h, ht, hh, b1, b2, b3, b4⟩
      rw [ht, hh]
      simp only [Double.ge, Double.le, Double.ofInt, decide_eq_true_eq]
      exact ⟨⟨⟨⟨h1, by simpa using b1⟩, by simpa using b2⟩, by simpa using b3⟩,
        by simpa using b4⟩
  · intro h
    unfold processData
    simp [h]

/-- Witness of C7: with 101 degrees the sample is not valid, and the engine
holding the default rules returns unchanged, with an empty record of calls. -/
theorem processData_rejects_invalid_witness :
    processData { deviceId := "d1", temperature := Double.finite 101 }
        (setupDefaultRules insertionStdSort idleEngine) ()
      = { engine := setupDefaultRules insertionStdSort idleEngine, world := (), trace := [],
          escaped := none } :=
  (processData_rejects_invalid { deviceId := "d1", temperature := Double.finite 101 }
    (setupDefaultRules insertionStdSort idleEngine) ()).2 (by decide)

/-- C9: enableRule and disableRule change only the enabled flag of the rule
with the name (the first one in the list), to true and to false, and leave its
other fields, every other rule, the order and the rest of the engine as they
were; removeRule keeps exactly the rules with another name, in their order; each
of the three returns the engine unchanged when no rule has the name. All three
are total: nothing is raised. -/
theorem rule_toggle_and_remove_frame {W : Type} (ruleName : String) (e : RuleEngine W) :
    ((∀ x ∈ e.rules_, x.name ≠ ruleName) →
      enableRule ruleName e = e ∧ disableRule ruleName e = e ∧ removeRule ruleName e = e) ∧
    (∀ (pre post : List (Rule W)) (r : Rule W),
      e.rules_ = pre ++ r :: post → r.name = ruleName → (∀ x ∈ pre, x.name ≠ ruleName) →
      enableRule ruleName e = { e with rules_ := pre ++ { r with enabled := true } :: post } ∧
      disableRule ruleName e
        = { e with rules_ := pre ++ { r with enabled := false } :: post }) ∧
    (removeRule ruleName e
      = { e with rules_ := e.rules_.filter (fun r => decide (r.name ≠ ruleName)) }) ∧
    (∀ (pre post : List (Rule W)) (r : Rule W),
      e.rules_ = pre ++ r :: post → r.name = ruleName →
      (∀ x ∈ pre, x.name ≠ ruleName) → (∀ x ∈ post, x.name ≠ ruleName) →
      (removeRule ruleName e).rules_ = pre ++ post) := by
  have hfilter : e.rules_.filter (fun r => !(r.name == ruleName))
      = e.rules_.filter (fun r => decide (r.name ≠ ruleName)) := by
    congr 1
    funext r
    by_cases h : r.name = ruleName <;> simp [h]
  have hremove : removeRule ruleName e
      = { e with rules_ := e.rules_.filter (fun r => decide (r.name ≠ ruleName)) } := by
    have h1 := removeRule_rules ruleName e
    rw [hfilter] at h1
    rw [← h1]
    unfold removeRule
    by_cases h : (e.rules_.filter (fun r => !(r.name == ruleName))).length ≠ e.rules_.length
    · rw [if_pos h]
    · rw [if_neg h]
  refine ⟨?_, ?_, hremove, ?_⟩
  · intro habsent
    refine ⟨?_, ?_, ?_⟩
    · unfold enableRule
      rw [setEnabledLoop_absent ruleName true e.rules_ habsent]
    · unfold disableRule
      rw [setEnabledLoop_absent ruleName false e.rules_ habsent]
    · rw [hremove]
      have : e.rules_.filter (fun r => decide (r.name ≠ ruleName)) = e.rules_ := by
        rw [List.filter_eq_self]
        intro x hx
        simpa using habsent x hx
      rw [this]
  · intro pre post r hl hr hpre
    unfold enableRule disableRule
    rw [hl, setEnabledLoop_present ruleName true r post hr pre hpre,
      setEnabledLoop_present ruleName false r post hr pre hpre]
    exact ⟨rfl, rfl⟩
  · intro pre post r hl hr hpre hpost
    rw [hremove]
    show e.rules_.filter (fun r => decide (r.name ≠ ruleName)) = pre ++ post
    rw [hl, List.filter_append, List.filter_cons]
    have h1 : pre.filter (fun r => decide (r.name ≠ ruleName)) = pre := by
      rw [List.filter_eq_self]
      intro x hx
      simpa using hpre x hx
    have h2 : post.filter (fun r => decide (r.name ≠ ruleName)) = post := by
      rw [List.filter_eq_self]
      intro x hx
      simpa using hpost x hx
    rw [h1, h2]
    simp [hr]

/-- Witness of C9 on the default rules: disabling temperature_low_alert, the
third rule, changes that rule alone, and removing it leaves the other four. -/
theorem rule_toggle_and_remove_frame_witness :
    disableRule "temperature_low_alert" (setupDefaultRules insertionStdSort idleEngine)
      = { setupDefaultRules insertionStdSort idleEngine with
          rules_ := [createDataValidationRule,
              createTemperatureHighRule idleEngine (Double.finite 28)]
            ++ { createTemperatureLowRule idleEngine (Double.finite 15) with enabled := false }
              :: [createHumidityHighRule idleEngine (Double.finite 70),
                createHumidityLowRule idleEngine (Double.finite 30)] } ∧
    (removeRule "temperature_low_alert" (setupDefaultRules insertionStdSort idleEngine)).rules_
      = [createDataValidationRule, createTemperatureHighRule idleEngine (Double.finite 28)]
        ++ [createHumidityHighRule idleEngine (Double.finite 70),
          createHumidityLowRule idleEngine (Double.finite 30)] :=
  ⟨((rule_toggle_and_remove_frame "temperature_low_alert"
      (setupDefaultRules insertionStdSort idleEngine)).2.1
      [createDataValidationRule, createTemperatureHighRule idleEngine (Double.finite 28)]
      [createHumidityHighRule idleEngine (Double.finite 70),
        createHumidityLowRule idleEngine (Double.finite 30)]
      (createTemperatureLowRule idleEngine (Double.finite 15)) rfl rfl (by decide)).2,
    (rule_toggle_and_remove_frame "temperature_low_alert"
      (setupDefaultRules insertionStdSort idleEngine)).2.2.2
      [createDataValidationRule, createTemperatureHighRule idleEngine (Double.finite 28)]
      [createHumidityHighRule idleEngine (Double.finite 70),
        createHumidityLowRule idleEngine (Double.finite 30)]
      (createTemperatureLowRule idleEngine (Double.finite 15)) rfl rfl (by decide)
      (by decide)⟩

/-- C4: rule replace-by-name. In every rule set reached from the empty set by
addRule, removeRule, enableRule and disableRule calls the rule names are
pairwise distinct; and addRule of r on such a set that already holds a rule
named r.name keeps the number of rules and leaves exactly one rule with that
name, which is r itself, with its condition, action, priority, description and
enabled flag. -/
theorem addRule_replace_by_name {W : Type} (S : StdSort) (e0 : RuleEngine W)
    (ops : List (RuleOp W)) (r : Rule W) :
    ((applyOps S ops { e0 with rules_ := [] }).rules_.map (fun x => x.name)).Nodup ∧
    ((∃ x ∈ (applyOps S ops { e0 with rules_ := [] }).rules_, x.name = r.name) →
      (addRule S r (applyOps S ops { e0 with rules_ := [] })).rules_.length
        = (applyOps S ops { e0 with rules_ := [] }).rules_.length ∧
      (addRule S r (applyOps S ops { e0 with rules_ := [] })).rules_.filter
        (fun x => x.name == r.name) = [r]) := by
  have hnd := names_nodup_reachable S ops { e0 with rules_ := [] } List.nodup_nil
  refine ⟨hnd, ?_⟩
  intro hex
  rw [addRule_rules]
  constructor
  · rw [(sortRulesByPriority_perm S _).length_eq]
    exact replaceOrAppend_length_present r _ hex
  · have hp := (sortRulesByPriority_perm S
      (replaceOrAppend r (applyOps S ops { e0 with rules_ := [] }).rules_)).filter
      (fun x => x.name == r.name)
    rw [replaceOrAppend_filter_name r _ hnd] at hp
    exact List.perm_singleton.mp hp

/-- Witness of C4: after adding the validation rule and the high-temperature
rule, adding a disabled rule of priority 1 named data_validation leaves two
rules, one of them with that name: the new one. -/
theorem addRule_replace_by_name_witness :
    (addRule insertionStdSort { createDataValidationRule with priority := 1, enabled := false }
      (applyOps insertionStdSort
        [RuleOp.addRule createDataValidationRule,
          RuleOp.addRule (createTemperatureHighRule idleEngine (Double.finite 28))]
        { idleEngine with rules_ := [] })).rules_.length
      = (applyOps insertionStdSort
        [RuleOp.addRule createDataValidationRule,
          RuleOp.addRule (createTemperatureHighRule idleEngine (Double.finite 28))]
        { idleEngine with rules_ := [] }).rules_.length ∧
    (addRule insertionStdSort { createDataValidationRule with priority := 1, enabled := false }
      (applyOps insertionStdSort
        [RuleOp.addRule createDataValidationRule,
          RuleOp.addRule (createTemperatureHighRule idleEngine (Double.finite 28))]
        { idleEngine with rules_ := [] })).rules_.filter
        (fun x => x.name == "data_validation")
      = [{ createDataValidationRule with priority := 1, enabled := false }] :=
  (addRule_replace_by_name insertionStdSort idleEngine
    [RuleOp.addRule createDataValidationRule,
      RuleOp.addRule (createTemperatureHighRule idleEngine (Double.finite 28))]
    { createDataValidationRule with priority := 1, enabled := false }).2
    ⟨createDataValidationRule, List.mem_cons_self _ _, rfl⟩

/-- C5: priority ordering. After any sequence of addRule, removeRule,
enableRule and disableRule calls from the empty rule set the rule list is in
non-increasing priority order, getRuleNames returns the names of the rules in
list order, and what addRule stores is a rearrangement of the rules held (the
new rule in place of its namesake, or added); adding rules of distinct names
with priorities 5, 100, 10 in that order gives back the names in the order of
the priorities 100, 10, 5. -/
theorem rules_sorted_by_priority {W : Type} (S : StdSort) (e0 : RuleEngine W)
    (ops : List (RuleOp W)) :
    (applyOps S ops { e0 with rules_ := [] }).rules_.Pairwise
      (fun a b => a.priority ≥ b.priority) ∧
    getRuleNames (applyOps S ops { e0 with rules_ := [] })
      = (applyOps S ops { e0 with rules_ := [] }).rules_.map (fun r => r.name) ∧
    (∀ r : Rule W, (addRule S r (applyOps S ops { e0 with rules_ := [] })).rules_.Perm
      (replaceOrAppend r (applyOps S ops { e0 with rules_ := [] }).rules_)) ∧
    (∀ a b c : Rule W, a.priority = 5 → b.priority = 100 → c.priority = 10 →
      a.name ≠ b.name → a.name ≠ c.name → b.name ≠ c.name →
      getRuleNames (addRule S c (addRule S b (addRule S a { e0 with rules_ := [] })))
        = [b.name, c.name, a.name]) := by
  refine ⟨sorted_reachable S ops _ List.Pairwise.nil, getRuleNames_eq_map _, ?_, ?_⟩
  · intro r
    rw [addRule_rules]
    exact sortRulesByPriority_perm S _
  · intro a b c ha hb hc hab hac hbc
    have h1 : (addRule S a { e0 with rules_ := [] }).rules_ = [a] := by
      rw [addRule_rules]
      exact List.perm_singleton.mp (sortRulesByPriority_perm S _)
    have h2 : (addRule S b (addRule S a { e0 with rules_ := [] })).rules_ = [b, a] := by
      rw [addRule_rules, h1]
      have hrep : replaceOrAppend b [a] = [a, b] := by simp [replaceOrAppend, hab]
      rw [hrep]
      refine sorted_perm_unique [b, a] _
        ((sortRulesByPriority_perm S _).trans (List.Perm.swap _ _ _))
        (sortRulesByPriority_sorted S _) ?_
      simp [ha, hb]
    have h3 : (addRule S c (addRule S b (addRule S a { e0 with rules_ := [] }))).rules_
        = [b, c, a] := by
      rw [addRule_rules, h2]
      have hrep : replaceOrAppend c [b, a] = [b, a, c] := by simp [replaceOrAppend, hbc, hac]
      rw [hrep]
      refine sorted_perm_unique [b, c, a] _
        ((sortRulesByPriority_perm S _).trans ((List.Perm.swap _ _ _).cons _))
        (sortRulesByPriority_sorted S _) ?_
      simp [ha, hb, hc]
    rw [getRuleNames_eq_map, h3]
    rfl

/-- Witness of C5: the humidity-low rule (priority 5), the validation rule
(priority 100) and the high-temperature rule (priority 10), added in that order,
come back as validation, high temperature, humidity low. -/
theorem rules_sorted_by_priority_witness :
    getRuleNames (addRule reversingStdSort
      (createTemperatureHighRule idleEngine (Double.finite 28))
      (addRule reversingStdSort createDataValidationRule
        (addRule reversingStdSort (createHumidityLowRule idleEngine (Double.finite 30))
          { idleEngine with rules_ := [] })))
      = ["data_validation", "temperature_high_alert", "humidity_low_alert"] :=
  (rules_sorted_by_priority reversingStdSort idleEngine []).2.2.2
    (createHumidityLowRule idleEngine (Double.finite 30)) createDataValidationRule
    (createTemperatureHighRule idleEngine (Double.finite 28)) rfl rfl rfl
    (by decide) (by decide) (by decide)

/-- C10: the rule set after setupDefaultRules. With a std::sort that leaves a
range of at most five rules already in priority order as it is, as the
insertion sort that the library applies to short ranges does, after
setupDefaultRules, whatever rules were present before, the rule list is the
five default rules in the order they are added: exactly five rules, all
enabled, and getRuleNames returns data_validation, temperature_high_alert,
temperature_low_alert, humidity_high_alert, humidity_low_alert, with the
priorities 100, 10, 10, 5, 5. -/
theorem setupDefaultRules_rule_set {W : Type} (S : StdSort) (e : RuleEngine W)
    (hshort : ∀ l : List (Rule W), l.length ≤ 5 →
      l.Pairwise (fun a b => a.priority ≥ b.priority) → sortRulesByPriority S l = l) :
    (setupDefaultRules S e).rules_ = defaultRules e ∧
    (setupDefaultRules S e).rules_.length = 5 ∧
    (∀ r ∈ (setupDefaultRules S e).rules_, r.enabled = true) ∧
    getRuleNames (setupDefaultRules S e)
      = ["data_validation", "temperature_high_alert", "temperature_low_alert",
          "humidity_high_alert", "humidity_low_alert"] ∧
    (setupDefaultRules S e).rules_.map (fun r => r.priority) = [100, 10, 10, 5, 5] := by
  have h := setupDefaultRules_in_order S e hshort
  refine ⟨h, by rw [h]; rfl, ?_, by rw [getRuleNames_eq_map, h]; rfl, by rw [h]; rfl⟩
  intro r hr
  rw [h] at hr
  simp only [defaultRules, List.mem_cons, List.mem_singleton, List.not_mem_nil,
    or_false] at hr
  rcases hr with h0 | h0 | h0 | h0 | h0 <;> rw [h0] <;> rfl

/-- Witness of C10: an engine that holds four other rules, one of them
disabled, under the insertion sort; after setupDefaultRules the names are the
five default names in the order of the claim. -/
theorem setupDefaultRules_rule_set_witness :
    getRuleNames (mixedEngine Thrown.other) = ["first", "faulty", "off", "later"] ∧
    getRuleNames (setupDefaultRules insertionStdSort (mixedEngine Thrown.other))
      = ["data_validation", "temperature_high_alert", "temperature_low_alert",
          "humidity_high_alert", "humidity_low_alert"] ∧
    (setupDefaultRules insertionStdSort (mixedEngine Thrown.other)).rules_.map
      (fun r => r.priority) = [100, 10, 10, 5, 5] :=
  have h := setupDefaultRules_rule_set insertionStdSort (mixedEngine Thrown.other)
    (fun l _ hl => insertionStdSort_in_order l hl)
  ⟨rfl, h.2.2.2.1, h.2.2.2.2⟩

/-- Counterexample to C6 as stated: the first rule of the engine is enabled,
its condition holds and its action throws an object that is not derived from
std::exception; the catch clause of executeRule does not match, processData
raises, and the action of the later rule, enabled and with a true condition, is
not executed and its counter is not incremented. And when the action of the
first rule raises an exception derived from std::exception, which is caught,
and the condition of the second rule is an empty function, the call of that
condition throws outside every try: processData raises, and the action of the
third rule, enabled and with a true condition, is not executed. -/
theorem processData_fault_isolation_counterexample :
    ((raisingRule (Thrown.stdException "boom")).action sampleD1 0).2
      = some (Thrown.stdException "boom") ∧
    (processData sampleD1 (emptyConditionEngine (Thrown.stdException "boom")) 0).escaped
      = some (Thrown.stdException "bad_function_call") ∧
    (processData sampleD1 (emptyConditionEngine (Thrown.stdException "boom")) 0).trace
      = [Event.conditionEvaluated "faulty", Event.actionExecuted "faulty",
          Event.conditionEvaluated "empty"] ∧
    countOf (processData sampleD1 (emptyConditionEngine (Thrown.stdException "boom"))
      0).engine.statistics_.ruleTriggerCount "later" = 0 ∧
    sampleD1.isValid = true ∧
    (faultyEngine Thrown.other).rules_ = [raisingRule Thrown.other, countingRule "later" 5] ∧
    ((raisingRule Thrown.other).action sampleD1 0).2 = some Thrown.other ∧
    (countingRule "later" 5).enabled = true ∧
    (countingRule "later" 5).condition sampleD1 = true ∧
    (processData sampleD1 (faultyEngine Thrown.other) 0).escaped = some Thrown.other ∧
    Event.actionExecuted "later" ∉ (processData sampleD1 (faultyEngine Thrown.other) 0).trace ∧
    (processData sampleD1 (faultyEngine Thrown.other) 0).world = 0 ∧
    countOf (processData sampleD1 (faultyEngine Thrown.other)
      0).engine.statistics_.ruleTriggerCount "later" = 0 ∧
    (processData sampleD1 (faultyEngine Thrown.other) 0).engine.statistics_.rulesTriggered
      = 0 := by
  refine ⟨rfl, by decide, by decide, by decide,
    by decide, rfl, rfl, rfl, rfl, by decide, by decide, by decide, by decide, by decide⟩

/-- C6, amended: fault isolation for exceptions derived from std::exception
that an action raises. For a valid sample and a triggered rule r (enabled, its
condition returns true) up to which no condition of an enabled rule throws and
before which no action throws an object of another type: if the action of r
raises an exception derived from std::exception, and after r no condition of an
enabled rule throws and no triggered action throws an object of another type,
then processData does not raise, totalProcessed grows by exactly one, the loop
goes on after r over the later rules exactly as without the exception, so that
every later enabled rule whose condition holds has its action executed and its
counter incremented, and rulesTriggered counts every triggered rule, r included;
if the action of r throws an object that is not derived from std::exception,
processData raises it, having made no call after the action of r and counted
the triggered rules before r only. -/
theorem processData_fault_isolation {W : Type} (data : IoTData) (e : RuleEngine W) (w : W)
    (pre post : List (Rule W)) (r : Rule W)
    (hvalid : data.isValid = true)
    (hrules : e.rules_ = pre ++ r :: post)
    (hen : r.enabled = true) (hcond : r.condition data = true)
    (hconds : ∀ q ∈ pre ++ [r], q.enabled = true → q.conditionThrows data = none)
    (hpre : ∀ q ∈ triggeredRules data pre, ∀ w1, (q.action data w1).2 ≠ some Thrown.other) :
    ((∀ w1, ∃ what, (r.action data w1).2 = some (Thrown.stdException what)) →
      (∀ q ∈ post, q.enabled = true → q.conditionThrows data = none) →
      (∀ q ∈ triggeredRules data post, ∀ w1, (q.action data w1).2 ≠ some Thrown.other) →
      (processData data e w).escaped = none ∧
      (processData data e w).engine.statistics_.totalProcessed
        = e.statistics_.totalProcessed + 1 ∧
      (processData data e w).trace
        = expectedTrace data pre ++ Event.conditionEvaluated r.name ::
            Event.actionExecuted r.name :: expectedTrace data post ∧
      (∀ q ∈ post, q.enabled = true → q.condition data = true →
        Event.actionExecuted q.name ∈ (processData data e w).trace ∧
        countOf e.statistics_.ruleTriggerCount q.name
          < countOf (processData data e w).engine.statistics_.ruleTriggerCount q.name) ∧
      (processData data e w).engine.statistics_.rulesTriggered
        = e.statistics_.rulesTriggered + (triggeredRules data pre).length + 1
          + (triggeredRules data post).length) ∧
    ((∀ w1, (r.action data w1).2 = some Thrown.other) →
      (processData data e w).escaped = some Thrown.other ∧
      (processData data e w).trace
        = expectedTrace data pre
            ++ [Event.conditionEvaluated r.name, Event.actionExecuted r.name] ∧
      (processData data e w).engine.statistics_.totalProcessed
        = e.statistics_.totalProcessed + 1 ∧
      (processData data e w).engine.statistics_.rulesTriggered
        = e.statistics_.rulesTriggered + (triggeredRules data pre).length) := by
  constructor
  · intro hraise hpostc hpost
    have hall : ∀ q ∈ e.rules_, q.enabled = true → q.conditionThrows data = none := by
      intro q hq
      rw [hrules, List.mem_append, List.mem_cons] at hq
      rcases hq with hm | hm | hm
      · exact hconds q (List.mem_append_left _ hm)
      · exact hconds q (List.mem_append_right _ (by rw [hm]; exact List.mem_singleton_self _))
      · exact hpostc q hm
    have hcaught : ∀ q ∈ triggeredRules data e.rules_, ∀ w1,
        (q.action data w1).2 ≠ some Thrown.other := by
      intro q hq w1
      have hq2 := mem_triggeredRules.mp hq
      rw [hrules, List.mem_append, List.mem_cons] at hq2
      rcases hq2.1 with hm | hm | hm
      · exact hpre q (mem_triggeredRules.mpr ⟨hm, hq2.2⟩) w1
      · obtain ⟨what, hw⟩ := hraise w1
        rw [hm, hw]
        exact fun h => Thrown.noConfusion (Option.some.inj h)
      · exact hpost q (mem_triggeredRules.mpr ⟨hm, hq2.2⟩) w1
    obtain ⟨h1, _, h3, h4, h5, _, h7⟩ := processData_caught data e w hvalid hall hcaught
    have htrace : (processData data e w).trace
        = expectedTrace data pre ++ Event.conditionEvaluated r.name ::
            Event.actionExecuted r.name :: expectedTrace data post := by
      rw [h7, hrules, expectedTrace_append, expectedTrace]
      simp [hen, hcond]
    refine ⟨h1, h3, htrace, ?_, ?_⟩
    · intro q hq hqen hqc
      have hqt : q ∈ triggeredRules data e.rules_ := by
        rw [mem_triggeredRules, hrules]
        exact ⟨List.mem_append_right _ (List.mem_cons_of_mem _ hq), hqen, hqc⟩
      constructor
      · rw [h7, mem_expectedTrace_action]
        exact ⟨q, hqt, rfl⟩
      · rw [h5, countOf_bumpCounts]
        have hmem : q ∈ (triggeredRules data e.rules_).filter
            (fun x => decide (x.name = q.name)) :=
          List.mem_filter.mpr ⟨hqt, by simp⟩
        have hpos := List.length_pos_of_mem hmem
        omega
    · rw [h4, hrules]
      unfold triggeredRules
      rw [List.filter_append, List.filter_cons, if_pos (by simp [hen, hcond]),
        List.length_append, List.length_cons]
      push_cast
      ring
  · intro hthrow
    obtain ⟨h1, h2, h3, h4, _⟩ :=
      processData_escape data e w pre post r hvalid hrules hen hcond hconds hpre hthrow
    exact ⟨h1, h2, h3, h4⟩

/-- Witness of C6, amended: the first rule throws a std::exception, the later
rule still runs and two rules are counted as triggered. -/
theorem processData_fault_isolation_witness :
    (processData sampleD1 (faultyEngine (Thrown.stdException "boom")) 0).escaped = none ∧
    (processData sampleD1 (faultyEngine (Thrown.stdException "boom"))
      0).engine.statistics_.totalProcessed = 0 + 1 ∧
    (processData sampleD1 (faultyEngine (Thrown.stdException "boom")) 0).trace
      = [] ++ Event.conditionEvaluated "faulty" :: Event.actionExecuted "faulty" ::
          expectedTrace sampleD1 [countingRule "later" 5] ∧
    (processData sampleD1 (faultyEngine (Thrown.stdException "boom"))
      0).engine.statistics_.rulesTriggered = 0 + 0 + 1 + 1 :=
  have h := (processData_fault_isolation sampleD1 (faultyEngine (Thrown.stdException "boom")) 0
    [] [countingRule "later" 5] (raisingRule (Thrown.stdException "boom"))
    (by decide) rfl rfl rfl
    (by
      intro q hq _
      have hmem : q ∈ [raisingRule (Thrown.stdException "boom")] := hq
      rw [List.mem_singleton] at hmem
      rw [hmem]
      rfl)
    (fun q hq => absurd hq (List.not_mem_nil q))).1
    (fun _ => ⟨"boom", rfl⟩)
    (by
      intro q hq _
      rw [List.mem_singleton] at hq
      rw [hq]
      rfl)
    (by
      intro q hq w1
      have hmem : q ∈ [countingRule "later" 5] := (mem_triggeredRules.mp hq).1
      rw [List.mem_singleton] at hmem
      rw [hmem]
      simp [countingRule])
  ⟨h.1, h.2.1, h.2.2.1, h.2.2.2.2⟩

/-- Counterexample to C8 as stated: three rules of the engine are enabled with
a true condition, the second throws an object that is not derived from
std::exception; only the actions of the first two are executed, the counter the
actions increment ends at 1, and rulesTriggered grows by 1, not by 3. And in
an engine whose second rule has an empty condition, the call of that condition
throws: processData raises, and the third rule, enabled and with a true
condition, has neither its condition evaluated nor its action executed. -/
theorem processData_triggers_exactly_counterexample :
    (countingRule "later" 5).enabled = true ∧
    (countingRule "later" 5).condition sampleD1 = true ∧
    (processData sampleD1 (emptyConditionEngine (Thrown.stdException "boom")) 0).escaped
      = some (Thrown.stdException "bad_function_call") ∧
    (processData sampleD1 (emptyConditionEngine (Thrown.stdException "boom")) 0).trace
      = [Event.conditionEvaluated "faulty", Event.actionExecuted "faulty",
          Event.conditionEvaluated "empty"] ∧
    (processData sampleD1 (emptyConditionEngine (Thrown.stdException "boom"))
      0).engine.statistics_.rulesTriggered = 1 ∧
    sampleD1.isValid = true ∧
    (triggeredRules sampleD1 (mixedEngine Thrown.other).rules_).map (fun r => r.name)
      = ["first", "faulty", "later"] ∧
    (processData sampleD1 (mixedEngine Thrown.other) 0).trace.filter Event.isAction
      = [Event.actionExecuted "first", Event.actionExecuted "faulty"] ∧
    (processData sampleD1 (mixedEngine Thrown.other) 0).world = 1 ∧
    (processData sampleD1 (mixedEngine Thrown.other) 0).engine.statistics_.rulesTriggered
      = 1 ∧
    countOf (processData sampleD1 (mixedEngine Thrown.other)
      0).engine.statistics_.ruleTriggerCount "later" = 0 := by
  refine ⟨rfl, rfl, by decide, by decide, by decide,
    by decide, by decide, by decide, by decide, by decide, by decide⟩

/-- C8, amended: for every valid sample and every rule list with pairwise
distinct names, provided no condition of an enabled rule throws and no action
of a triggered rule throws an object that is not derived from std::exception,
processData does not raise, increments
totalProcessed by exactly 1, executes the actions of exactly the rules that are
enabled and whose condition holds, in list order, increases rulesTriggered by
the number of such rules and the per-name counter of each such rule by exactly
1; the condition of a disabled rule is not evaluated, its action is not executed
and its counter does not change. -/
theorem processData_triggers_exactly {W : Type} (data : IoTData) (e : RuleEngine W) (w : W)
    (hvalid : data.isValid = true)
    (hnames : (e.rules_.map (fun r => r.name)).Nodup)
    (hconds : ∀ r ∈ e.rules_, r.enabled = true → r.conditionThrows data = none)
    (hcaught : ∀ r ∈ triggeredRules data e.rules_, ∀ w1,
      (r.action data w1).2 ≠ some Thrown.other) :
    (processData data e w).escaped = none ∧
    (processData data e w).engine.statistics_.totalProcessed
      = e.statistics_.totalProcessed + 1 ∧
    (processData data e w).trace.filter Event.isAction
      = (triggeredRules data e.rules_).map (fun r => Event.actionExecuted r.name) ∧
    (processData data e w).world = runActions data (triggeredRules data e.rules_) w ∧
    (processData data e w).engine.statistics_.rulesTriggered
      = e.statistics_.rulesTriggered + (triggeredRules data e.rules_).length ∧
    (∀ r ∈ triggeredRules data e.rules_,
      countOf (processData data e w).engine.statistics_.ruleTriggerCount r.name
        = countOf e.statistics_.ruleTriggerCount r.name + 1) ∧
    (∀ r ∈ e.rules_, r.enabled = false →
      Event.conditionEvaluated r.name ∉ (processData data e w).trace ∧
      Event.actionExecuted r.name ∉ (processData data e w).trace ∧
      countOf (processData data e w).engine.statistics_.ruleTriggerCount r.name
        = countOf e.statistics_.ruleTriggerCount r.name) := by
  obtain ⟨h1, _, h3, h4, h5, h6, h7⟩ := processData_caught data e w hvalid hconds hcaught
  have hinj := List.inj_on_of_nodup_map hnames
  refine ⟨h1, h3, by rw [h7, expectedTrace_actions], h6, h4, ?_, ?_⟩
  · intro r hr
    rw [h5, countOf_bumpCounts,
      filter_name_length_one _ r (triggeredRules_names_nodup data _ hnames) hr]
    rfl
  · intro r hr hoff
    have hnone : ∀ q ∈ triggeredRules data e.rules_, q.name ≠ r.name := by
      intro q hq hn
      rw [mem_triggeredRules] at hq
      have := hinj hq.1 hr hn
      rw [this, hoff] at hq
      exact absurd hq.2.1 (by decide)
    refine ⟨?_, ?_, ?_⟩
    · intro hmem
      rw [h7] at hmem
      obtain ⟨q, hq, hqen, hqn⟩ := mem_expectedTrace_condition data r.name _ hmem
      have := hinj hq hr hqn
      rw [this, hoff] at hqen
      exact absurd hqen (by decide)
    · intro hmem
      rw [h7, mem_expectedTrace_action] at hmem
      obtain ⟨q, hq, hqn⟩ := hmem
      exact hnone q hq hqn
    · rw [h5, countOf_bumpCounts]
      have : (triggeredRules data e.rules_).filter (fun x => decide (x.name = r.name)) = [] := by
        rw [List.filter_eq_nil_iff]
        intro q hq
        simpa using hnone q hq
      rw [this]
      simp

/-- Witness of C8, amended: four rules, the second throwing a std::exception
and the third disabled; the three enabled rules run in order, the two counting
ones bring the counter to 2, and rulesTriggered grows by 3. -/
theorem processData_triggers_exactly_witness :
    (processData sampleD1 (mixedEngine (Thrown.stdException "boom")) 0).escaped = none ∧
    (processData sampleD1 (mixedEngine (Thrown.stdException "boom")) 0).trace.filter
      Event.isAction
      = (triggeredRules sampleD1 (mixedEngine (Thrown.stdException "boom")).rules_).map
          (fun r => Event.actionExecuted r.name) ∧
    (processData sampleD1 (mixedEngine (Thrown.stdException "boom")) 0).world
      = runActions sampleD1
          (triggeredRules sampleD1 (mixedEngine (Thrown.stdException "boom")).rules_) 0 ∧
    (processData sampleD1 (mixedEngine (Thrown.stdException "boom"))
      0).engine.statistics_.rulesTriggered
      = (mixedEngine (Thrown.stdException "boom")).statistics_.rulesTriggered
        + (triggeredRules sampleD1 (mixedEngine (Thrown.stdException "boom")).rules_).length :=
  have h := processData_triggers_exactly sampleD1 (mixedEngine (Thrown.stdException "boom")) 0
    (by decide) (by decide)
    (by
      intro q hq _
      have hmem : q ∈ [countingRule "first" 20, raisingRule (Thrown.stdException "boom"),
          { countingRule "off" 7 with enabled := false }, countingRule "later" 5] := hq
      simp only [List.mem_cons, List.mem_singleton, List.not_mem_nil, or_false] at hmem
      rcases hmem with hm | hm | hm | hm <;> rw [hm] <;> rfl)
    (by
      intro q hq w1
      rw [mem_triggeredRules] at hq
      have hmem : q ∈ [countingRule "first" 20, raisingRule (Thrown.stdException "boom"),
          { countingRule "off" 7 with enabled := false }, countingRule "later" 5] := hq.1
      simp only [List.mem_cons, List.mem_singleton, List.not_mem_nil, or_false] at hmem
      rcases hmem with hm | hm | hm | hm <;> rw [hm] <;> simp [raisingRule, countingRule])
  ⟨h.1, h.2.2.1, h.2.2.2.1, h.2.2.2.2.1⟩

/-- C11, counterexample: the rule engine set up under one configuration equals
the one set up under any other, so no two configurations yield default rules
with different thresholds. -/
theorem setupDefaultRules_config_counterexample :
    ¬ ∃ (c1 c2 : ConfigManager) (S : StdSort),
      setupDefaultRulesIn c1 S idleEngine ≠ setupDefaultRulesIn c2 S idleEngine :=
  fun ⟨_, _, _, hne⟩ => hne rfl

/-- C11, amended: whatever the configuration, the rules installed by
setupDefaultRules are the validation rule and the four threshold rules built
with the constants 28, 15, 70 and 30, which is what their conditions compare
the reading with; the factories themselves compare with the threshold they are
given. -/
theorem setupDefaultRules_fixed_thresholds {W : Type} (config : ConfigManager) (S : StdSort)
    (e : RuleEngine W) :
    (setupDefaultRulesIn config S e).rules_.Perm
      [createDataValidationRule,
        createTemperatureHighRule e (Double.finite 28),
        createTemperatureLowRule e (Double.finite 15),
        createHumidityHighRule e (Double.finite 70),
        createHumidityLowRule e (Double.finite 30)] ∧
    (∀ (threshold : Double) (data : IoTData),
      (createTemperatureHighRule e threshold).condition data
          = Double.gt data.temperature threshold ∧
      (createTemperatureLowRule e threshold).condition data
          = Double.lt data.temperature threshold ∧
      (createHumidityHighRule e threshold).condition data
          = Double.gt data.humidity threshold ∧
      (createHumidityLowRule e threshold).condition data
          = Double.lt data.humidity threshold) :=
  ⟨setupDefaultRules_perm S e, fun _ _ => ⟨rfl, rfl, rfl, rfl⟩⟩

/-- C12: the validation rule of the default set triggers on every valid sample
and its action returns the state as it is, without a call on the alert
processor. With the default rules, a valid sample with temperature in 15..28
and humidity in 30..70 triggers the validation rule only: processData does
not raise, executes that one action, and leaves the state of the alert
processor (dedup cache, statistics, record of calls and notifications) as it
was, whatever the repository holds for the subscribers. -/
theorem processData_inband_validation_only (S : StdSort) (statistics : Statistics)
    (data : IoTData) (w : AlertWorld) (hvalid : data.isValid = true) :
    (∀ w1 : AlertWorld, (createDataValidationRule : Rule AlertWorld).action data w1 = (w1, none)) ∧
    Event.actionExecuted "data_validation" ∈
      (processData data (setupDefaultRules S (wiredEngine statistics)) w).trace ∧
    (Double.le (Double.finite 15) data.temperature = true →
      Double.le data.temperature (Double.finite 28) = true →
      Double.le (Double.finite 30) data.humidity = true →
      Double.le data.humidity (Double.finite 70) = true →
      (processData data (setupDefaultRules S (wiredEngine statistics)) w).escaped = none ∧
      (processData data (setupDefaultRules S (wiredEngine statistics)) w).trace.filter
        Event.isAction = [Event.actionExecuted "data_validation"] ∧
      (processData data (setupDefaultRules S (wiredEngine statistics)) w).world = w ∧
      (processData data (setupDefaultRules S
        (wiredEngine statistics)) w).engine.statistics_.rulesTriggered
        = statistics.rulesTriggered + 1) := by
  have hcaught : ∀ r ∈ triggeredRules data (setupDefaultRules S (wiredEngine statistics)).rules_,
      ∀ w1, (r.action data w1).2 ≠ some Thrown.other := by
    intro r hr w1
    have hmem := (setupDefaultRules_perm S (wiredEngine statistics)).mem_iff.mp
      (mem_triggeredRules.mp hr).1
    simp only [defaultRules, List.mem_cons, List.mem_singleton, List.not_mem_nil,
      or_false] at hmem
    rcases hmem with hm | hm | hm | hm | hm <;> rw [hm]
    · intro hc
      exact Option.noConfusion hc
    all_goals exact (good_processTelemetryData _ _ _).noOther w1
  obtain ⟨h1, _, _, h4, _, h6, h7⟩ := processData_caught data
    (setupDefaultRules S (wiredEngine statistics)) w hvalid
    (setupDefaultRules_conditions_return S _ data) hcaught
  refine ⟨fun _ => rfl, ?_, ?_⟩
  · rw [h7, mem_expectedTrace_action]
    refine ⟨createDataValidationRule, ?_, rfl⟩
    rw [mem_triggeredRules]
    exact ⟨(setupDefaultRules_perm S (wiredEngine statistics)).mem_iff.mpr
      (by simp [defaultRules]), rfl, rfl⟩
  · intro ht1 ht2 hh1 hh2
    have htr := triggeredRules_default_inband S (wiredEngine statistics) data ht1 ht2 hh1 hh2
    refine ⟨h1, ?_, ?_, ?_⟩
    · rw [h7, expectedTrace_actions, htr]
      rfl
    · rw [h6, htr]
      rfl
    · rw [h4, htr]
      rfl
/-- Witness of C12: the sample with 20 degrees and 50 percent on a device whose
subscriber has thresholds 28, 15, 70 and 30. -/
theorem processData_inband_validation_only_witness :
    sampleInBand.isValid = true ∧
    Event.actionExecuted "data_validation" ∈
      (processData sampleInBand (setupDefaultRules insertionStdSort (wiredEngine {}))
        (subscribedWorld [7])).trace ∧
    (processData sampleInBand (setupDefaultRules insertionStdSort (wiredEngine {}))
      (subscribedWorld [7])).trace.filter Event.isAction
      = [Event.actionExecuted "data_validation"] ∧
    (processData sampleInBand (setupDefaultRules insertionStdSort (wiredEngine {}))
      (subscribedWorld [7])).world = subscribedWorld [7] :=
  have h := processData_inband_validation_only insertionStdSort {} sampleInBand
    (subscribedWorld [7]) (by decide)
  have h2 := h.2.2 (by decide) (by decide) (by decide) (by decide)
  ⟨by decide, h.2.1, h2.2.1, h2.2.2.1⟩

/-- C13: Scenario A. With the default rules, zeroed statistics and the alert
processor wired in, the sample d1, 35 degrees, 50 percent does not raise,
executes the actions of data_validation and temperature_high_alert in that
order and no other; totalProcessed becomes 1, rulesTriggered 2, the trigger
counts of the two rules 1 and those of the other three rules stay absent; the
state left is the one a single processTelemetryData call leaves. -/
theorem processData_scenario_A (S : StdSort) (w : AlertWorld) :
    (processData sampleD1 (setupDefaultRules S (wiredEngine {})) w).escaped = none ∧
    (processData sampleD1 (setupDefaultRules S
      (wiredEngine {})) w).engine.statistics_.totalProcessed = 1 ∧
    (processData sampleD1 (setupDefaultRules S
      (wiredEngine {})) w).engine.statistics_.rulesTriggered = 2 ∧
    (processData sampleD1 (setupDefaultRules S (wiredEngine {})) w).trace.filter
      Event.isAction
      = [Event.actionExecuted "data_validation",
          Event.actionExecuted "temperature_high_alert"] ∧
    (processData sampleD1 (setupDefaultRules S
      (wiredEngine {})) w).engine.statistics_.ruleTriggerCount
      = [("data_validation", 1), ("temperature_high_alert", 1)] ∧
    (processData sampleD1 (setupDefaultRules S (wiredEngine {})) w).world
      = (processTelemetryData "d1" (Double.finite 35) (Double.finite 50) w).1 := by
  have htr := triggeredRules_default_sampleD1 S (wiredEngine {})
  have hcaught : ∀ r ∈ triggeredRules sampleD1 (setupDefaultRules S (wiredEngine {})).rules_,
      ∀ w1, (r.action sampleD1 w1).2 ≠ some Thrown.other := by
    intro r hr w1
    rw [htr] at hr
    simp only [List.mem_cons, List.mem_singleton, List.not_mem_nil, or_false] at hr
    rcases hr with hm | hm <;> rw [hm]
    · intro hc
      exact Option.noConfusion hc
    · exact (good_processTelemetryData _ _ _).noOther w1
  obtain ⟨h1, _, h3, h4, h5, h6, h7⟩ := processData_caught sampleD1
    (setupDefaultRules S (wiredEngine {})) w (by decide)
    (setupDefaultRules_conditions_return S _ sampleD1) hcaught
  refine ⟨h1, ?_, ?_, ?_, ?_, ?_⟩
  · rw [h3]
    rfl
  · rw [h4, htr]
    rfl
  · rw [h7, expectedTrace_actions, htr]
    rfl
  · rw [h5, htr]
    rfl
  · rw [h6, htr]
    rfl

/-- C14: threshold semantics of processTelemetryData. With an empty dedup
cache, a subscriber list without repetition and a repository that returns (the
gateway call always returns), processTelemetryData returns normally and the
notifications handed to the gateway are, for each subscriber in list order,
those of expectedNotifications: temperature above iff the high threshold is positive
and below the temperature, temperature below iff the low threshold is positive
and above the temperature, then the same for humidity, each with the reading
as value. The comparisons are strict, and the global check leaves the state as
it is. -/
theorem processTelemetryData_threshold_semantics (d : String) (t h : Double)
    (w : AlertWorld) (subs : List Int) (cfg : Int → UserAlert)
    (hcache : w.service.alertCache_ = [])
    (hsubs : w.database_.getDeviceSubscribers d = Except.ok subs)
    (hnodup : subs.Nodup)
    (hcfg : ∀ u ∈ subs, w.database_.getUserAlert u = Except.ok (cfg u)) :
    (processTelemetryData d t h w).2 = none ∧
    dispatched (processTelemetryData d t h w).1
      = dispatched w ++ (subs.map (fun u => expectedNotifications (cfg u) u d t h)).flatten ∧
    (∀ x : Double, Double.gt x x = false ∧ Double.lt x x = false) ∧
    (∀ w1 : AlertWorld, checkGlobalAlerts d t h w1 = w1) := by
  obtain ⟨w1, hrun, hdisp⟩ := forEachSubscriber_fresh cfg d t h subs []
    { w with trace := w.trace ++ [AlertEvent.getDeviceSubscribers d] } hnodup
    (fun _ _ hmem => absurd hmem (List.not_mem_nil _)) hcfg
    (by
      intro u2 e he
      have hc : e ∈ w.service.alertCache_ := he
      rw [hcache] at hc
      exact absurd hc (List.not_mem_nil _))
  have hfinal : processTelemetryData d t h w = (w1, none) := by
    rw [processTelemetryData_eq, hsubs]
    exact hrun
  refine ⟨by rw [hfinal], ?_, fun x => ⟨Double.lt_irrefl x, Double.lt_irrefl x⟩, fun _ => rfl⟩
  rw [hfinal]
  simp only
  rw [hdisp, dispatched_append]
  simp [AlertEvent.sent]
/-- Witness of C14: the two subscribers 1 and 2 of device d1, each with the
thresholds 28, 15, 70 and 30, at 35 degrees and 50 percent. -/
theorem processTelemetryData_threshold_semantics_witness :
    (subscribedWorld [1, 2]).service.alertCache_ = [] ∧
    (processTelemetryData "d1" (Double.finite 35) (Double.finite 50)
      (subscribedWorld [1, 2])).2 = none ∧
    dispatched (processTelemetryData "d1" (Double.finite 35) (Double.finite 50)
      (subscribedWorld [1, 2])).1
      = dispatched (subscribedWorld [1, 2]) ++
        ([1, 2].map (fun u => expectedNotifications scenarioAlert u "d1" (Double.finite 35)
          (Double.finite 50))).flatten :=
  have h := processTelemetryData_threshold_semantics "d1" (Double.finite 35) (Double.finite 50)
    (subscribedWorld [1, 2]) [1, 2] (fun _ => scenarioAlert) rfl rfl (by decide)
    (fun _ _ => rfl)
  ⟨rfl, h.1, h.2.1⟩

/-- C15: threshold arming. For a subscriber whose four thresholds are all
at most 0, checkUserAlerts only fetches the settings: it returns normally and
leaves the service (dedup cache, statistics) and the clock as they were, with
no notify-check and no gateway call. A single threshold that is at most 0
never fires, whatever the reading: no notify-check of its alert type and no
gateway call of its metric and direction is made. -/
theorem checkUserAlerts_unarmed (u : Int) (d : String) (t h : Double) (w : AlertWorld)
    (alert : UserAlert) (hget : w.database_.getUserAlert u = Except.ok alert) :
    (Double.le alert.temperatureHighThreshold (Double.finite 0) = true →
      Double.le alert.temperatureLowThreshold (Double.finite 0) = true →
      Double.le alert.humidityHighThreshold (Double.finite 0) = true →
      Double.le alert.humidityLowThreshold (Double.finite 0) = true →
      checkUserAlerts u d t h w
        = ({ w with trace := w.trace ++ [AlertEvent.getUserAlert u] }, none)) ∧
    ∃ evs : List AlertEvent,
      (checkUserAlerts u d t h w).1.trace = w.trace ++ AlertEvent.getUserAlert u :: evs ∧
      (Double.le alert.temperatureHighThreshold (Double.finite 0) = true →
        ∀ ev ∈ evs, (∀ b, ev ≠ AlertEvent.shouldNotify u d "temp_high" b) ∧
          ev ≠ AlertEvent.sendTelegramAlert
            { chatId := u, deviceId := d, value := t, metricType := "temperature",
              direction := "above" }) ∧
      (Double.le alert.temperatureLowThreshold (Double.finite 0) = true →
        ∀ ev ∈ evs, (∀ b, ev ≠ AlertEvent.shouldNotify u d "temp_low" b) ∧
          ev ≠ AlertEvent.sendTelegramAlert
            { chatId := u, deviceId := d, value := t, metricType := "temperature",
              direction := "below" }) ∧
      (Double.le alert.humidityHighThreshold (Double.finite 0) = true →
        ∀ ev ∈ evs, (∀ b, ev ≠ AlertEvent.shouldNotify u d "hum_high" b) ∧
          ev ≠ AlertEvent.sendTelegramAlert
            { chatId := u, deviceId := d, value := h, metricType := "humidity",
              direction := "above" }) ∧
      (Double.le alert.humidityLowThreshold (Double.finite 0) = true →
        ∀ ev ∈ evs, (∀ b, ev ≠ AlertEvent.shouldNotify u d "hum_low" b) ∧
          ev ≠ AlertEvent.sendTelegramAlert
            { chatId := u, deviceId := d, value := h, metricType := "humidity",
              direction := "below" }) := by
  refine ⟨?_, ?_⟩
  · intro h1 h2 h3 h4
    have hany : alert.hasAnyAlert = false := by
      unfold UserAlert.hasAnyAlert
      rw [Double.gt_false_of_le h1, Double.gt_false_of_le h2, Double.gt_false_of_le h3,
        Double.gt_false_of_le h4]
      rfl
    unfold checkUserAlerts
    simp [hget, hany]
  · obtain ⟨evs, htr, hev⟩ := checkUserAlerts_trace u d t h w
    have hall : ∀ ev ∈ evs, thresholdEvent alert u d t h ev := by
      intro ev hmem
      obtain ⟨a2, hget2, hth⟩ := hev ev hmem
      rw [hget] at hget2
      injection hget2 with ha
      rw [ha]
      exact hth
    refine ⟨evs, htr, ?_, ?_, ?_, ?_⟩
    · intro hle ev hmem
      rcases hall ev hmem with hb | hb | hb | hb
      · exact (blockEvent_unarmed hle hb).elim
      · exact blockEvent_other _ _ _ _ hb (by decide) (by decide)
      · exact blockEvent_other _ _ _ _ hb (by decide) (by decide)
      · exact blockEvent_other _ _ _ _ hb (by decide) (by decide)
    · intro hle ev hmem
      rcases hall ev hmem with hb | hb | hb | hb
      · exact blockEvent_other _ _ _ _ hb (by decide) (by decide)
      · exact (blockEvent_unarmed hle hb).elim
      · exact blockEvent_other _ _ _ _ hb (by decide) (by decide)
      · exact blockEvent_other _ _ _ _ hb (by decide) (by decide)
    · intro hle ev hmem
      rcases hall ev hmem with hb | hb | hb | hb
      · exact blockEvent_other _ _ _ _ hb (by decide) (by decide)
      · exact blockEvent_other _ _ _ _ hb (by decide) (by decide)
      · exact (blockEvent_unarmed hle hb).elim
      · exact blockEvent_other _ _ _ _ hb (by decide) (by decide)
    · intro hle ev hmem
      rcases hall ev hmem with hb | hb | hb | hb
      · exact blockEvent_other _ _ _ _ hb (by decide) (by decide)
      · exact blockEvent_other _ _ _ _ hb (by decide) (by decide)
      · exact blockEvent_other _ _ _ _ hb (by decide) (by decide)
      · exact (blockEvent_unarmed hle hb).elim

/-- Witness of C15: a subscriber with all thresholds 0 is only looked up, at a
reading of 150 degrees and 5 percent; a subscriber with the temperature
thresholds unset gets no temperature check at that reading. -/
theorem checkUserAlerts_unarmed_witness :
    (configuredWorld {}).database_.getUserAlert 7 = Except.ok {} ∧
    checkUserAlerts 7 "d1" (Double.finite 150) (Double.finite 5) (configuredWorld {})
      = ({ configuredWorld {} with
            trace := (configuredWorld {}).trace ++ [AlertEvent.getUserAlert 7] }, none) ∧
    (∃ evs : List AlertEvent,
      (checkUserAlerts 7 "d1" (Double.finite 150) (Double.finite 5)
        (configuredWorld humidityOnlyAlert)).1.trace
        = (configuredWorld humidityOnlyAlert).trace ++ AlertEvent.getUserAlert 7 :: evs ∧
      ∀ ev ∈ evs, (∀ b, ev ≠ AlertEvent.shouldNotify 7 "d1" "temp_high" b) ∧
        ev ≠ AlertEvent.sendTelegramAlert
          { chatId := 7, deviceId := "d1", value := Double.finite 150,
            metricType := "temperature", direction := "above" }) :=
  have h1 := (checkUserAlerts_unarmed 7 "d1" (Double.finite 150) (Double.finite 5)
    (configuredWorld {}) {} rfl).1 (by decide) (by decide) (by decide) (by decide)
  have h2 := (checkUserAlerts_unarmed 7 "d1" (Double.finite 150) (Double.finite 5)
    (configuredWorld humidityOnlyAlert) humidityOnlyAlert rfl).2
  ⟨rfl, h1, h2.elim (fun evs hevs => ⟨evs, hevs.1, hevs.2.1 (by decide)⟩)⟩

/-- C16: Scenario B. One subscriber with the thresholds 28, 15, 70 and 30, an
empty dedup cache, zeroed statistics and a repository that returns; three
processTelemetryData calls with temperature 10 and a humidity in 30..70, the
clock reading t0, t0 + 1 s and t0 + 301 s. All three return normally; the
first hands exactly one notification (temperature, below) to the gateway, the
second none, the third exactly one again, and totalAlerts ends at 2. -/
theorem processTelemetryData_scenario_B (d : String) (u : Int) (h : Double) (t0 : TimePoint)
    (w : AlertWorld)
    (hsubs : w.database_.getDeviceSubscribers d = Except.ok [u])
    (hcfg : w.database_.getUserAlert u = Except.ok scenarioAlert)
    (hcache : w.service.alertCache_ = [])
    (hstats : w.service.statistics_.totalAlerts = 0)
    (hh1 : Double.le (Double.finite 30) h = true)
    (hh2 : Double.le h (Double.finite 70) = true)
    (hc1 : w.clock w.clockReads = t0)
    (hc2 : w.clock (w.clockReads + 1) = t0 + seconds 1)
    (hc3 : w.clock (w.clockReads + 2) = t0 + seconds 301) :
    ∃ w1 w2 w3 : AlertWorld,
      processTelemetryData d (Double.finite 10) h w = (w1, none) ∧
      processTelemetryData d (Double.finite 10) h w1 = (w2, none) ∧
      processTelemetryData d (Double.finite 10) h w2 = (w3, none) ∧
      dispatched w1 = dispatched w ++
        [{ chatId := u, deviceId := d, value := Double.finite 10,
           metricType := "temperature", direction := "below" }] ∧
      dispatched w2 = dispatched w1 ∧
      dispatched w3 = dispatched w2 ++
        [{ chatId := u, deviceId := d, value := Double.finite 10,
           metricType := "temperature", direction := "below" }] ∧
      w3.service.statistics_.totalAlerts = 2 := by
  obtain ⟨w1, r1, db1, nt1, ck1, rd1, ca1, st1, dp1⟩ :=
    scenario_call_pass u d h w hsubs hcfg hh1 hh2 (by rw [hcache]; rfl)
  rw [hcache, hc1] at ca1
  have ca1b : w1.service.alertCache_ = [(cacheKey u d "temp_low", t0)] := ca1
  have now2 : w1.clock w1.clockReads = t0 + seconds 1 := by rw [ck1, rd1, hc2]
  obtain ⟨w2, r2, db2, nt2, ck2, rd2, ca2, st2, dp2⟩ :=
    scenario_call_suppressed u d h w1 (by rw [db1]; exact hsubs) (by rw [db1]; exact hcfg)
      hh1 hh2 (by rw [now2, ca1b, evictLoop_single_kept]; simp [mapFind])
  rw [now2, ca1b, evictLoop_single_kept] at ca2
  have now3 : w2.clock w2.clockReads = t0 + seconds 301 := by rw [ck2, ck1, rd2, rd1]; exact hc3
  obtain ⟨w3, r3, db3, nt3, ck3, rd3, ca3, st3, dp3⟩ :=
    scenario_call_pass u d h w2 (by rw [db2, db1]; exact hsubs)
      (by rw [db2, db1]; exact hcfg) hh1 hh2
      (by rw [now3, ca2, evictLoop_single_expired]; rfl)
  refine ⟨w1, w2, w3, r1, r2, r3, dp1, dp2, dp3, ?_⟩
  rw [st3, st2, st1, hstats]
  rfl

/-- Witness of C16: subscriber 7 of device d1, humidity 50, clock readings 0,
1 s and 301 s. -/
theorem processTelemetryData_scenario_B_witness :
    scenarioWorld.service.alertCache_ = [] ∧
    scenarioWorld.clock (scenarioWorld.clockReads + 2) = 0 + seconds 301 ∧
    ∃ w1 w2 w3 : AlertWorld,
      processTelemetryData "d1" (Double.finite 10) (Double.finite 50) scenarioWorld
        = (w1, none) ∧
      processTelemetryData "d1" (Double.finite 10) (Double.finite 50) w1 = (w2, none) ∧
      processTelemetryData "d1" (Double.finite 10) (Double.finite 50) w2 = (w3, none) ∧
      dispatched w1 = dispatched scenarioWorld ++
        [{ chatId := 7, deviceId := "d1", value := Double.finite 10,
           metricType := "temperature", direction := "below" }] ∧
      dispatched w2 = dispatched w1 ∧
      dispatched w3 = dispatched w2 ++
        [{ chatId := 7, deviceId := "d1", value := Double.finite 10,
           metricType := "temperature", direction := "below" }] ∧
      w3.service.statistics_.totalAlerts = 2 :=
  ⟨rfl, by decide,
    processTelemetryData_scenario_B "d1" 7 (Double.finite 50) 0 scenarioWorld rfl rfl
      rfl rfl (by decide) (by decide) rfl (by decide) (by decide)⟩

/-- C17: alert statistics. For each of the four alert kinds, a notification
that passes the notify-check and is handed to the gateway adds 1 to
totalAlerts, 1 to usersNotified and 1 to exactly one of temperatureAlerts
(temp_high, temp_low) and humidityAlerts (hum_high, hum_low); a suppressed
check leaves the statistics as they are, and so do the four blocks when none
of them fires. In every state reached from zeroed statistics by calls of the
service, totalAlerts = usersNotified = temperatureAlerts + humidityAlerts. -/
theorem alert_statistics_accounting :
    (∀ b ∈ alertBlocks, ∀ (u : Int) (d : String) (v : Double) (w : AlertWorld),
      mapFind (evictLoop (w.clock w.clockReads) w.service.alertCache_) (cacheKey u d b.1)
        = none →
      (notifyAndDispatch u d b.1 v b.2.1 b.2.2 w).1.service.statistics_
        = { totalAlerts := w.service.statistics_.totalAlerts + 1,
            usersNotified := w.service.statistics_.usersNotified + 1,
            temperatureAlerts := w.service.statistics_.temperatureAlerts
              + (if b.1 = "temp_high" ∨ b.1 = "temp_low" then 1 else 0),
            humidityAlerts := w.service.statistics_.humidityAlerts
              + (if b.1 = "hum_high" ∨ b.1 = "hum_low" then 1 else 0) }) ∧
    (∀ (u : Int) (d k m dir : String) (v : Double) (w : AlertWorld),
      (mapFind (evictLoop (w.clock w.clockReads) w.service.alertCache_)
        (cacheKey u d k)).isSome = true →
      (notifyAndDispatch u d k v m dir w).1.service.statistics_ = w.service.statistics_ ∧
      dispatched (notifyAndDispatch u d k v m dir w).1 = dispatched w) ∧
    (∀ (alert : UserAlert) (u : Int) (d : String) (t h : Double) (w : AlertWorld),
      (Double.gt alert.temperatureHighThreshold (Double.finite 0) &&
        Double.gt t alert.temperatureHighThreshold) = false →
      (Double.gt alert.temperatureLowThreshold (Double.finite 0) &&
        Double.lt t alert.temperatureLowThreshold) = false →
      (Double.gt alert.humidityHighThreshold (Double.finite 0) &&
        Double.gt h alert.humidityHighThreshold) = false →
      (Double.gt alert.humidityLowThreshold (Double.finite 0) &&
        Double.lt h alert.humidityLowThreshold) = false →
      checkThresholds alert u d t h w = (w, none)) ∧
    (∀ (ops : List AlertOp) (w : AlertWorld), w.service.statistics_ = {} →
      (runAlertOps ops w).service.statistics_.totalAlerts
        = (runAlertOps ops w).service.statistics_.usersNotified ∧
      (runAlertOps ops w).service.statistics_.totalAlerts
        = (runAlertOps ops w).service.statistics_.temperatureAlerts
          + (runAlertOps ops w).service.statistics_.humidityAlerts) := by
  refine ⟨?_, ?_, ?_, ?_⟩
  · intro b hb u d v w hfresh
    rw [notifyAndDispatch_pass u d b.1 v b.2.1 b.2.2 w hfresh]
    simp only [alertBlocks, List.mem_cons, List.mem_singleton, List.not_mem_nil,
      or_false] at hb
    rcases hb with hb | hb | hb | hb <;> subst hb <;> simp [updateStatistics]
  · intro u d k m dir v w hlive
    rw [notifyAndDispatch_suppressed u d k v m dir w hlive]
    refine ⟨rfl, ?_⟩
    unfold dispatched
    simp [AlertEvent.sent]
  · intro alert u d t h w c1 c2 c3 c4
    unfold checkThresholds
    rw [c1, c2, c3, c4]
    rfl
  · intro ops w hzero
    exact statsInv_reachable ops w (by rw [hzero]; exact ⟨rfl, rfl⟩)

/-- Witness of C17: a first temperature-high notification on a state with
zeroed statistics counts one alert, one user and one temperature alert; and
after two processed readings the counters agree. -/
theorem alert_statistics_accounting_witness :
    (notifyAndDispatch 7 "d1" "temp_high" (Double.finite 35) "temperature" "above"
      (subscribedWorld [7])).1.service.statistics_
      = { totalAlerts := 1, usersNotified := 1, temperatureAlerts := 1, humidityAlerts := 0 } ∧
    (runAlertOps [AlertOp.processTelemetryData "d1" (Double.finite 35) (Double.finite 5),
        AlertOp.checkAllSubscribedDevices] (subscribedWorld [7])).service.statistics_.totalAlerts
      = (runAlertOps [AlertOp.processTelemetryData "d1" (Double.finite 35) (Double.finite 5),
          AlertOp.checkAllSubscribedDevices]
          (subscribedWorld [7])).service.statistics_.usersNotified :=
  ⟨alert_statistics_accounting.1 ("temp_high", "temperature", "above") (by decide) 7 "d1"
      (Double.finite 35) (subscribedWorld [7]) (by decide),
    (alert_statistics_accounting.2.2.2
      [AlertOp.processTelemetryData "d1" (Double.finite 35) (Double.finite 5),
        AlertOp.checkAllSubscribedDevices] (subscribedWorld [7]) rfl).1⟩

/-- C18: evaluation at the failing input. The sample with temperature 150 is
invalid, and the rule engine leaves everything as it is on it, yet
processTelemetryData evaluates it against the thresholds of subscriber 7:
it hands a temperature-above notification to the gateway, stores a dedup
entry and counts an alert. -/
theorem processTelemetryData_accepts_invalid :
    sampleTooHot.isValid = false ∧
    (processData sampleTooHot (setupDefaultRules insertionStdSort (wiredEngine {}))
      (subscribedWorld [7])).world = subscribedWorld [7] ∧
    (processTelemetryData "d1" (Double.finite 150) (Double.finite 50)
      (subscribedWorld [7])).2 = none ∧
    dispatched (processTelemetryData "d1" (Double.finite 150) (Double.finite 50)
      (subscribedWorld [7])).1
      = [{ chatId := 7, deviceId := "d1", value := Double.finite 150,
           metricType := "temperature", direction := "above" }] ∧
    (processTelemetryData "d1" (Double.finite 150) (Double.finite 50)
      (subscribedWorld [7])).1.service.alertCache_ = [("7_d1_temp_high", 0)] ∧
    (processTelemetryData "d1" (Double.finite 150) (Double.finite 50)
      (subscribedWorld [7])).1.service.statistics_.totalAlerts = 1 := by
  refine ⟨by decide, rfl, by decide, by decide, by decide, by decide⟩

/-- C19, counterexample: device d1 has the subscribers 1 and 2, in this order
in the list the repository returns. When the fetch of the settings of
subscriber 1 raises, processTelemetryData raises the same exception and the
settings of subscriber 2 are never fetched, and nothing is handed to the
gateway for subscriber 2. -/
theorem processTelemetryData_isolation_counterexample :
    failingConfigWorld.database_.getDeviceSubscribers "d1" = Except.ok [1, 2] ∧
    failingConfigWorld.database_.getUserAlert 1 = Except.error "connection lost" ∧
    (processTelemetryData "d1" (Double.finite 35) (Double.finite 50) failingConfigWorld).2
      = some (Thrown.stdException "connection lost") ∧
    AlertEvent.getUserAlert 2 ∉
      (processTelemetryData "d1" (Double.finite 35) (Double.finite 50)
        failingConfigWorld).1.trace ∧
    dispatched (processTelemetryData "d1" (Double.finite 35) (Double.finite 50)
      failingConfigWorld).1 = [] := by
  refine ⟨rfl, rfl, by decide, by decide, by decide⟩

/-- C19, amended: a failing fetch of the settings of a subscriber is not caught.
It makes checkUserAlerts raise; when checkUserAlerts raises for the subscriber
u after the subscribers before u went through, processTelemetryData raises the
same exception in the state reached at that point, and every call it made is
about a subscriber up to u, so no subscriber after u is evaluated. A dispatch
never raises, whether the notification is delivered or not, so it aborts
nothing: when the repository yields the settings of every subscriber,
processTelemetryData returns normally whatever the gateway delivers, and
whenever it returns normally the settings of every subscriber have been
fetched. -/
theorem processTelemetryData_failure_propagates (d : String) (t h : Double) (w : AlertWorld)
    (subs : List Int) (hsubs : w.database_.getDeviceSubscribers d = Except.ok subs) :
    (∀ (u : Int) (what : String) (w2 : AlertWorld),
      w2.database_.getUserAlert u = Except.error what →
      checkUserAlerts u d t h w2
        = ({ w2 with trace := w2.trace ++ [AlertEvent.getUserAlert u] },
            some (Thrown.stdException what))) ∧
    (∀ (u : Int) (k m dir : String) (v : Double) (w2 : AlertWorld),
      (notifyAndDispatch u d k v m dir w2).2 = none) ∧
    (∀ (pre post : List Int) (u : Int) (x : Thrown), subs = pre ++ u :: post →
      (forEachSubscriber d t h pre
        { w with trace := w.trace ++ [AlertEvent.getDeviceSubscribers d] }).2 = none →
      (checkUserAlerts u d t h (forEachSubscriber d t h pre
        { w with trace := w.trace ++ [AlertEvent.getDeviceSubscribers d] }).1).2 = some x →
      processTelemetryData d t h w
        = checkUserAlerts u d t h (forEachSubscriber d t h pre
            { w with trace := w.trace ++ [AlertEvent.getDeviceSubscribers d] }).1 ∧
      (processTelemetryData d t h w).2 = some x ∧
      ∃ evs : List AlertEvent,
        (processTelemetryData d t h w).1.trace
          = w.trace ++ AlertEvent.getDeviceSubscribers d :: evs ∧
        ∀ ev ∈ evs, ∃ v ∈ pre ++ [u], ev.userOf = some v) ∧
    ((∀ u ∈ subs, ∃ alert, w.database_.getUserAlert u = Except.ok alert) →
      (processTelemetryData d t h w).2 = none) ∧
    ((processTelemetryData d t h w).2 = none →
      ∀ u ∈ subs, AlertEvent.getUserAlert u ∈ (processTelemetryData d t h w).1.trace) := by
  have hrun : processTelemetryData d t h w
      = forEachSubscriber d t h subs
          { w with trace := w.trace ++ [AlertEvent.getDeviceSubscribers d] } := by
    rw [processTelemetryData_eq, hsubs]
  refine ⟨?_, ?_, ?_, ?_, ?_⟩
  · intro u what w2 hget
    unfold checkUserAlerts
    simp [hget]
  · intro u k m dir v w2
    exact notifyAndDispatch_returns u d k v m dir w2
  · intro pre post u x hsplit hpre hraise
    rcases hp : forEachSubscriber d t h pre
      { w with trace := w.trace ++ [AlertEvent.getDeviceSubscribers d] } with ⟨w1, t1⟩
    rw [hp] at hpre hraise
    simp only at hpre hraise
    subst hpre
    rcases hc : checkUserAlerts u d t h w1 with ⟨w2, t2⟩
    rw [hc] at hraise
    simp only at hraise
    subst hraise
    have hfinal : processTelemetryData d t h w = (w2, some x) := by
      rw [hrun, hsplit, forEachSubscriber_append d t h (u :: post) pre _ w1 hp,
        forEachSubscriber_cons, andThen_some _ _ _ _ _ hc]
    refine ⟨hfinal, by rw [hfinal], ?_⟩
    obtain ⟨evs1, htr1, hev1⟩ := newEvents_forEachSubscriber d t h pre
      { w with trace := w.trace ++ [AlertEvent.getDeviceSubscribers d] }
    obtain ⟨evs2, htr2, hev2⟩ := newEvents_checkUserAlerts u d t h w1
    rw [hp] at htr1
    rw [hc] at htr2
    simp only at htr1 htr2
    refine ⟨evs1 ++ evs2, ?_, ?_⟩
    · rw [hfinal]
      simp only
      rw [htr2, htr1]
      simp [List.append_assoc]
    · intro ev hev
      rcases List.mem_append.mp hev with h1 | h2
      · obtain ⟨v, hv, huv⟩ := hev1 ev h1
        exact ⟨v, List.mem_append_left _ hv, huv⟩
      · exact ⟨u, by simp, hev2 ev h2⟩
  · intro hget
    rw [hrun]
    exact forEachSubscriber_returns d t h subs _ hget
  · intro hnone u hu
    rcases hf : forEachSubscriber d t h subs
      { w with trace := w.trace ++ [AlertEvent.getDeviceSubscribers d] } with ⟨w1, t1⟩
    rw [hrun, hf] at hnone ⊢
    simp only at hnone
    subst hnone
    exact (forEachSubscriber_all_evaluated d t h subs _ w1 hf).2 u hu

/-- Witness of C19, amended: on the state whose repository fails for
subscriber 1, the failure leaves processTelemetryData and the only user the
calls are about is subscriber 1; on the state whose gateway fails to deliver to
subscriber 1, processTelemetryData returns normally and the settings of
subscriber 2 are fetched. -/
theorem processTelemetryData_failure_propagates_witness :
    failingConfigWorld.database_.getDeviceSubscribers "d1" = Except.ok [1, 2] ∧
    (processTelemetryData "d1" (Double.finite 35) (Double.finite 50) failingConfigWorld).2
      = some (Thrown.stdException "connection lost") ∧
    (∃ evs : List AlertEvent,
      (processTelemetryData "d1" (Double.finite 35) (Double.finite 50)
        failingConfigWorld).1.trace
        = failingConfigWorld.trace ++ AlertEvent.getDeviceSubscribers "d1" :: evs ∧
      ∀ ev ∈ evs, ∃ v ∈ [] ++ [(1 : Int)], ev.userOf = some v) ∧
    failingGatewayWorld.notifier_.sendTelegramAlert
      { chatId := 1, deviceId := "d1", value := Double.finite 35,
        metricType := "temperature", direction := "above" } = false ∧
    (processTelemetryData "d1" (Double.finite 35) (Double.finite 50) failingGatewayWorld).2
      = none ∧
    AlertEvent.getUserAlert 2 ∈
      (processTelemetryData "d1" (Double.finite 35) (Double.finite 50)
        failingGatewayWorld).1.trace :=
  have h := (processTelemetryData_failure_propagates "d1" (Double.finite 35) (Double.finite 50)
    failingConfigWorld [1, 2] rfl).2.2.1 [] [2] 1
    (Thrown.stdException "connection lost") rfl (by decide) (by decide)
  have g := processTelemetryData_failure_propagates "d1" (Double.finite 35) (Double.finite 50)
    failingGatewayWorld [1, 2] rfl
  have g1 := g.2.2.2.1 (fun _ _ => ⟨scenarioAlert, rfl⟩)
  ⟨rfl, h.2.1, h.2.2, by decide, g1, g.2.2.2.2 g1 2 (by decide)⟩

/-- C20: Scenario C. When the remote link is down or the repository reports no
subscribed device, checkAllSubscribedDevices returns normally, the service
(dedup cache and statistics) is unchanged, nothing is handed to the gateway,
and the only calls made are the link check and the device enumeration: no
telemetry is fetched. -/
theorem checkAllSubscribedDevices_idle (w : AlertWorld)
    (hidle : w.database_.isRemoteConnected = false ∨
      w.database_.getAllSubscribedDevices = Except.ok []) :
    (checkAllSubscribedDevices w).2 = none ∧
    (checkAllSubscribedDevices w).1.service = w.service ∧
    dispatched (checkAllSubscribedDevices w).1 = dispatched w ∧
    ∃ evs : List AlertEvent, (checkAllSubscribedDevices w).1.trace = w.trace ++ evs ∧
      ∀ ev ∈ evs,
        ev = AlertEvent.isRemoteConnected ∨ ev = AlertEvent.getAllSubscribedDevices := by
  by_cases hlink : w.database_.isRemoteConnected = true
  · have hdev : w.database_.getAllSubscribedDevices = Except.ok [] := by
      rcases hidle with h0 | h0
      · rw [hlink] at h0
        exact absurd h0 (by decide)
      · exact h0
    have hrun : checkAllSubscribedDevices w
        = ({ w with trace := (w.trace ++ [AlertEvent.isRemoteConnected])
            ++ [AlertEvent.getAllSubscribedDevices] }, none) := by
      unfold checkAllSubscribedDevices
      simp [hlink, hdev]
    rw [hrun]
    refine ⟨rfl, rfl, ?_, [AlertEvent.isRemoteConnected, AlertEvent.getAllSubscribedDevices],
      by simp, ?_⟩
    · unfold dispatched
      simp [AlertEvent.sent]
    · intro ev hev
      simpa using hev
  · have hdown : w.database_.isRemoteConnected = false := by simpa using hlink
    have hrun : checkAllSubscribedDevices w
        = ({ w with trace := w.trace ++ [AlertEvent.isRemoteConnected] }, none) := by
      unfold checkAllSubscribedDevices
      simp [hdown]
    rw [hrun]
    refine ⟨rfl, rfl, ?_, [AlertEvent.isRemoteConnected], rfl, ?_⟩
    · unfold dispatched
      simp [AlertEvent.sent]
    · intro ev hev
      left
      simpa using hev

/-- Witness of C20: with the link up and no subscribed device the periodic
check returns after the enumeration. -/
theorem checkAllSubscribedDevices_idle_witness :
    (linkUpNoDevices.database_.isRemoteConnected = false ∨
      linkUpNoDevices.database_.getAllSubscribedDevices = Except.ok []) ∧
    (checkAllSubscribedDevices linkUpNoDevices).2 = none ∧
    (checkAllSubscribedDevices linkUpNoDevices).1.service = linkUpNoDevices.service ∧
    dispatched (checkAllSubscribedDevices linkUpNoDevices).1 = dispatched linkUpNoDevices :=
  have h := checkAllSubscribedDevices_idle linkUpNoDevices (Or.inr rfl)
  ⟨Or.inr rfl, h.1, h.2.1, h.2.2.1⟩

/-- C21: per-device isolation in checkAllSubscribedDevices. With the link up
and the repository returning the device list, the call returns normally; the
state it leaves is the one obtained by running the turn of each device in list
order from the state the turn before left, whether that turn returned or
raised, so the latest telemetry of every device of the list is fetched. A turn
whose fetch raises or returns no data only records the fetch; a turn whose
subscriber lookup raises or returns nobody only records the two calls;
otherwise the turn evaluates the first sample returned, and no other, for the
subscribers of the device. -/
theorem checkAllSubscribedDevices_device_isolation (w : AlertWorld) (devices : List String)
    (hlink : w.database_.isRemoteConnected = true)
    (hdevices : w.database_.getAllSubscribedDevices = Except.ok devices) :
    (checkAllSubscribedDevices w).2 = none ∧
    (checkAllSubscribedDevices w).1
      = devices.foldl (fun acc d => (checkDevice d acc).1)
          { w with trace := (w.trace ++ [AlertEvent.isRemoteConnected])
              ++ [AlertEvent.getAllSubscribedDevices] } ∧
    (∀ d ∈ devices,
      AlertEvent.getRemoteTelemetry d 1 ∈ (checkAllSubscribedDevices w).1.trace) ∧
    (∀ (d : String) (w2 : AlertWorld),
      (∀ what : String, w2.database_.getRemoteTelemetry d 1 = Except.error what →
        checkDevice d w2
          = ({ w2 with trace := w2.trace ++ [AlertEvent.getRemoteTelemetry d 1] },
              some (Thrown.stdException what))) ∧
      (w2.database_.getRemoteTelemetry d 1 = Except.ok [] →
        checkDevice d w2
          = ({ w2 with trace := w2.trace ++ [AlertEvent.getRemoteTelemetry d 1] }, none)) ∧
      (∀ (data : IoTData) (more : List IoTData),
        w2.database_.getRemoteTelemetry d 1 = Except.ok (data :: more) →
        (∀ what : String, w2.database_.getDeviceSubscribers d = Except.error what →
          checkDevice d w2
            = ({ w2 with trace := (w2.trace ++ [AlertEvent.getRemoteTelemetry d 1])
                  ++ [AlertEvent.getDeviceSubscribers d] },
                some (Thrown.stdException what))) ∧
        (∀ subscribers : List Int,
          w2.database_.getDeviceSubscribers d = Except.ok subscribers →
          checkDevice d w2
            = forEachSubscriber d data.temperature data.humidity subscribers
                { w2 with trace := (w2.trace ++ [AlertEvent.getRemoteTelemetry d 1])
                    ++ [AlertEvent.getDeviceSubscribers d] }))) := by
  have hrun : checkAllSubscribedDevices w
      = forEachDevice devices
          { w with trace := (w.trace ++ [AlertEvent.isRemoteConnected])
              ++ [AlertEvent.getAllSubscribedDevices] } := by
    unfold checkAllSubscribedDevices
    simp only [hlink, hdevices, Bool.not_true, Bool.false_eq_true, if_false]
    cases devices with
    | nil => rfl
    | cons d rest => rfl
  refine ⟨?_, ?_, ?_, ?_⟩
  · rw [hrun]
    exact forEachDevice_returns _ _
  · rw [hrun]
    exact forEachDevice_fold _ _
  · intro d hd
    rw [hrun]
    exact forEachDevice_fetches _ _ d hd
  · intro d w2
    refine ⟨?_, ?_, ?_⟩
    · intro what hf
      unfold checkDevice
      simp only [hf]
    · intro hf
      unfold checkDevice
      simp only [hf]
    · intro data more hf
      refine ⟨?_, ?_⟩
      · intro what hs
        unfold checkDevice
        simp only [hf, hs]
      · intro subscribers hs
        unfold checkDevice
        simp only [hf, hs]
        cases subscribers with
        | nil => rfl
        | cons u rest => rfl

/-- Witness of C21: three devices, the first with a failing fetch and the
second without data; the call returns normally, the telemetry of the third
device is fetched, and its subscriber is notified of the high temperature. -/
theorem checkAllSubscribedDevices_device_isolation_witness :
    threeDevicesWorld.database_.isRemoteConnected = true ∧
    (checkAllSubscribedDevices threeDevicesWorld).2 = none ∧
    AlertEvent.getRemoteTelemetry "d3" 1 ∈ (checkAllSubscribedDevices threeDevicesWorld).1.trace ∧
    dispatched (checkAllSubscribedDevices threeDevicesWorld).1
      = [{ chatId := 7, deviceId := "d3", value := Double.finite 35,
           metricType := "temperature", direction := "above" }] :=
  have h := checkAllSubscribedDevices_device_isolation threeDevicesWorld ["d1", "d2", "d3"]
    rfl rfl
  ⟨rfl, h.1, h.2.2.1 "d3" (by decide), by decide⟩

/-- C22: statistics are monotone and reset only explicitly, the counters being
unbounded integers. addRule, removeRule, enableRule, disableRule and
setupDefaultRules leave the engine statistics as they are, and processData
decreases neither totalProcessed nor rulesTriggered nor the trigger count of
any rule; processTelemetryData and checkAllSubscribedDevices decrease none of
totalAlerts, temperatureAlerts, humidityAlerts and usersNotified. The
resetStatistics of the engine zeroes its counters, empties the trigger counts
and keeps the rule list; the one of the alert processor zeroes its counters
and keeps the dedup cache. -/
theorem statistics_monotone :
    (∀ {W : Type} (S : StdSort) (op : RuleOp W) (e : RuleEngine W),
      (op.apply S e).statistics_ = e.statistics_) ∧
    (∀ {W : Type} (S : StdSort) (e : RuleEngine W),
      (setupDefaultRules S e).statistics_ = e.statistics_) ∧
    (∀ {W : Type} (data : IoTData) (e : RuleEngine W) (w : W),
      Statistics.le e.statistics_ (processData data e w).engine.statistics_) ∧
    (∀ {W : Type} (e : RuleEngine W),
      (resetStatistics e).statistics_
        = { totalProcessed := 0, rulesTriggered := 0, ruleTriggerCount := [] } ∧
      (resetStatistics e).rules_ = e.rules_) ∧
    (∀ (d : String) (t h : Double) (w : AlertWorld),
      AlertStatistics.le w.service.statistics_
        (processTelemetryData d t h w).1.service.statistics_) ∧
    (∀ w : AlertWorld,
      AlertStatistics.le w.service.statistics_
        (checkAllSubscribedDevices w).1.service.statistics_) ∧
    (∀ s : AlertProcessingService,
      s.resetStatistics.statistics_
        = { totalAlerts := 0, temperatureAlerts := 0, humidityAlerts := 0,
            usersNotified := 0 } ∧
      s.resetStatistics.alertCache_ = s.alertCache_) := by
  refine ⟨?_, ?_, ?_, ?_, ?_, ?_, ?_⟩
  · intro W S op e
    cases op with
    | addRule rule => rfl
    | removeRule ruleName => exact removeRule_statistics ruleName e
    | enableRule ruleName => rfl
    | disableRule ruleName => rfl
  · intro W S e
    exact setupDefaultRules_statistics S e
  · intro W data e w
    exact processData_statistics_le data e w
  · intro W e
    exact ⟨rfl, rfl⟩
  · intro d t h w
    exact keeps_processTelemetryData (stepInv_statistics_le w.service.statistics_) d t h w
      ⟨le_refl _, le_refl _, le_refl _, le_refl _⟩
  · intro w
    exact keeps_checkAllSubscribedDevices (stepInv_statistics_le w.service.statistics_) w
      ⟨le_refl _, le_refl _, le_refl _, le_refl _⟩
  · intro s
    exact ⟨rfl, rfl⟩

/-- C23: the poller start/stop state machine. From the initial state, every
sequence of startRemotePolling and stopRemotePolling calls made one after the
other runs through without std::terminate and ends in a state with at most one
polling loop, exactly one when the flag pollingRunning_ is set and none
otherwise. In such a state a start while the flag is set changes nothing: no
loop is launched and the thread keeps the interval it was started with. A
stop clears the flag and leaves no loop, and a start after it launches one
loop with the new interval. -/
theorem poller_start_stop (ops : List PollerOp) :
    ∃ a : Application, runPollerOps ops {} = some a ∧
      loopsAlive a.trace ≤ 1 ∧
      loopsAlive a.trace = (if a.pollingRunning_ = true then 1 else 0) ∧
      (a.pollingRunning_ = true → ∀ j : Int, startRemotePolling j a = some a) ∧
      (stopRemotePolling a).pollingRunning_ = false ∧
      loopsAlive (stopRemotePolling a).trace = 0 ∧
      ∀ j : Int, ∃ a2 : Application,
        startRemotePolling j (stopRemotePolling a) = some a2 ∧
        a2.pollingRunning_ = true ∧ a2.pollingThread_ = some j ∧
        a2.trace = (stopRemotePolling a).trace ++ [PollerEvent.launched j] ∧
        loopsAlive a2.trace = 1 := by
  obtain ⟨a, hrun, hinv⟩ := pollerInv_reachable ops {} (Or.inr ⟨rfl, rfl, rfl⟩)
  have hstop := pollerInv_stop a hinv
  have hstop2 : (stopRemotePolling a).pollingRunning_ = false ∧
      (stopRemotePolling a).pollingThread_ = none ∧
      loopsAlive (stopRemotePolling a).trace = 0 := by
    rcases hstop with ⟨hr, _, _⟩ | h0
    · have hf : (stopRemotePolling a).pollingRunning_ = false := by
        unfold stopRemotePolling
        cases a.pollingThread_ <;> rfl
      rw [hf] at hr
      exact absurd hr (by decide)
    · exact h0
  refine ⟨a, hrun, ?_, ?_, ?_, hstop2.1, hstop2.2.2, ?_⟩
  · rcases hinv with ⟨_, _, hl⟩ | ⟨_, _, hl⟩ <;> omega
  · rcases hinv with ⟨hr, _, hl⟩ | ⟨hr, _, hl⟩ <;> simp [hl, hr]
  · intro hr j
    simp [startRemotePolling, hr]
  · intro j
    refine ⟨Application.mk true (some j)
        ((stopRemotePolling a).trace ++ [PollerEvent.launched j]), ?_, rfl, rfl, rfl, ?_⟩
    · simp [startRemotePolling, hstop2.1, hstop2.2.1]
    · show loopsAlive ((stopRemotePolling a).trace ++ [PollerEvent.launched j]) = 1
      rw [loopsAlive_append, hstop2.2.2]
      rfl

/-- Witness of C23: start with 30 s, start again with 5 s, stop, start with
10 s. The second start launches nothing, and the run ends with one loop, the
one with the interval 10 s. -/
theorem poller_start_stop_witness :
    runPollerOps [PollerOp.start 30, PollerOp.start 5] {}
      = some { pollingRunning_ := true, pollingThread_ := some 30,
               trace := [PollerEvent.launched 30] } ∧
    runPollerOps [PollerOp.start 30, PollerOp.start 5, PollerOp.stop, PollerOp.start 10] {}
      = some { pollingRunning_ := true, pollingThread_ := some 10,
               trace := [PollerEvent.launched 30, PollerEvent.joined,
                 PollerEvent.launched 10] } ∧
    ∃ a : Application,
      runPollerOps [PollerOp.start 30, PollerOp.start 5, PollerOp.stop, PollerOp.start 10] {}
        = some a ∧ loopsAlive a.trace ≤ 1 :=
  ⟨rfl, rfl,
    (poller_start_stop [PollerOp.start 30, PollerOp.start 5, PollerOp.stop,
      PollerOp.start 10]).elim (fun a h => ⟨a, h.1, h.2.1⟩)⟩

/-- C25: formatDoubleNice trims zeros. For every finite value the result is
the sign and the integer part of the rendering with two decimals, followed by
the point and both decimals when the second is not 0, by the point and the
first decimal when only the second is 0, and by nothing when both are 0: no
digit of the integer part is removed. The result is not empty, does not end in
the point, and does not end in 0 when it contains the point. -/
theorem formatDoubleNice_trims_zeros (q : ℚ) :
    (formatDoubleNice (Double.finite q)).data
      = ((if q < 0 then [Char.ofNat 45] else [])
          ++ Nat.toDigits 10 (roundedHundredths q / 100))
        ++ (if roundedHundredths q % 10 ≠ 0 then
              [Char.ofNat 46, Nat.digitChar (roundedHundredths q % 100 / 10),
                Nat.digitChar (roundedHundredths q % 10)]
            else if roundedHundredths q % 100 / 10 ≠ 0 then
              [Char.ofNat 46, Nat.digitChar (roundedHundredths q % 100 / 10)]
            else []) ∧
    (formatDoubleNice (Double.finite q)).data ≠ [] ∧
    ∀ c : Char, (formatDoubleNice (Double.finite q)).data.getLast? = some c →
      c ≠ Char.ofNat 46 ∧
      (Char.ofNat 46 ∈ (formatDoubleNice (Double.finite q)).data → c ≠ Char.ofNat 48) := by
  have ha : roundedHundredths q % 100 / 10 < 10 := by omega
  have hb : roundedHundredths q % 10 < 10 := by omega
  have hdata : (formatDoubleNice (Double.finite q)).data
      = ((if q < 0 then [Char.ofNat 45] else [])
          ++ Nat.toDigits 10 (roundedHundredths q / 100))
        ++ (if roundedHundredths q % 10 ≠ 0 then
              [Char.ofNat 46, Nat.digitChar (roundedHundredths q % 100 / 10),
                Nat.digitChar (roundedHundredths q % 10)]
            else if roundedHundredths q % 100 / 10 ≠ 0 then
              [Char.ofNat 46, Nat.digitChar (roundedHundredths q % 100 / 10)]
            else []) := by
    show (popBackPoint (popBackZeros (Double.fixed2 (Double.finite q)).data.reverse)).reverse = _
    rw [fixed2_data, trim_two_decimals _ _ _ (isDigit_ne_point (digitChar_isDigit ha))
      (isDigit_ne_point (digitChar_isDigit hb))]
    simp only [ne_eq, digitChar_eq_zero_iff ha, digitChar_eq_zero_iff hb]
  have hne : Nat.toDigits 10 (roundedHundredths q / 100) ≠ [] := toDigits_ne_nil _
  refine ⟨hdata, ?_, ?_⟩
  · rw [hdata]
    simp [hne]
  · intro c hc
    rw [hdata] at hc ⊢
    by_cases h1 : roundedHundredths q % 10 = 0
    · by_cases h2 : roundedHundredths q % 100 / 10 = 0
      · simp only [h1, h2, ne_eq, not_true_eq_false, if_false, List.append_nil] at hc ⊢
        have hmem : c ∈ (if q < 0 then [Char.ofNat 45] else [])
            ++ Nat.toDigits 10 (roundedHundredths q / 100) := List.mem_of_getLast?_eq_some hc
        exact ⟨mem_sign_and_digits hmem, fun hp => absurd rfl (mem_sign_and_digits hp)⟩
      · simp only [h1, h2, ne_eq, not_true_eq_false, not_false_eq_true, if_false, if_true] at hc ⊢
        rw [List.getLast?_append] at hc
        simp only [List.getLast?_cons_cons, List.getLast?_singleton, Option.or_some] at hc
        injection hc with hc
        rw [← hc]
        exact ⟨isDigit_ne_point (digitChar_isDigit ha),
          fun _ h0 => h2 ((digitChar_eq_zero_iff ha).mp h0)⟩
    · simp only [h1, ne_eq, not_false_eq_true, if_true] at hc ⊢
      rw [List.getLast?_append] at hc
      simp only [List.getLast?_cons_cons, List.getLast?_singleton, Option.or_some] at hc
      injection hc with hc
      rw [← hc]
      exact ⟨isDigit_ne_point (digitChar_isDigit hb),
        fun _ h0 => h1 ((digitChar_eq_zero_iff hb).mp h0)⟩

/-- Witness of C25: 100.0 gives 100, 55.50 gives 55.5, 3.14159 gives 3.14 and
0.0 gives 0. -/
theorem formatDoubleNice_trims_zeros_witness :
    formatDoubleNice (Double.finite 100) = "100" ∧
    formatDoubleNice (Double.finite (111 / 2)) = "55.5" ∧
    formatDoubleNice (Double.finite (314159 / 100000)) = "3.14" ∧
    formatDoubleNice (Double.finite 0) = "0" ∧
    ∀ c : Char, (formatDoubleNice (Double.finite 100)).data.getLast? = some c →
      c ≠ Char.ofNat 46 := by
  have r1 : roundedHundredths 100 = 10000 :=
    roundedHundredths_of_floor 100 10000 (by norm_num) (by norm_num) (by norm_num)
  have r2 : roundedHundredths (111 / 2) = 5550 :=
    roundedHundredths_of_floor _ 5550 (by norm_num) (by norm_num) (by norm_num)
  have r3 : roundedHundredths (314159 / 100000) = 314 :=
    roundedHundredths_of_floor _ 314 (by norm_num) (by norm_num) (by norm_num)
  have r4 : roundedHundredths 0 = 0 :=
    roundedHundredths_of_floor 0 0 (by norm_num) (by norm_num) (by norm_num)
  have h1 := (formatDoubleNice_trims_zeros 100).1
  have h2 := (formatDoubleNice_trims_zeros (111 / 2)).1
  have h3 := (formatDoubleNice_trims_zeros (314159 / 100000)).1
  have h4 := (formatDoubleNice_trims_zeros 0).1
  rw [r1] at h1
  rw [r2] at h2
  rw [r3] at h3
  rw [r4] at h4
  refine ⟨String.ext (h1.trans ?_), String.ext (h2.trans ?_), String.ext (h3.trans ?_),
    String.ext (h4.trans ?_), fun c hc => ((formatDoubleNice_trims_zeros 100).2.2 c hc).1⟩
  · rw [if_neg (by norm_num)]
    rfl
  · rw [if_neg (by norm_num)]
    rfl
  · rw [if_neg (by norm_num)]
    rfl
  · rw [if_neg (by norm_num)]
    rfl

/-- C26: the human-readable helpers of EmailService. humanMetricName maps
temperature to Temperature, humidity to Humidity and every other string to
itself; humanDirection maps above to too high, below to too low and every
other string to itself; getEmoji returns the fire, snowflake, droplet and
desert emoji for the four pairs of a metric and a direction and the warning
emoji for every other pair. -/
theorem email_human_helpers :
    humanMetricName "temperature" = "Temperature" ∧
    humanMetricName "humidity" = "Humidity" ∧
    (∀ s : String, s ≠ "temperature" → s ≠ "humidity" → humanMetricName s = s) ∧
    humanDirection "above" = "too high" ∧
    humanDirection "below" = "too low" ∧
    (∀ s : String, s ≠ "above" → s ≠ "below" → humanDirection s = s) ∧
    getEmoji "temperature" "above" = "🔥" ∧
    getEmoji "temperature" "below" = "❄️" ∧
    getEmoji "humidity" "above" = "💧" ∧
    getEmoji "humidity" "below" = "🏜️" ∧
    (∀ t d : String,
      ¬ ((t = "temperature" ∨ t = "humidity") ∧ (d = "above" ∨ d = "below")) →
      getEmoji t d = "⚠️") := by
  refine ⟨by decide, by decide, ?_, by decide, by decide, ?_, by decide, by decide, by decide,
    by decide, ?_⟩
  · intro s h1 h2
    simp [humanMetricName, h1, h2]
  · intro s h1 h2
    simp [humanDirection, h1, h2]
  · intro t d h
    unfold getEmoji emojiOfBlock
    by_cases ht : t = "temperature"
    · have hd1 : d ≠ "above" := fun hd => h ⟨Or.inl ht, Or.inl hd⟩
      have hd2 : d ≠ "below" := fun hd => h ⟨Or.inl ht, Or.inr hd⟩
      have hth : t ≠ "humidity" := by rw [ht]; decide
      simp [ht, hd1, hd2]
    · by_cases hh : t = "humidity"
      · have hd1 : d ≠ "above" := fun hd => h ⟨Or.inr hh, Or.inl hd⟩
        have hd2 : d ≠ "below" := fun hd => h ⟨Or.inr hh, Or.inr hd⟩
        simp [hh, hd1, hd2]
      · simp [ht, hh]

/-- Witness of C26: the strings pressure and rising are passed through, and a
pair with an unknown direction gets the warning emoji. -/
theorem email_human_helpers_witness :
    humanMetricName "pressure" = "pressure" ∧
    humanDirection "rising" = "rising" ∧
    getEmoji "temperature" "rising" = "⚠️" :=
  ⟨email_human_helpers.2.2.1 "pressure" (by decide) (by decide),
    email_human_helpers.2.2.2.2.2.1 "rising" (by decide) (by decide),
    email_human_helpers.2.2.2.2.2.2.2.2.2.2 "temperature" "rising" (by decide)⟩

/-- Counterexample to C28 as stated: the action of the first rule removes the
second rule from the engine and then throws an object that is not derived from
std::exception. The second rule is in the snapshot, enabled and with a true
condition, yet processData raises and the second rule is not evaluated: its
condition is not called and its action does not run. -/
theorem processData_snapshot_counterexample :
    sampleD1.isValid = true ∧
    (abortingSharedRules {}).map (fun r => (r.name, r.enabled, r.condition sampleD1))
      = [("remover", true, true), ("victim", true, true)] ∧
    (processDataShared abortingSharedRules sampleD1 sharedEngine {}).escaped
      = some Thrown.other ∧
    (processDataShared abortingSharedRules sampleD1 sharedEngine {}).world
      = { removed := ["victim"], log := ["remover"] } ∧
    (processDataShared abortingSharedRules sampleD1 sharedEngine {}).trace
      = [Event.conditionEvaluated "remover", Event.actionExecuted "remover"] ∧
    Event.conditionEvaluated "victim" ∉
      (processDataShared abortingSharedRules sampleD1 sharedEngine {}).trace := by
  refine ⟨by decide, rfl, by decide, by decide, by decide, by decide⟩

/-- C28, amended: snapshot semantics of processData. On an engine whose rule
list the actions can change, a valid sample is processed against the rule list
of the state in which the call starts: the calls made on rule callables are an
initial part of the calls on the enabled rules of that list, in its order,
whatever the actions do to the rule list of the engine. Provided no exception
leaves processData, that is no condition of an enabled rule of that list throws
and no triggered action of it throws an object that is not derived from
std::exception, the conditions evaluated and the actions executed are those of
all the enabled rules of that list, with the flags and actions they have in it;
the engine is left with the changed list, and the next sample is processed
against it. -/
theorem processData_snapshot {W : Type} (rulesOf : W → List (Rule W)) (data : IoTData)
    (e : RuleEngine W) (w : W) (hvalid : data.isValid = true) :
    (processDataShared rulesOf data e w).trace <+: expectedTrace data (rulesOf w) ∧
    (processDataShared rulesOf data e w).engine.rules_
      = rulesOf (processDataShared rulesOf data e w).world ∧
    ((∀ r ∈ rulesOf w, r.enabled = true → r.conditionThrows data = none) →
      (∀ r ∈ triggeredRules data (rulesOf w), ∀ w1,
        (r.action data w1).2 ≠ some Thrown.other) →
      (processDataShared rulesOf data e w).escaped = none ∧
      (processDataShared rulesOf data e w).trace = expectedTrace data (rulesOf w) ∧
      (processDataShared rulesOf data e w).trace.filter Event.isAction
        = (triggeredRules data (rulesOf w)).map (fun r => Event.actionExecuted r.name) ∧
      (processDataShared rulesOf data e w).world
        = runActions data (triggeredRules data (rulesOf w)) w ∧
      ∀ data2 : IoTData, data2.isValid = true →
        (∀ r ∈ rulesOf (processDataShared rulesOf data e w).world, r.enabled = true →
          r.conditionThrows data2 = none) →
        (∀ r ∈ triggeredRules data2 (rulesOf (processDataShared rulesOf data e w).world),
          ∀ w1, (r.action data2 w1).2 ≠ some Thrown.other) →
        (processDataShared rulesOf data2 (processDataShared rulesOf data e w).engine
          (processDataShared rulesOf data e w).world).trace
          = expectedTrace data2 (rulesOf (processDataShared rulesOf data e w).world)) := by
  refine ⟨?_, rfl, ?_⟩
  · show (processData data { e with rules_ := rulesOf w } w).trace <+: _
    rw [processData_valid data _ w hvalid]
    obtain ⟨evs, h1, h2⟩ := applyRules_trace_initial data (rulesOf w)
      { statistics := { e.statistics_ with totalProcessed := e.statistics_.totalProcessed + 1 },
        world := w, trace := [] }
    show (applyRules data (rulesOf w) _).1.trace <+: _
    rw [h1]
    exact h2
  · intro hconds hcaught
    obtain ⟨h1, _, _, _, _, h6, h7⟩ := processData_caught data { e with rules_ := rulesOf w } w
      hvalid hconds hcaught
    refine ⟨h1, h7, ?_, h6, ?_⟩
    · show (processData data { e with rules_ := rulesOf w } w).trace.filter Event.isAction = _
      rw [h7, expectedTrace_actions]
    · intro data2 hvalid2 hconds2 hcaught2
      exact (processData_caught data2 _ _ hvalid2 hconds2 hcaught2).2.2.2.2.2.2

/-- Witness of C28, amended: the action of the first rule removes the second
rule from the engine. The sample under way still evaluates and executes the
second rule; the next sample does not. -/
theorem processData_snapshot_witness :
    sampleD1.isValid = true ∧
    (processDataShared sharedRules sampleD1 sharedEngine {}).trace
      = [Event.conditionEvaluated "remover", Event.actionExecuted "remover",
          Event.conditionEvaluated "victim", Event.actionExecuted "victim"] ∧
    (processDataShared sharedRules sampleD1 sharedEngine {}).world
      = { removed := ["victim"], log := ["remover", "victim"] } ∧
    getRuleNames (processDataShared sharedRules sampleD1 sharedEngine {}).engine = ["remover"] ∧
    (processDataShared sharedRules sampleD1
      (processDataShared sharedRules sampleD1 sharedEngine {}).engine
      (processDataShared sharedRules sampleD1 sharedEngine {}).world).trace
      = [Event.conditionEvaluated "remover", Event.actionExecuted "remover"] :=
  have hr : ∀ (w : SharedWorld), ∀ r ∈ sharedRules w, r.enabled = true →
      r.conditionThrows sampleD1 = none := by
    intro w r hr _
    have hmem := (List.mem_filter.mp hr).1
    simp only [List.mem_cons, List.mem_singleton, List.not_mem_nil, or_false] at hmem
    rcases hmem with hm | hm <;> rw [hm]
  have hc : ∀ (w : SharedWorld), ∀ r ∈ triggeredRules sampleD1 (sharedRules w), ∀ w1,
      (r.action sampleD1 w1).2 ≠ some Thrown.other := by
    intro w r hr w1
    have hmem := (List.mem_filter.mp (mem_triggeredRules.mp hr).1).1
    simp only [List.mem_cons, List.mem_singleton, List.not_mem_nil, or_false] at hmem
    rcases hmem with hm | hm <;> rw [hm] <;> simp
  have h := (processData_snapshot sharedRules sampleD1 sharedEngine {} (by decide)).2.2
    (hr {}) (hc {})
  ⟨by decide, h.2.1.trans (by decide), h.2.2.2.1.trans (by decide), by decide,
    (h.2.2.2.2 sampleD1 (by decide) (hr _) (hc _)).trans (by decide)⟩

/-- C29: the engine path notifies at most once per kind per sample. With the
default rules and the alert processor wired in, a valid sample processed while
the clock advances by at most 300 s over the readings made during the
processing does not raise; the action of the validation rule leaves the state
as it is and the action of each of the four threshold rules is one call of
processTelemetryData with the reading of the sample, so that the state reached
is that of one such call per threshold rule whose condition holds (temperature
above 28, below 15, humidity above 70, below 30), one call after the other; the
notifications handed to the gateway during the processing are pairwise distinct
in subscriber, device, metric and direction, and totalAlerts and usersNotified
grow by the number of these notifications. The sample with 35 degrees and 80
percent triggers the validation, temperature-high and humidity-high rules, so
processTelemetryData runs twice with that reading. -/
theorem engine_path_notifies_once (S : StdSort) (statistics : Statistics) (data : IoTData)
    (w : AlertWorld) (hvalid : data.isValid = true)
    (hwin : ∀ i j, w.clockReads ≤ i → i ≤ j →
      j < (processData data (setupDefaultRules S (wiredEngine statistics)) w).world.clockReads →
      w.clock j - w.clock i ≤ seconds 300) :
    (processData data (setupDefaultRules S (wiredEngine statistics)) w).escaped = none ∧
    (∀ r ∈ (setupDefaultRules S (wiredEngine statistics)).rules_,
      (r.name = "data_validation" → r.action data = (fun w1 => (w1, none))) ∧
      (r.name ≠ "data_validation" →
        r.action data
          = processTelemetryData data.deviceId data.temperature data.humidity)) ∧
    (processData data (setupDefaultRules S (wiredEngine statistics)) w).world
      = Nat.iterate
          (fun w1 => (processTelemetryData data.deviceId data.temperature data.humidity w1).1)
          ((if Double.gt data.temperature (Double.finite 28) = true then 1 else 0)
            + (if Double.lt data.temperature (Double.finite 15) = true then 1 else 0)
            + (if Double.gt data.humidity (Double.finite 70) = true then 1 else 0)
            + (if Double.lt data.humidity (Double.finite 30) = true then 1 else 0)) w ∧
    (∃ ns : List Notification,
      dispatched (processData data (setupDefaultRules S (wiredEngine statistics)) w).world
        = dispatched w ++ ns ∧
      (ns.map (fun n => (n.chatId, n.deviceId, n.metricType, n.direction))).Nodup ∧
      (processData data (setupDefaultRules S
        (wiredEngine statistics)) w).world.service.statistics_.totalAlerts
        = w.service.statistics_.totalAlerts + ns.length ∧
      (processData data (setupDefaultRules S
        (wiredEngine statistics)) w).world.service.statistics_.usersNotified
        = w.service.statistics_.usersNotified + ns.length) ∧
    (processData sampleHotHumid (setupDefaultRules S (wiredEngine statistics)) w).trace.filter
      Event.isAction
      = [Event.actionExecuted "data_validation",
          Event.actionExecuted "temperature_high_alert",
          Event.actionExecuted "humidity_high_alert"] ∧
    (processData sampleHotHumid (setupDefaultRules S (wiredEngine statistics)) w).world
      = (processTelemetryData "d1" (Double.finite 35) (Double.finite 80)
          (processTelemetryData "d1" (Double.finite 35) (Double.finite 80) w).1).1 := by
  have hname : ∀ (data2 : IoTData),
      ∀ r ∈ (setupDefaultRules S (wiredEngine statistics)).rules_,
      (r.name = "data_validation" → r.action data2 = (fun w1 => (w1, none))) ∧
      (r.name ≠ "data_validation" →
        r.action data2
          = processTelemetryData data2.deviceId data2.temperature data2.humidity) := by
    intro data2 r hr
    exact defaultRules_action_by_name statistics data2
      ((setupDefaultRules_perm S (wiredEngine statistics)).mem_iff.mp hr)
  have hact : ∀ (data2 : IoTData),
      ∀ r ∈ triggeredRules data2 (setupDefaultRules S (wiredEngine statistics)).rules_,
      r.action data2 = (fun w1 => (w1, none)) ∨
      r.action data2
        = processTelemetryData data2.deviceId data2.temperature data2.humidity := by
    intro data2 r hr
    exact defaultRules_action statistics data2
      ((setupDefaultRules_perm S (wiredEngine statistics)).mem_iff.mp
        (mem_triggeredRules.mp hr).1)
  have hcaught : ∀ (data2 : IoTData),
      ∀ r ∈ triggeredRules data2 (setupDefaultRules S (wiredEngine statistics)).rules_,
      ∀ w1, (r.action data2 w1).2 ≠ some Thrown.other := by
    intro data2 r hr w1
    rcases hact data2 r hr with h | h <;> rw [h]
    · intro hc
      exact Option.noConfusion hc
    · exact (good_processTelemetryData _ _ _).noOther w1
  obtain ⟨h1, _, _, _, _, h6, _⟩ := processData_caught data
    (setupDefaultRules S (wiredEngine statistics)) w hvalid
    (setupDefaultRules_conditions_return S _ data) (hcaught data)
  obtain ⟨_, _, _, _, _, k6, k7⟩ := processData_caught sampleHotHumid
    (setupDefaultRules S (wiredEngine statistics)) w (by decide)
    (setupDefaultRules_conditions_return S _ sampleHotHumid) (hcaught sampleHotHumid)
  have hI := stepInv_sentOnce (dispatched w) w.clockReads
    (processData data (setupDefaultRules S (wiredEngine statistics)) w).world.clockReads
    w.clock w.service.statistics_ hwin
  have hfinal := keeps_runActions data
    (triggeredRules data (setupDefaultRules S (wiredEngine statistics)).rules_) w
    (by
      intro r hr
      rcases hact data r hr with h | h <;> rw [h]
      · exact fun _ hw => hw
      · exact keeps_processTelemetryData hI _ _ _)
    (fun _ => sentOnce_start w)
  rw [← h6] at hfinal
  obtain ⟨ns, hds, hnd, _, hst⟩ := (hfinal (le_refl _)).sent
  refine ⟨h1, hname data, ?_, ⟨ns, hds, ?_, hst⟩, ?_, ?_⟩
  · rw [h6, runActions_iterate data _ w
      (fun r hr => hname data r (mem_triggeredRules.mp hr).1),
      triggeredRules_default_thresholds]
  · have hmap : ns.map Notification.cacheKey
        = (ns.map (fun n => (n.chatId, n.deviceId, n.metricType, n.direction))).map
            (fun t => Notification.cacheKey
              { chatId := t.1, deviceId := t.2.1, value := Double.finite 0,
                metricType := t.2.2.1, direction := t.2.2.2 }) := by
      rw [List.map_map]
      rfl
    rw [hmap] at hnd
    exact List.Nodup.of_map _ hnd
  · rw [k7, expectedTrace_actions, triggeredRules_default_sampleHotHumid]
    rfl
  · rw [k6, triggeredRules_default_sampleHotHumid]
    rfl

/-- Witness of C29: subscriber 7 of device d1 with the thresholds 28, 15, 70 and
30 and a clock that stands still; the sample with 35 degrees and 80 percent
gives one temperature-above and one humidity-above notification, and
totalAlerts becomes 2. -/
theorem engine_path_notifies_once_witness :
    sampleHotHumid.isValid = true ∧
    (processData sampleHotHumid (setupDefaultRules insertionStdSort (wiredEngine {}))
      (subscribedWorld [7])).escaped = none ∧
    (∃ ns : List Notification,
      dispatched (processData sampleHotHumid (setupDefaultRules insertionStdSort
        (wiredEngine {})) (subscribedWorld [7])).world
        = dispatched (subscribedWorld [7]) ++ ns ∧
      (ns.map (fun n => (n.chatId, n.deviceId, n.metricType, n.direction))).Nodup) ∧
    dispatched (processData sampleHotHumid (setupDefaultRules insertionStdSort
      (wiredEngine {})) (subscribedWorld [7])).world
      = [{ chatId := 7, deviceId := "d1", value := Double.finite 35,
           metricType := "temperature", direction := "above" },
         { chatId := 7, deviceId := "d1", value := Double.finite 80,
           metricType := "humidity", direction := "above" }] ∧
    (processData sampleHotHumid (setupDefaultRules insertionStdSort (wiredEngine {}))
      (subscribedWorld [7])).world.service.statistics_.totalAlerts = 2 :=
  have h := engine_path_notifies_once insertionStdSort {} sampleHotHumid (subscribedWorld [7])
    (by decide) (fun _ _ _ _ _ => show (0 : Int) - 0 ≤ seconds 300 by decide)
  ⟨by decide, h.1, h.2.2.2.1.elim (fun ns hns => ⟨ns, hns.1, hns.2.1⟩), by decide, by decide⟩

/-- Counterexample to C30 as stated: the gateway fails to deliver the
notifications for subscriber 1. The temperature-high block for that subscriber
does not raise: the gateway call returns, and totalAlerts, usersNotified and
temperatureAlerts are incremented although nothing was delivered. -/
theorem failed_dispatch_counterexample :
    failingGatewayWorld.notifier_.sendTelegramAlert
      { chatId := 1, deviceId := "d1", value := Double.finite 35,
        metricType := "temperature", direction := "above" } = false ∧
    failingGatewayWorld.service.statistics_
      = { totalAlerts := 0, usersNotified := 0, temperatureAlerts := 0, humidityAlerts := 0 } ∧
    (notifyAndDispatch 1 "d1" "temp_high" (Double.finite 35) "temperature" "above"
      failingGatewayWorld).2 = none ∧
    delivered (notifyAndDispatch 1 "d1" "temp_high" (Double.finite 35) "temperature" "above"
      failingGatewayWorld).1 = [] ∧
    (notifyAndDispatch 1 "d1" "temp_high" (Double.finite 35) "temperature" "above"
      failingGatewayWorld).1.service.statistics_
      = { totalAlerts := 1, usersNotified := 1, temperatureAlerts := 1, humidityAlerts := 0 } := by
  refine ⟨by decide, rfl, by decide, by decide, rfl⟩

/-- C30, amended: a failed dispatch still consumes the cooldown. When the
notify-check of a block passes and the gateway fails to deliver the
notification, the gateway call returns all the same and the block does not
raise; the notification has been handed to the gateway and none is delivered,
the dedup entry of the key is in the cache with the time of the attempt, and
totalAlerts and usersNotified are incremented; an identical trigger at a clock
reading at most 300 s later is suppressed, whatever the gateway would do then:
the block returns after the notify-check without a gateway call and without a
change of the statistics. -/
theorem failed_dispatch_consumes_cooldown (u : Int) (d k m dir : String) (v : Double)
    (w : AlertWorld)
    (hfresh : mapFind (evictLoop (w.clock w.clockReads) w.service.alertCache_)
      (cacheKey u d k) = none)
    (hsend : w.notifier_.sendTelegramAlert
      { chatId := u, deviceId := d, value := v, metricType := m, direction := dir }
      = false)
    (hsoon : w.clock (w.clockReads + 1) - w.clock w.clockReads ≤ seconds 300) :
    (notifyAndDispatch u d k v m dir w).2 = none ∧
    dispatched (notifyAndDispatch u d k v m dir w).1 = dispatched w ++
      [{ chatId := u, deviceId := d, value := v, metricType := m, direction := dir }] ∧
    delivered (notifyAndDispatch u d k v m dir w).1 = delivered w ∧
    mapFind (notifyAndDispatch u d k v m dir w).1.service.alertCache_ (cacheKey u d k)
      = some (w.clock w.clockReads) ∧
    (notifyAndDispatch u d k v m dir w).1.service.statistics_.totalAlerts
      = w.service.statistics_.totalAlerts + 1 ∧
    (notifyAndDispatch u d k v m dir w).1.service.statistics_.usersNotified
      = w.service.statistics_.usersNotified + 1 ∧
    ∀ (notifier : NotificationService) (v2 : Double),
      (notifyAndDispatch u d k v2 m dir
        { (notifyAndDispatch u d k v m dir w).1 with notifier_ := notifier }).2 = none ∧
      (notifyAndDispatch u d k v2 m dir
        { (notifyAndDispatch u d k v m dir w).1 with notifier_ := notifier }).1.trace
        = (notifyAndDispatch u d k v m dir w).1.trace
          ++ [AlertEvent.shouldNotify u d k false] ∧
      (notifyAndDispatch u d k v2 m dir
        { (notifyAndDispatch u d k v m dir w).1 with
          notifier_ := notifier }).1.service.statistics_
        = (notifyAndDispatch u d k v m dir w).1.service.statistics_ := by
  have hpass := notifyAndDispatch_pass u d k v m dir w hfresh
  obtain ⟨e1, e2⟩ := updateStatistics_total m
    { w.service with
      alertCache_ := evictLoop (w.clock w.clockReads) w.service.alertCache_
        ++ [(cacheKey u d k, w.clock w.clockReads)] }
  have hdisp : dispatched (notifyAndDispatch u d k v m dir w).1 = dispatched w ++
      [{ chatId := u, deviceId := d, value := v, metricType := m, direction := dir }] := by
    rw [hpass]
    unfold dispatched
    simp [AlertEvent.sent]
  have hnt : (notifyAndDispatch u d k v m dir w).1.notifier_ = w.notifier_ := by
    rw [hpass]
  refine ⟨by rw [hpass], hdisp, ?_, ?_, by rw [hpass]; exact e1, by rw [hpass]; exact e2, ?_⟩
  · unfold delivered
    rw [hdisp, hnt, List.filter_append, List.filter_cons, hsend]
    simp
  · rw [hpass]
    show mapFind (evictLoop (w.clock w.clockReads) w.service.alertCache_
      ++ [(cacheKey u d k, w.clock w.clockReads)]) (cacheKey u d k) = _
    rw [mapFind_append_of_none _ hfresh]
    simp [mapFind]
  · intro notifier v2
    rw [hpass]
    have hlive : (mapFind (evictLoop (w.clock (w.clockReads + 1))
        (evictLoop (w.clock w.clockReads) w.service.alertCache_
          ++ [(cacheKey u d k, w.clock w.clockReads)])) (cacheKey u d k)).isSome = true := by
      have hmem : (cacheKey u d k, w.clock w.clockReads) ∈ evictLoop (w.clock (w.clockReads + 1))
          (evictLoop (w.clock w.clockReads) w.service.alertCache_
            ++ [(cacheKey u d k, w.clock w.clockReads)]) := by
        rw [mem_evictLoop]
        exact ⟨by simp, hsoon⟩
      exact mapFind_isSome_of_mem hmem
    have hsup := notifyAndDispatch_suppressed u d k v2 m dir
      { ({ w with
            service := updateStatistics m
              { w.service with
                alertCache_ := evictLoop (w.clock w.clockReads) w.service.alertCache_
                  ++ [(cacheKey u d k, w.clock w.clockReads)] },
            clockReads := w.clockReads + 1,
            trace := (w.trace ++ [AlertEvent.shouldNotify u d k true])
              ++ [AlertEvent.sendTelegramAlert
                { chatId := u, deviceId := d, value := v, metricType := m,
                  direction := dir }] } : AlertWorld) with notifier_ := notifier }
      (by rw [updateStatistics_cache]; exact hlive)
    rw [hsup]
    exact ⟨rfl, rfl, rfl⟩

/-- Witness of C30, amended: subscriber 1 of device d1 with a gateway that
fails to deliver to that subscriber; the temperature-high block returns,
totalAlerts becomes 1, and the same trigger right afterwards is suppressed
although the gateway would now deliver. -/
theorem failed_dispatch_consumes_cooldown_witness :
    failingGatewayWorld.notifier_.sendTelegramAlert
      { chatId := 1, deviceId := "d1", value := Double.finite 35,
        metricType := "temperature", direction := "above" } = false ∧
    (notifyAndDispatch 1 "d1" "temp_high" (Double.finite 35) "temperature" "above"
      failingGatewayWorld).2 = none ∧
    (notifyAndDispatch 1 "d1" "temp_high" (Double.finite 35) "temperature" "above"
      failingGatewayWorld).1.service.statistics_.totalAlerts
      = failingGatewayWorld.service.statistics_.totalAlerts + 1 ∧
    (notifyAndDispatch 1 "d1" "temp_high" (Double.finite 35) "temperature" "above"
      { (notifyAndDispatch 1 "d1" "temp_high" (Double.finite 35) "temperature" "above"
          failingGatewayWorld).1 with notifier_ := {} }).1.trace
      = (notifyAndDispatch 1 "d1" "temp_high" (Double.finite 35) "temperature" "above"
          failingGatewayWorld).1.trace
        ++ [AlertEvent.shouldNotify 1 "d1" "temp_high" false] :=
  have h := failed_dispatch_consumes_cooldown 1 "d1" "temp_high" "temperature" "above"
    (Double.finite 35) failingGatewayWorld (by decide) (by decide) (by decide)
  ⟨by decide, h.1, h.2.2.2.2.1, (h.2.2.2.2.2.2 {} (Double.finite 35)).2.1⟩

end IotCore
